import Mathlib

/-!
# CuteBoard dashboard: parameters, time plot, state display, reactive layout element

A shallow embedding of `dashboard/dashboard_parameter.cpp`,
`dashboard/elements/plot_time.cpp`, `dashboard/elements/state_display.cpp` and
`dashboard/layouts/layout_reactive_element.cpp`.

Conventions of the embedding.

* A `QExplicitlySharedDataPointer<QTBParameterConfiguration>` is a `Ptr`: `none` is the null
  pointer, `some i` the object in cell `i` of the `Heap`.  Two pointers denote the same object
  exactly when they are equal.  Dereferencing null (or a cell that was never allocated) makes the
  operation return `none`.
* `double` values are exact rationals; the rounding of the few sums and products that occur is
  not modelled.
* `quint32` values are naturals reduced modulo `2 ^ 32`.
* Classes whose source is not part of the four files (`QTBParameterConfiguration`, the board, the
  data manager, the project) appear through the members the code reads and writes; their
  getter/setter pairs are field reads and field updates.  What the code only calls is collected
  in `Platform`, `QTBoard` and `ElementMethods`.
* A layout grid of QCustomPlot is the sequence of its cells; the main layout of the plot holds
  the axis rectangle and the legend layout by name.
* A method that dereferences a null pointer or indexes a list out of range has no result
  (`none`).
-/

namespace CuteBoard

/-! ## Qt value types -/

/-- A colour: validity flag and the four channels. `QColor()` is the invalid colour. -/
structure QColor where
  valid : Bool := false
  red : Nat := 0
  green : Nat := 0
  blue : Nat := 0
  alpha : Nat := 255
  deriving DecidableEq, Repr, Inhabited

/-- The colour `QColor(r, g, b, a)`. -/
def QColor.rgba (r g b a : Nat) : QColor :=
  { valid := true, red := r, green := g, blue := b, alpha := a }

/-- The method `QColor::setAlpha`. -/
def QColor.setAlpha (c : QColor) (a : Nat) : QColor :=
  { c with alpha := a }

/-- A brush: `Qt::NoBrush`, a solid colour, or the linear gradient built from a colour. -/
inductive QBrush where
  | NoBrush
  | solid (c : QColor)
  | linearGradient (c : QColor)
  deriving DecidableEq, Repr, Inhabited

/-- A pen: `Qt::NoPen` or a coloured pen, possibly with the dash-dot-dot style. -/
inductive QPen where
  | NoPen
  | solidLine (c : QColor)
  | dashDotDotLine (c : QColor)
  deriving DecidableEq, Repr, Inhabited

/-- Colour settings `QTBColorSettings`: colour, foreground colour and background brush. -/
structure QTBColorSettings where
  color : QColor := {}
  foregroundColor : QColor := {}
  backgroundBrush : QBrush := QBrush.NoBrush
  deriving DecidableEq, Repr, Inhabited

/-! ## Samples -/

/-- A sample value, seen through the four conversions the code applies to it. -/
structure QTBDataValue where
  uint32_value : Nat := 0
  toUint32 : Nat := 0
  toDouble : Rat := 0
  toString : Int → String := fun _ => ""
  deriving Inhabited

/-- A time-stamped sample. -/
structure QTBDataSample where
  value : QTBDataValue := {}
  datationSecFromMidnight : Rat := 0
  deriving Inhabited

/-- A data parameter of the data manager. -/
structure QTBParameter where
  parameterId : Nat
  label : String
  unit : String
  deriving DecidableEq, Repr, Inhabited

/-! ## Parameter configuration -/

/-- Thresholds settings: the active flag, the two ordered maps (ascending keys) and the lookup
`colorSettings(value, validColor)`, which returns the settings together with the flag. -/
structure QTBThresholdsSettings where
  active : Bool := false
  lowThresholds : List (Rat × QTBColorSettings) := []
  highThresholds : List (Rat × QTBColorSettings) := []
  colorSettings : Rat → QTBColorSettings × Bool := fun _ => ({}, false)
  deriving Inhabited

/-- States settings: the active flag, the text of a state and the lookup
`colorSettings(value, validColor)`. -/
structure QTBStatesSettings where
  active : Bool := false
  text : Nat → String := fun _ => ""
  colorSettings : Nat → QTBColorSettings × Bool := fun _ => ({}, false)
  deriving Inhabited

/-- The enumeration `QTBParameterConfiguration::ItemColorMode`: the two enumerators the code names,
and any other value. -/
inductive ItemColorMode where
  | icDynamic
  | icCustom
  | other (raw : Int)
  deriving DecidableEq, Repr, Inhabited

/-- The enumeration `QTBParameterConfiguration::BrushStyle`. -/
inductive BrushStyle where
  | bsNone
  | bsFilled
  | bsGradient
  deriving DecidableEq, Repr, Inhabited

/-- The enumeration `QTBParameterConfiguration::ConfigurationMode`: the two enumerators the code
names, and any other value. -/
inductive ConfigurationMode where
  | cmState
  | cmGraph
  | other (raw : Int)
  deriving DecidableEq, Repr, Inhabited

/-- The members of `QTBParameterConfiguration` that the dashboard code reads or writes. -/
structure QTBParameterConfiguration where
  label : String := ""
  description : String := ""
  userLabelEnabled : Bool := false
  userDefinedLabel : String := ""
  userUnitEnabled : Bool := false
  userDefinedUnit : String := ""
  precision : Int := 0
  validRange : Bool := false
  rangeMinimum : Rat := 0
  rangeMaximum : Rat := 0
  outOfRangeColorEnabled : Bool := false
  defaultColorSettings : QTBColorSettings := {}
  outOfRangeColorSettings : QTBColorSettings := {}
  thresholdsSettings : QTBThresholdsSettings := {}
  statesSettings : QTBStatesSettings := {}
  itemsThresholdsVisible : Bool := false
  itemColorMode : ItemColorMode := ItemColorMode.other 0
  itemStaticColor : QColor := {}
  graphBrush : BrushStyle := BrushStyle.bsNone
  modified : Bool := false
  deriving Inhabited

/-- The method `setLabel` of the configuration. -/
def QTBParameterConfiguration.setLabel (c : QTBParameterConfiguration) (l : String) :
    QTBParameterConfiguration :=
  { c with label := l }

/-- The call `defaultColorSettingsRef().setColor(color)` on the configuration. -/
def QTBParameterConfiguration.setDefaultColor (c : QTBParameterConfiguration) (col : QColor) :
    QTBParameterConfiguration :=
  { c with defaultColorSettings := { c.defaultColorSettings with color := col } }

/-! ## Shared pointers and the heap of configurations -/

/-- A shared pointer to a configuration: null or the index of a heap cell. -/
abbrev Ptr := Option Nat

/-- The configurations allocated so far, by cell index. -/
abbrev Heap := List QTBParameterConfiguration

/-- Dereference: `none` for the null pointer and for a cell that does not exist. -/
def deref (h : Heap) : Ptr → Option QTBParameterConfiguration
  | none => none
  | some i => h[i]?

/-- The expression `new QTBParameterConfiguration(c)`: a fresh cell holding `c`. -/
def alloc (h : Heap) (c : QTBParameterConfiguration) : Heap × Ptr :=
  (h ++ [c], some h.length)

/-- Write through a pointer: replace the object in its cell. -/
def store (h : Heap) (p : Ptr) (c : QTBParameterConfiguration) : Heap :=
  match p with
  | none => h
  | some i => h.set i c

/-! ## Settings store -/

/-- A `QVariant` holding one of the types the dashboard stores. -/
inductive QVariant where
  | invalid
  | bool (b : Bool)
  | int (i : Int)
  | double (d : Rat)
  | string (s : String)
  deriving DecidableEq, Repr, Inhabited

/-- Conversions between text and numbers, which Qt's locale code performs. -/
structure QtConversions where
  stringToInt : String → Int
  stringToDouble : String → Rat
  doubleToString : Rat → String
  doubleToInt : Rat → Int
  deriving Inhabited

/-- Lower-case form of a string, character by character. -/
def QString_toLower (s : String) : String :=
  String.mk (s.data.map Char.toLower)

/-- Upper-case form of a string, character by character (`QString::toUpper`). -/
def QString_toUpper (s : String) : String :=
  String.mk (s.data.map Char.toUpper)

/-- The conversion `QVariant::toBool`: a bool is itself, a number is true when non-zero, a string
is true unless its lower-case content is empty, `0` or `false`. -/
def QVariant.toBool : QVariant → Bool
  | QVariant.invalid => false
  | QVariant.bool b => b
  | QVariant.int i => decide (i ≠ 0)
  | QVariant.double d => decide (d ≠ 0)
  | QVariant.string s =>
      let l := QString_toLower s
      !(l == "" || l == "0" || l == "false")

/-- The conversion `QVariant::toInt`. -/
def QVariant.toInt (qt : QtConversions) : QVariant → Int
  | QVariant.invalid => 0
  | QVariant.bool b => if b then 1 else 0
  | QVariant.int i => i
  | QVariant.double d => qt.doubleToInt d
  | QVariant.string s => qt.stringToInt s

/-- The conversion `QVariant::toDouble`. -/
def QVariant.toDouble (qt : QtConversions) : QVariant → Rat
  | QVariant.invalid => 0
  | QVariant.bool b => if b then 1 else 0
  | QVariant.int i => i
  | QVariant.double d => d
  | QVariant.string s => qt.stringToDouble s

/-- The conversion `QVariant::toString`. -/
def QVariant.toString (qt : QtConversions) : QVariant → String
  | QVariant.invalid => ""
  | QVariant.bool b => if b then "true" else "false"
  | QVariant.int i => ToString.toString i
  | QVariant.double d => qt.doubleToString d
  | QVariant.string s => s

/-- A `QSettings` object: the stack of open groups (innermost first) and the stored entries by
full key. -/
structure QSettings where
  groups : List String := []
  entries : String → Option QVariant := fun _ => none
  deriving Inhabited

/-- The path of the open groups, each followed by a slash, outermost first. -/
def groupPath : List String → String
  | [] => ""
  | g :: outer => groupPath outer ++ (g ++ "/")

/-- The full key of `key` in the current group. -/
def QSettings.fullKey (s : QSettings) (key : String) : String :=
  groupPath s.groups ++ key

/-- The method `QSettings::beginGroup`. -/
def QSettings.beginGroup (s : QSettings) (g : String) : QSettings :=
  { s with groups := g :: s.groups }

/-- The method `QSettings::endGroup`. -/
def QSettings.endGroup (s : QSettings) : QSettings :=
  { s with groups := s.groups.tail }

/-- The method `QSettings::contains`. -/
def QSettings.contains (s : QSettings) (key : String) : Bool :=
  (s.entries (s.fullKey key)).isSome

/-- The method `QSettings::value`: the stored variant, or an invalid one when the key is absent. -/
def QSettings.value (s : QSettings) (key : String) : QVariant :=
  (s.entries (s.fullKey key)).getD QVariant.invalid

/-- The method `QSettings::setValue`. -/
def QSettings.setValue (s : QSettings) (key : String) (v : QVariant) : QSettings :=
  { s with entries := fun k => if k = s.fullKey key then some v else s.entries k }

/-! ## Plot value types (QCustomPlot) -/

/-- A `QCPRange`. -/
structure QCPRange where
  lower : Rat := 0
  upper : Rat := 0
  deriving DecidableEq, Repr, Inhabited

/-- The properties of a `QCPAxis` that the plot sets. -/
structure QCPAxis where
  range : QCPRange := {}
  basePen : QPen := QPen.NoPen
  tickPen : QPen := QPen.NoPen
  subTickPen : QPen := QPen.NoPen
  tickLabels : Bool := true
  gridVisible : Bool := true
  rangeReversed : Bool := false
  visible : Bool := true
  deriving DecidableEq, Repr, Inhabited

/-- A horizontal `QCPItemStraightLine` through `(0, y)` and `(1, y)` with its pen. -/
structure QCPItemStraightLine where
  y : Rat
  pen : QPen
  deriving DecidableEq, Repr, Inhabited

/-- A coloured segment of a `QTBGraph`: value interval, pen and brush. -/
structure QTBColoredSegment where
  lower : Rat
  upper : Rat
  pen : QPen
  brush : QBrush
  deriving DecidableEq, Repr, Inhabited

/-- A `QTBGraph`: its data points `(key, value)` and its coloured segments, which are the
segments passed to `addColoredSegment` since the last `clearColoredSegments`, in call order. -/
structure QTBGraph where
  data : List (Rat × Rat) := []
  coloredSegments : List QTBColoredSegment := []
  deriving DecidableEq, Repr, Inhabited

/-- The value `std::numeric_limits<double>::max()`. -/
def DBL_MAX : Rat := 2 ^ 1024 - 2 ^ 971

/-- The call `addData(key, value)` on a graph (`QCPDataContainer::add`): the point is appended
when the container is empty or the key is not smaller than the last key, prepended when the key is
smaller than the first key, and otherwise inserted before the first point whose key is not
smaller, so that data sorted by key stay sorted. -/
def QTBGraph.addData (g : QTBGraph) (key value : Rat) : QTBGraph :=
  match g.data.getLast?, g.data.head? with
  | some last, some first =>
      if ¬ key < last.1 then { g with data := g.data ++ [(key, value)] }
      else if key < first.1 then { g with data := (key, value) :: g.data }
      else
        { g with data := g.data.takeWhile (fun pt => decide (pt.1 < key)) ++
            (key, value) :: g.data.dropWhile (fun pt => decide (pt.1 < key)) }
  | _, _ => { g with data := g.data ++ [(key, value)] }

/-- The call `data()->removeBefore(sortKey)`: removes all data points with keys smaller than
`sortKey`. -/
def QTBGraph.removeBefore (g : QTBGraph) (sortKey : Rat) : QTBGraph :=
  { g with data := g.data.filter (fun pt => decide (¬ pt.1 < sortKey)) }

/-- The loop `for (it = serie.constBegin(); it != serie.constEnd(); ++it) graph->addData(
it->datationSecFromMidnight(), it->value().toDouble())` over a data series. -/
def QTBGraph.addSerie (g : QTBGraph) (serie : List QTBDataSample) : QTBGraph :=
  serie.foldl (fun g sample => g.addData sample.datationSecFromMidnight sample.value.toDouble) g

/-- The value of an `int` expression: the mathematical value reduced to 32 bits, two's
complement. -/
def int32 (x : Int) : Int :=
  (x + 2147483648) % 4294967296 - 2147483648

/-! ## Surroundings of the dashboard code -/

/-- Library and class operations the code calls and whose source is outside the four files. -/
structure Platform where
  littleEndian : Bool
  qt : QtConversions
  newConfiguration : QTBParameterConfiguration
  configurationLoad :
    QSettings → ConfigurationMode → QTBParameterConfiguration → QTBParameterConfiguration
  configurationSave : QSettings → ConfigurationMode → QTBParameterConfiguration → QSettings
  /-- The call `rescale()` on an axis whose plottables are the given graphs. -/
  axisRescale : List QTBGraph → QCPAxis → QCPAxis
  /-- The call `scaleRange(factor, center)`. -/
  axisScaleRange : Rat → Rat → QCPAxis → QCPAxis
  /-- The call `setRange(QCPRange(lower, upper))`, the range constructor included. -/
  axisSetRange : QCPRange → QCPAxis → QCPAxis
  /-- The call `center()` on a range. -/
  rangeCenter : QCPRange → Rat
  deriving Inhabited

/-- The data manager: the last sample and the recorded series of each parameter id. -/
structure QTBDataManager where
  lastSample : Nat → QTBDataSample
  dataSerie : Nat → List QTBDataSample
  deriving Inhabited

/-- The services of the board `mBoard` at the time of a call; `dataManager()` may be null. -/
structure QTBoard where
  dataManager : Option QTBDataManager
  parameterSettings : String → String → Ptr
  randomColor : QColor
  frontColor : QColor
  liveDataRefreshEnabled : Bool
  currentTimestamp : Rat
  deriving Inhabited

/-! ## Number formatting and the 16-bit halves of a 32-bit word -/

/-- The text of `QString("%1").arg(a, fieldWidth, base, fillChar)` for an unsigned `a` and a
positive field width: the digits of `a` in the base (lower case), right-aligned and padded on the
left with the fill character up to the field width. -/
def QString_arg (a fieldWidth base : Nat) (fillChar : Char) : String :=
  let digits := Nat.toDigits base a
  String.mk (List.replicate (fieldWidth - digits.length) fillChar ++ digits)

/-- The four bytes of a `quint32` in the memory order of the host. -/
def uint32Bytes (littleEndian : Bool) (v : Nat) : List Nat :=
  let low := [v % 256, v / 256 % 256, v / 65536 % 256, v / 16777216 % 256]
  if littleEndian then low else low.reverse

/-- The `quint16` stored in two consecutive bytes, in the memory order of the host. -/
def uint16OfBytes (littleEndian : Bool) (b0 b1 : Nat) : Nat :=
  if littleEndian then b0 + 256 * b1 else 256 * b0 + b1

/-- Member `fToBits.lsb` of the union `int32_int16` after `ui32 = v`: the `quint16` at byte
offset 0. -/
def unionLsb (littleEndian : Bool) (v : Nat) : Nat :=
  let bytes := uint32Bytes littleEndian v
  uint16OfBytes littleEndian (bytes.getD 0 0) (bytes.getD 1 0)

/-- Member `fToBits.msb` of the union `int32_int16` after `ui32 = v`: the `quint16` at byte
offset 2. -/
def unionMsb (littleEndian : Bool) (v : Nat) : Nat :=
  let bytes := uint32Bytes littleEndian v
  uint16OfBytes littleEndian (bytes.getD 2 0) (bytes.getD 3 0)

/-! ## `QTBDashboardParameter` (dashboard_parameter.cpp) -/

/-- The enumeration `QTBDashboardParameter::UpdateMode`: the three enumerators the code names, and
any other value. -/
inductive UpdateMode where
  | umValue
  | umValueOnly
  | umState
  | other (raw : Int)
  deriving DecidableEq, Repr, Inhabited

/-- The enumeration `QTBDashboardParameter::ValueStringFormat`: the four enumerators of the
`switch`, and any other value. -/
inductive ValueStringFormat where
  | vsfDecimal
  | vsfHexa
  | vsfHexaLsb16
  | vsfHexaMsb16
  | other (raw : Int)
  deriving DecidableEq, Repr, Inhabited

/-- The data members of `QTBDashboardParameter` (the board pointer is passed to each call). -/
structure QTBDashboardParameter where
  mParameterId : Nat := 0
  mLabel : String := ""
  mUnit : String := ""
  mSample : QTBDataSample := {}
  mColor : QColor := {}
  mForegroundColor : QColor := {}
  mBackgroundBrush : QBrush := QBrush.NoBrush
  mParameterConfigurationIsShared : Bool := false
  mSharedParameterConfiguration : Ptr := none
  mExclusiveParameterConfiguration : Ptr := none
  mParameterConfiguration : Ptr := none
  deriving Inhabited

namespace QTBDashboardParameter

/-- Constructor `QTBDashboardParameter(QTBoard *board)`: three fresh configurations. -/
def newFromBoard (pf : Platform) (h : Heap) : Heap × QTBDashboardParameter :=
  let a1 := alloc h pf.newConfiguration
  let a2 := alloc a1.1 pf.newConfiguration
  let a3 := alloc a2.1 pf.newConfiguration
  (a3.1, { mParameterId := 0
           mParameterConfigurationIsShared := false
           mSharedParameterConfiguration := a1.2
           mExclusiveParameterConfiguration := a2.2
           mParameterConfiguration := a3.2 })

/-- Constructor `QTBDashboardParameter(const QSharedPointer<QTBParameter>&, QTBoard *)`. -/
def newFromDataParameter (pf : Platform) (board : QTBoard) (dataParameter : Option QTBParameter)
    (h : Heap) : Option (Heap × QTBDashboardParameter) :=
  let a1 := alloc h pf.newConfiguration
  let a2 := alloc a1.1 pf.newConfiguration
  let p : QTBDashboardParameter :=
    { mParameterId := 0
      mParameterConfigurationIsShared := false
      mExclusiveParameterConfiguration := a1.2
      mParameterConfiguration := a2.2 }
  match dataParameter with
  | none => some (a2.1, p)
  | some dp =>
      let p1 := { p with mParameterId := dp.parameterId % 2 ^ 32, mLabel := dp.label,
                         mUnit := dp.unit }
      (deref a2.1 p1.mExclusiveParameterConfiguration).bind fun e =>
        let h1 := store a2.1 p1.mExclusiveParameterConfiguration (e.setLabel p1.mLabel)
        let p2 := { p1 with mParameterConfiguration := p1.mExclusiveParameterConfiguration }
        (deref h1 p2.mParameterConfiguration).bind fun c =>
          some (store h1 p2.mParameterConfiguration (c.setDefaultColor board.randomColor), p2)

/-- Constructor `QTBDashboardParameter(QExplicitlySharedDataPointer<QTBParameterConfiguration>,
QTBoard *)`.  At `detach()` the object is also referenced by `paramProperties` and by
`mSharedParameterConfiguration`, so its reference count is not 1 and `detach()` copies it. -/
def newFromConfiguration (pf : Platform) (paramProperties : Ptr) (h : Heap) :
    Option (Heap × QTBDashboardParameter) :=
  let a1 := alloc h pf.newConfiguration
  let a2 := alloc a1.1 pf.newConfiguration
  let p : QTBDashboardParameter :=
    { mParameterId := 0
      mParameterConfigurationIsShared := true
      mSharedParameterConfiguration := paramProperties
      mExclusiveParameterConfiguration := a1.2
      mParameterConfiguration := a2.2 }
  match paramProperties with
  | none => some (a2.1, p)
  | some i =>
      (deref a2.1 (some i)).bind fun c =>
        let a3 := alloc a2.1 c
        some (a3.1, { p with mLabel := c.label
                             mExclusiveParameterConfiguration := a3.2
                             mParameterConfiguration := p.mSharedParameterConfiguration })

/-- Constructor `QTBDashboardParameter(const QString& parameterLabel, QTBoard *)`. -/
def newFromLabel (pf : Platform) (board : QTBoard) (parameterLabel : String) (h : Heap) :
    Option (Heap × QTBDashboardParameter) :=
  let a1 := alloc h pf.newConfiguration
  let a2 := alloc a1.1 pf.newConfiguration
  let p : QTBDashboardParameter :=
    { mParameterId := 0
      mParameterConfigurationIsShared := false
      mExclusiveParameterConfiguration := a1.2
      mParameterConfiguration := a2.2 }
  if parameterLabel ≠ "" then
    let p1 := { p with mLabel := parameterLabel }
    (deref a2.1 p1.mExclusiveParameterConfiguration).bind fun e =>
      let h1 := store a2.1 p1.mExclusiveParameterConfiguration (e.setLabel p1.mLabel)
      let p2 := { p1 with mParameterConfiguration := p1.mExclusiveParameterConfiguration }
      (deref h1 p2.mParameterConfiguration).bind fun c =>
        some (store h1 p2.mParameterConfiguration (c.setDefaultColor board.randomColor), p2)
  else some (a2.1, p)

/-- The accessor `connected()`. -/
def connected (p : QTBDashboardParameter) : Bool :=
  p.mParameterConfigurationIsShared

/-- The accessor `parameterConfiguration()`. -/
def parameterConfiguration (p : QTBDashboardParameter) : Ptr :=
  p.mParameterConfiguration

/-- The accessor `sharedParameterConfiguration()`. -/
def sharedParameterConfiguration (p : QTBDashboardParameter) : Ptr :=
  p.mSharedParameterConfiguration

/-- The accessor `exclusiveParameterConfiguration()`. -/
def exclusiveParameterConfiguration (p : QTBDashboardParameter) : Ptr :=
  p.mExclusiveParameterConfiguration

/-- The accessor `getLabel()`. -/
def getLabel (p : QTBDashboardParameter) : String :=
  p.mLabel

/-- The accessor `getUnit()`. -/
def getUnit (p : QTBDashboardParameter) : String :=
  p.mUnit

/-- The accessor `getParameterId()`. -/
def getParameterId (p : QTBDashboardParameter) : Nat :=
  p.mParameterId

/-- The accessor `getColor()`. -/
def getColor (p : QTBDashboardParameter) : QColor :=
  p.mColor

/-- The accessor `getForegroundColor()`. -/
def getForegroundColor (p : QTBDashboardParameter) : QColor :=
  p.mForegroundColor

/-- The accessor `getBackgroundBrush()`. -/
def getBackgroundBrush (p : QTBDashboardParameter) : QBrush :=
  p.mBackgroundBrush

/-- The method `getValueString(format)`. -/
def getValueString (pf : Platform) (h : Heap) (p : QTBDashboardParameter)
    (format : ValueStringFormat) : Option String :=
  if p.mParameterId > 0 then
    match format with
    | ValueStringFormat.vsfDecimal =>
        (deref h p.mParameterConfiguration).bind fun c =>
          some (p.mSample.value.toString c.precision)
    | ValueStringFormat.vsfHexa =>
        some (QString_toUpper (QString_arg (p.mSample.value.uint32_value % 2 ^ 32) 8 16 '0'))
    | ValueStringFormat.vsfHexaLsb16 =>
        let value := unionLsb pf.littleEndian (p.mSample.value.uint32_value % 2 ^ 32)
        some (QString_toUpper (QString_arg value 4 16 '0'))
    | ValueStringFormat.vsfHexaMsb16 =>
        let value := unionMsb pf.littleEndian (p.mSample.value.uint32_value % 2 ^ 32)
        some (QString_toUpper (QString_arg value 4 16 '0'))
    | ValueStringFormat.other _ => some "X"
  else some "X"

/-- The method `getValueDouble()`; `none` stands for the quiet NaN. -/
def getValueDouble (p : QTBDashboardParameter) : Option Rat :=
  if p.mParameterId > 0 then some p.mSample.value.toDouble else none

/-- The method `getValueBinaryWeight32()`. -/
def getValueBinaryWeight32 (p : QTBDashboardParameter) : Nat :=
  if p.mParameterId > 0 then p.mSample.value.uint32_value % 2 ^ 32 else 0

/-- The method `getTimestamp()`. -/
def getTimestamp (p : QTBDashboardParameter) : Rat :=
  if p.mParameterId > 0 then p.mSample.datationSecFromMidnight else 0

/-- The method `getStateString()`. -/
def getStateString (h : Heap) (p : QTBDashboardParameter) : Option String :=
  if p.mParameterId > 0 then
    (deref h p.mParameterConfiguration).bind fun c =>
      if c.statesSettings.active then
        some (c.statesSettings.text (p.mSample.value.toUint32 % 2 ^ 32))
      else some ""
  else some ""

/-- Assign the three colour members from colour settings. -/
def setColors (p : QTBDashboardParameter) (cs : QTBColorSettings) : QTBDashboardParameter :=
  { p with mColor := cs.color, mForegroundColor := cs.foregroundColor,
           mBackgroundBrush := cs.backgroundBrush }

/-- The method `update(mode)`. -/
def update (board : QTBoard) (mode : UpdateMode) (h : Heap) (p : QTBDashboardParameter) :
    Option QTBDashboardParameter :=
  if p.mParameterId > 0 then
    board.dataManager.bind fun dataManager =>
    let p1 := { p with mSample := dataManager.lastSample p.mParameterId }
    if mode ≠ UpdateMode.umValueOnly then
      (deref h p1.mParameterConfiguration).bind fun c =>
        let p2 := setColors p1 c.defaultColorSettings
        if mode = UpdateMode.umValue then
          let value := p2.mSample.value.toDouble
          let outOfRange : Bool :=
            c.validRange && c.outOfRangeColorEnabled &&
              (decide (value < c.rangeMinimum) || decide (value > c.rangeMaximum))
          if outOfRange then
            some (setColors p2 c.outOfRangeColorSettings)
          else if c.thresholdsSettings.active then
            let r := c.thresholdsSettings.colorSettings value
            if r.2 then some (setColors p2 r.1) else some p2
          else some p2
        else
          if c.statesSettings.active then
            let r := c.statesSettings.colorSettings (p2.mSample.value.toUint32 % 2 ^ 32)
            if r.2 then some (setColors p2 r.1) else some p2
          else some p2
    else some p1
  else
    some { p with mColor := QColor.rgba 0 0 0 0
                  mForegroundColor := QColor.rgba 0 0 0 0
                  mBackgroundBrush := QBrush.NoBrush }

/-- The method `disconnectSharedConfiguration()`. -/
def disconnectSharedConfiguration (p : QTBDashboardParameter) : QTBDashboardParameter :=
  { p with mParameterConfigurationIsShared := false
           mSharedParameterConfiguration := none
           mParameterConfiguration := p.mExclusiveParameterConfiguration }

/-- The method `saveParameterSettings(settings, mode)`. -/
def saveParameterSettings (pf : Platform) (settings : QSettings) (mode : ConfigurationMode)
    (h : Heap) (p : QTBDashboardParameter) : Option QSettings :=
  let s1 := settings.setValue "Connected" (QVariant.bool p.mParameterConfigurationIsShared)
  if p.mParameterConfigurationIsShared then
    (deref h p.mSharedParameterConfiguration).bind fun c =>
      let s2 := s1.setValue "ConnectedParamLabel" (QVariant.string c.label)
      some (s2.setValue "ConnectedProperties" (QVariant.string c.description))
  else
    (deref h p.mExclusiveParameterConfiguration).bind fun e =>
      some (pf.configurationSave s1 mode e)

/-- The method `loadParameterSettings(settings, mode)`.  In the branch that finds the project
configuration, the object is referenced by `prop` and `mSharedParameterConfiguration` when
`detach()` runs, so `detach()` copies it. -/
def loadParameterSettings (pf : Platform) (board : QTBoard) (settings : QSettings)
    (mode : ConfigurationMode) (h : Heap) (p : QTBDashboardParameter) :
    Option (Heap × QTBDashboardParameter) :=
  let p0 := { p with mParameterConfigurationIsShared := (settings.value "Connected").toBool }
  if p0.mParameterConfigurationIsShared then
    let paramlabel := (settings.value "ConnectedParamLabel").toString pf.qt
    let properties := (settings.value "ConnectedProperties").toString pf.qt
    let prop := board.parameterSettings paramlabel properties
    match prop with
    | some i =>
        (deref h (some i)).bind fun c =>
          let a := alloc h c
          some (a.1, { p0 with mSharedParameterConfiguration := prop
                               mLabel := c.label
                               mExclusiveParameterConfiguration := a.2
                               mParameterConfigurationIsShared := true
                               mParameterConfiguration := prop })
    | none =>
        let p1 := { p0 with mParameterConfigurationIsShared := false, mLabel := paramlabel }
        (deref h p1.mExclusiveParameterConfiguration).bind fun e =>
          let h1 := store h p1.mExclusiveParameterConfiguration (e.setLabel p1.mLabel)
          let p2 := { p1 with mParameterConfiguration := p1.mExclusiveParameterConfiguration }
          (deref h1 p2.mParameterConfiguration).bind fun c =>
            some (store h1 p2.mParameterConfiguration (c.setDefaultColor board.randomColor), p2)
  else
    let a : Heap × Ptr :=
      if p0.mExclusiveParameterConfiguration.isNone then alloc h pf.newConfiguration
      else (h, p0.mExclusiveParameterConfiguration)
    (deref a.1 a.2).bind fun e =>
      let e1 := pf.configurationLoad settings mode e
      some (store a.1 a.2 e1,
            { p0 with mExclusiveParameterConfiguration := a.2
                      mLabel := e1.label
                      mParameterConfigurationIsShared := false
                      mParameterConfiguration := a.2 })

/-- The method `setParameterId`. -/
def setParameterId (p : QTBDashboardParameter) (parameterId : Nat) : QTBDashboardParameter :=
  { p with mParameterId := parameterId % 2 ^ 32 }

end QTBDashboardParameter

/-! ## Layout grids (QCustomPlot) and the elements of the plot's layouts -/

/-- The enumeration `QCPLayoutGrid::FillOrder`. -/
inductive FillOrder where
  | foRowsFirst
  | foColumnsFirst
  deriving DecidableEq, Repr, Inhabited

/-- A `QCPLayoutGrid` (and the `QTBLayoutGrid` of the legend) holding elements of type `α`.  The
plot never sets a wrap and fills its grids by `addElement(element)` only, after having emptied
them or rearranged them by `setFillOrder`; such a grid is a single row or a single column in the
direction of its fill order, and the model keeps the sequence of its cells, `none` for an empty
cell.  Stretch factors, spacings, margins and sizes are not modelled. -/
structure QCPLayoutGrid (α : Type) where
  cells : List (Option α) := []
  fillOrder : FillOrder := FillOrder.foColumnsFirst
  visible : Bool := true
  deriving Inhabited

/-- Empty the first cell that holds an element satisfying `isElement`: the search loop of
`QCPLayoutGrid::take`. -/
def takeCell {α : Type} (isElement : α → Bool) : List (Option α) → List (Option α)
  | [] => []
  | none :: cells => none :: takeCell isElement cells
  | some e :: cells =>
      if isElement e then none :: cells else some e :: takeCell isElement cells

/-- Put an element in the first empty cell, or in a new cell after the last one: the cell search
of `QCPLayoutGrid::addElement(element)` without wrap. -/
def addCell {α : Type} (element : α) : List (Option α) → List (Option α)
  | [] => [some element]
  | none :: cells => some element :: cells
  | some e :: cells => some e :: addCell element cells

namespace QCPLayoutGrid

/-- The method `elementCount()`: the number of cells, empty ones included. -/
def elementCount {α : Type} (g : QCPLayoutGrid α) : Nat :=
  g.cells.length

/-- The method `elementAt(index)`: null for an empty cell and for an index out of range. -/
def elementAt {α : Type} (g : QCPLayoutGrid α) (index : Nat) : Option α :=
  g.cells.getD index none

/-- The method `takeAt(index)`: the element of the cell, which becomes empty; null, and no
change, when there is no element at the index. -/
def takeAt {α : Type} (g : QCPLayoutGrid α) (index : Nat) : Option α × QCPLayoutGrid α :=
  match g.elementAt index with
  | some element => (some element, { g with cells := g.cells.set index none })
  | none => (none, g)

/-- The method `take(element)`, the element being given by the test `isElement`: the first cell
that holds it becomes empty. -/
def take {α : Type} (g : QCPLayoutGrid α) (isElement : α → Bool) : QCPLayoutGrid α :=
  { g with cells := takeCell isElement g.cells }

/-- The method `simplify()`: the empty cells disappear. -/
def simplify {α : Type} (g : QCPLayoutGrid α) : QCPLayoutGrid α :=
  { g with cells := g.cells.filter Option.isSome }

/-- The method `addElement(element)`.  The element is in no layout when the plot calls it (it is
new or has just been taken), so it is not taken from an old layout first. -/
def addElement {α : Type} (g : QCPLayoutGrid α) (element : α) : QCPLayoutGrid α :=
  { g with cells := addCell element g.cells }

/-- The method `setFillOrder(order)` with its default `rearrange = true`: the elements are taken
in the order of their cells, the grid is simplified, and the elements are added again in the new
fill order. -/
def setFillOrder {α : Type} (g : QCPLayoutGrid α) (order : FillOrder) : QCPLayoutGrid α :=
  { g with cells := g.cells.filter Option.isSome, fillOrder := order }

/-- The method `setVisible`. -/
def setVisible {α : Type} (g : QCPLayoutGrid α) (visible : Bool) : QCPLayoutGrid α :=
  { g with visible := visible }

end QCPLayoutGrid

/-! ## `QTBPlotTime` (plot_time.cpp) -/

/-- The enumeration `QTBPlotTime::LegendPosition`, by its integer value. -/
structure LegendPosition where
  raw : Int
  deriving DecidableEq, Repr, Inhabited

/-- The enumeration `QTBPlotTime::YAxisScale`, by its integer value. -/
structure YAxisScale where
  raw : Int
  deriving DecidableEq, Repr, Inhabited

/-- The enumeration `QTBPlotTime::XAxisDirection`, by its integer value. -/
structure XAxisDirection where
  raw : Int
  deriving DecidableEq, Repr, Inhabited

/-- Enumerator `lpRight`.  The header is not among the four files: the enumerators are numbered
here in the order of the `switch` in `updateLayout`; only their being distinct is used. -/
def lpRight : LegendPosition := ⟨0⟩

/-- Enumerator `lpLeft` (see `lpRight` for the numbering). -/
def lpLeft : LegendPosition := ⟨1⟩

/-- Enumerator `lpBottom` (see `lpRight` for the numbering). -/
def lpBottom : LegendPosition := ⟨2⟩

/-- Enumerator `lpTop` (see `lpRight` for the numbering). -/
def lpTop : LegendPosition := ⟨3⟩

/-- Enumerator `asAuto`.  The enumerators are numbered in the order of the `switch` in
`updateAxes`; only their being distinct is used. -/
def asAuto : YAxisScale := ⟨0⟩

/-- Enumerator `asParam` (see `asAuto` for the numbering). -/
def asParam : YAxisScale := ⟨1⟩

/-- Enumerator `asCustom` (see `asAuto` for the numbering). -/
def asCustom : YAxisScale := ⟨2⟩

/-- Enumerator `adRightToLeft`; every other value is the opposite direction. -/
def adRightToLeft : XAxisDirection := ⟨0⟩

/-- The axis rectangle `mAxisRect`: its left and bottom axes, its items and its graphs. -/
structure QTBAxisRect where
  left : QCPAxis := {}
  bottom : QCPAxis := {}
  items : List QCPItemStraightLine := []
  graphs : List QTBGraph := []
  deriving DecidableEq, Repr, Inhabited

/-- A non-null entry of the element's parameter list, as the plot reads it: the parameter and the
configuration object that its `parameterConfiguration()` points to. -/
structure BoundParameter where
  parameter : QTBDashboardParameter := {}
  configuration : QTBParameterConfiguration := {}
  deriving Inhabited

/-- The enumeration `QTBValueDisplay::DisplayOrientation`: the two enumerators the plot names,
and any other value. -/
inductive DisplayOrientation where
  | doVerticalAlignLeftRight
  | doVerticalAlignCenter
  | other (raw : Int)
  deriving DecidableEq, Repr, Inhabited

/-- A value display of the legend (`QTBValueDisplay`, whose source is not among the four files):
its parameter list, its background flag and its orientation. -/
structure QTBValueDisplay where
  mDashParameters : List (Option BoundParameter) := []
  mTransparentBackground : Bool := false
  mOrientation : DisplayOrientation := DisplayOrientation.other 0
  deriving Inhabited

/-- The method `setTransparentBackground` (of `QTBLayoutReactiveElement`) on a value display. -/
def QTBValueDisplay.setTransparentBackground (d : QTBValueDisplay)
    (transparentBackground : Bool) : QTBValueDisplay :=
  { d with mTransparentBackground := transparentBackground }

/-- The method `setOrientation` of a value display. -/
def QTBValueDisplay.setOrientation (d : QTBValueDisplay) (orientation : DisplayOrientation) :
    QTBValueDisplay :=
  { d with mOrientation := orientation }

/-- The methods of `QTBValueDisplay` and of the base class `QTBDashboardElement` that the plot
calls and whose source is outside the four files. -/
structure ElementMethods where
  /-- The expression `new QTBValueDisplay(mBoard)` followed by `initializeElement(mBoard)`. -/
  newValueDisplay : QTBoard → QTBValueDisplay
  /-- The call `legend->addParameter(dashParameter)` on a value display. -/
  displayAddParameter : QTBValueDisplay → Option BoundParameter → QTBValueDisplay
  /-- The call `element->updateElement()` on a value display. -/
  displayUpdateElement : QTBValueDisplay → QTBValueDisplay
  /-- The call `QTBDashboardElement::addParameter(dashParameter)`, as a function of
  `parametersMaxCount()` and of the parameter list. -/
  elementAddParameter :
    Nat → List (Option BoundParameter) → Option BoundParameter → List (Option BoundParameter)
  /-- The call `QTBDashboardElement::removeDashParameter(index)`, as a function of the parameter
  list. -/
  elementRemoveDashParameter : List (Option BoundParameter) → Nat → List (Option BoundParameter)
  deriving Inhabited

/-- An element of the legend layout: one of the two empty elements `mLegendEmptyElementFirst`
and `mLegendEmptyElementLast`, or a value display. -/
inductive LegendElement where
  | emptyElementFirst
  | emptyElementLast
  | valueDisplay (legend : QTBValueDisplay)
  deriving Inhabited

/-- The test `element == mLegendEmptyElementLast`. -/
def LegendElement.isEmptyElementLast : LegendElement → Bool
  | LegendElement.emptyElementLast => true
  | _ => false

/-- The effect on a legend element of a call on `qobject_cast<QTBValueDisplay *>(element)`
guarded by `if(element)`: the call is made on a value display and on nothing else. -/
def LegendElement.onValueDisplay (f : QTBValueDisplay → QTBValueDisplay) :
    LegendElement → LegendElement
  | LegendElement.valueDisplay legend => LegendElement.valueDisplay (f legend)
  | element => element

/-- An element of the main layout `mLayout`: the axis rectangle `mAxisRect` or the legend layout
`mLegendLayout`. -/
inductive MainElement where
  | axisRect
  | legendLayout
  deriving DecidableEq, Repr, Inhabited

/-- The data members of `QTBPlotTime` used by the settings, axes, thresholds and layout code,
with the parameter list, the parameter limit and the background flag of its base classes.  The
main layout holds its two possible elements by name; the objects themselves are `mAxisRect` and
`mLegendLayout`. -/
structure QTBPlotTime where
  mDashParameters : List (Option BoundParameter) := []
  mParametersMaxCount : Nat := 8
  mLayout : QCPLayoutGrid MainElement := {}
  mLegendLayout : QCPLayoutGrid LegendElement := {}
  mTransparentBackground : Bool := false
  mLegendPosition : LegendPosition := lpRight
  mLegendVisible : Bool := true
  mYAxisTicksVisible : Bool := false
  mYAxisLabelsVisible : Bool := true
  mYAxisGridVisible : Bool := true
  mXAxisTicksVisible : Bool := false
  mXAxisLabelsVisible : Bool := true
  mXAxisGridVisible : Bool := true
  mYAxisScale : YAxisScale := asAuto
  mYAxisMaxCustom : Rat := 0
  mYAxisMinCustom : Rat := 0
  mXAxisHistory : Int := 30
  mXAxisDirection : XAxisDirection := adRightToLeft
  mThresholdsVisible : Bool := true
  mAutoRange : QCPRange := {}
  mAxisRect : QTBAxisRect := {}
  deriving Inhabited

namespace QTBPlotTime

/-- Constructor `QTBPlotTime(QTBoard *dashboard)`.  The two custom bounds are not in the
initialiser list; their initial values are arguments. -/
def new (yAxisMinCustom yAxisMaxCustom : Rat) : QTBPlotTime :=
  { mLayout := {}
    mParametersMaxCount := 8
    mLegendPosition := lpRight
    mLegendVisible := true
    mYAxisTicksVisible := false
    mYAxisLabelsVisible := true
    mYAxisGridVisible := true
    mXAxisTicksVisible := false
    mXAxisLabelsVisible := true
    mXAxisGridVisible := true
    mYAxisScale := asAuto
    mXAxisHistory := 30
    mXAxisDirection := adRightToLeft
    mThresholdsVisible := true
    mYAxisMinCustom := yAxisMinCustom
    mYAxisMaxCustom := yAxisMaxCustom }

/-- The call `parametersCount()`. -/
def parametersCount (p : QTBPlotTime) : Nat :=
  p.mDashParameters.length

/-- The call `dashParameter(i)`: the entry, null when there is none. -/
def dashParameter (p : QTBPlotTime) (i : Nat) : Option BoundParameter :=
  (p.mDashParameters.getD i none)

/-- The straight line that marks a threshold. -/
def thresholdLine (t : Rat × QTBColorSettings) : QCPItemStraightLine :=
  { y := t.1, pen := QPen.dashDotDotLine (t.2.color.setAlpha 150) }

/-- The brush of a coloured segment, from the `switch` on `graphBrush()`. -/
def segmentBrush (style : BrushStyle) (color : QColor) : QBrush :=
  match style with
  | BrushStyle.bsNone => QBrush.NoBrush
  | BrushStyle.bsFilled => QBrush.solid (color.setAlpha 50)
  | BrushStyle.bsGradient => QBrush.linearGradient (color.setAlpha 200)

/-- The state of the two threshold loops of `updateThresholdsItems`: the items of the axis
rectangle, the coloured segments of the graph and the running bound. -/
structure ThresholdLoop where
  items : List QCPItemStraightLine
  segments : List QTBColoredSegment
  bound : Rat

/-- One iteration of the loop over the low thresholds. -/
def lowThresholdStep (linesVisible hasGraph : Bool) (c : QTBParameterConfiguration)
    (st : ThresholdLoop) (t : Rat × QTBColorSettings) : ThresholdLoop :=
  let st1 := if linesVisible then { st with items := st.items ++ [thresholdLine t] } else st
  if hasGraph && decide (c.itemColorMode = ItemColorMode.icDynamic) then
    { st1 with
      segments := st1.segments ++
        [{ lower := st1.bound, upper := t.1, pen := QPen.solidLine t.2.color,
           brush := segmentBrush c.graphBrush t.2.color }]
      bound := t.1 }
  else st1

/-- One iteration of the loop over the high thresholds. -/
def highThresholdStep (linesVisible hasGraph : Bool) (c : QTBParameterConfiguration)
    (st : ThresholdLoop) (t : Rat × QTBColorSettings) : ThresholdLoop :=
  let st1 := if linesVisible then { st with items := st.items ++ [thresholdLine t] } else st
  if hasGraph && decide (c.itemColorMode = ItemColorMode.icDynamic) then
    { st1 with
      segments := st1.segments ++
        [{ lower := t.1, upper := st1.bound, pen := QPen.solidLine t.2.color,
           brush := segmentBrush c.graphBrush t.2.color }]
      bound := t.1 }
  else st1

/-- The body of the parameter loop of `updateThresholdsItems` for the entry at index `i`. -/
def updateThresholdsItemsAt (thresholdsVisible : Bool) (rect : QTBAxisRect) (i : Nat)
    (entry : Option BoundParameter) : QTBAxisRect :=
  match entry with
  | none => rect
  | some bp =>
      let c := bp.configuration
      let hasGraph := decide (i < rect.graphs.length)
      let linesVisible := thresholdsVisible && c.itemsThresholdsVisible
      let low := c.thresholdsSettings.lowThresholds.foldl
        (lowThresholdStep linesVisible hasGraph c)
        { items := rect.items, segments := [], bound := -DBL_MAX }
      let high := c.thresholdsSettings.highThresholds.reverse.foldl
        (highThresholdStep linesVisible hasGraph c)
        { items := low.items, segments := low.segments, bound := DBL_MAX }
      { rect with
        items := high.items
        graphs :=
          if hasGraph then
            rect.graphs.modify (fun g => { g with coloredSegments := high.segments }) i
          else rect.graphs }

/-- The parameter loop of `updateThresholdsItems`, from index `i` on. -/
def updateThresholdsItemsFrom (thresholdsVisible : Bool) :
    Nat → List (Option BoundParameter) → QTBAxisRect → QTBAxisRect
  | _, [], rect => rect
  | i, entry :: rest, rect =>
      updateThresholdsItemsFrom thresholdsVisible (i + 1) rest
        (updateThresholdsItemsAt thresholdsVisible rect i entry)

/-- The method `updateThresholdsItems()`. -/
def updateThresholdsItems (p : QTBPlotTime) : QTBPlotTime :=
  { p with
    mAxisRect := updateThresholdsItemsFrom p.mThresholdsVisible 0 p.mDashParameters
      { p.mAxisRect with items := [] } }

/-- The method `setThresholdsVisible`. -/
def setThresholdsVisible (p : QTBPlotTime) (thresholdsVisible : Bool) : QTBPlotTime :=
  if thresholdsVisible ≠ p.mThresholdsVisible then
    updateThresholdsItems { p with mThresholdsVisible := thresholdsVisible }
  else p

/-- The method `setLegendPosition`. -/
def setLegendPosition (p : QTBPlotTime) (legendPosition : LegendPosition) : QTBPlotTime :=
  if legendPosition ≠ p.mLegendPosition then { p with mLegendPosition := legendPosition } else p

/-- The method `setLegendVisible`. -/
def setLegendVisible (p : QTBPlotTime) (legendVisible : Bool) : QTBPlotTime :=
  if legendVisible ≠ p.mLegendVisible then { p with mLegendVisible := legendVisible } else p

/-- The method `setTransparentBackground` (of `QTBLayoutReactiveElement`). -/
def setTransparentBackground (p : QTBPlotTime) (transparentBackground : Bool) : QTBPlotTime :=
  { p with mTransparentBackground := transparentBackground }

/-- The three pens of an axis when its ticks are shown or hidden. -/
def setAxisPens (board : QTBoard) (ticksVisible : Bool) (a : QCPAxis) : QCPAxis :=
  if ticksVisible then
    { a with basePen := QPen.solidLine board.frontColor
             tickPen := QPen.solidLine board.frontColor
             subTickPen := QPen.solidLine board.frontColor }
  else
    { a with basePen := QPen.NoPen, tickPen := QPen.NoPen, subTickPen := QPen.NoPen }

/-- The method `setYAxisTicksVisible`. -/
def setYAxisTicksVisible (board : QTBoard) (p : QTBPlotTime) (yAxisTicksVisible : Bool) :
    QTBPlotTime :=
  if yAxisTicksVisible ≠ p.mYAxisTicksVisible then
    { p with mYAxisTicksVisible := yAxisTicksVisible
             mAxisRect := { p.mAxisRect with
               left := setAxisPens board yAxisTicksVisible p.mAxisRect.left } }
  else p

/-- The method `setYAxisLabelsVisible`. -/
def setYAxisLabelsVisible (p : QTBPlotTime) (yAxisLabelsVisible : Bool) : QTBPlotTime :=
  if p.mYAxisLabelsVisible ≠ yAxisLabelsVisible then
    { p with mYAxisLabelsVisible := yAxisLabelsVisible
             mAxisRect := { p.mAxisRect with
               left := { p.mAxisRect.left with tickLabels := yAxisLabelsVisible } } }
  else p

/-- The method `setYAxisGridVisible`. -/
def setYAxisGridVisible (p : QTBPlotTime) (yAxisGridVisible : Bool) : QTBPlotTime :=
  if p.mYAxisGridVisible ≠ yAxisGridVisible then
    { p with mYAxisGridVisible := yAxisGridVisible
             mAxisRect := { p.mAxisRect with
               left := { p.mAxisRect.left with gridVisible := yAxisGridVisible } } }
  else p

/-- The method `setYAxisScale`. -/
def setYAxisScale (p : QTBPlotTime) (yAxisScale : YAxisScale) : QTBPlotTime :=
  { p with mYAxisScale := yAxisScale }

/-- The method `setYAxisMaxCustom`. -/
def setYAxisMaxCustom (p : QTBPlotTime) (yAxisMaxCustom : Rat) : QTBPlotTime :=
  { p with mYAxisMaxCustom := yAxisMaxCustom }

/-- The method `setYAxisMinCustom`. -/
def setYAxisMinCustom (p : QTBPlotTime) (yAxisMinCustom : Rat) : QTBPlotTime :=
  { p with mYAxisMinCustom := yAxisMinCustom }

/-- The method `setXAxisTicksVisible`. -/
def setXAxisTicksVisible (board : QTBoard) (p : QTBPlotTime) (xAxisTicksVisible : Bool) :
    QTBPlotTime :=
  if p.mXAxisTicksVisible ≠ xAxisTicksVisible then
    { p with mXAxisTicksVisible := xAxisTicksVisible
             mAxisRect := { p.mAxisRect with
               bottom := setAxisPens board xAxisTicksVisible p.mAxisRect.bottom } }
  else p

/-- The method `setXAxisLabelsVisible`. -/
def setXAxisLabelsVisible (p : QTBPlotTime) (xAxisLabelsVisible : Bool) : QTBPlotTime :=
  if p.mXAxisLabelsVisible ≠ xAxisLabelsVisible then
    { p with mXAxisLabelsVisible := xAxisLabelsVisible
             mAxisRect := { p.mAxisRect with
               bottom := { p.mAxisRect.bottom with tickLabels := xAxisLabelsVisible } } }
  else p

/-- The method `setXAxisGridVisible`. -/
def setXAxisGridVisible (p : QTBPlotTime) (xAxisGridVisible : Bool) : QTBPlotTime :=
  if p.mXAxisGridVisible ≠ xAxisGridVisible then
    { p with mXAxisGridVisible := xAxisGridVisible
             mAxisRect := { p.mAxisRect with
               bottom := { p.mAxisRect.bottom with gridVisible := xAxisGridVisible } } }
  else p

/-- The method `setXAxisHistory`. -/
def setXAxisHistory (p : QTBPlotTime) (xAxisHistory : Int) : QTBPlotTime :=
  { p with mXAxisHistory := xAxisHistory }

/-- The method `setXAxisDirection`. -/
def setXAxisDirection (p : QTBPlotTime) (xAxisDirection : XAxisDirection) : QTBPlotTime :=
  if p.mXAxisDirection ≠ xAxisDirection then
    { p with mXAxisDirection := xAxisDirection
             mAxisRect := { p.mAxisRect with
               bottom := { p.mAxisRect.bottom with
                 rangeReversed := !decide (xAxisDirection = adRightToLeft) } } }
  else p

/-- The method `saveSettings(settings)`. -/
def saveSettings (settings : QSettings) (p : QTBPlotTime) : QSettings :=
  let s := settings.beginGroup "General"
  let s := s.setValue "LegendVisible" (QVariant.bool p.mLegendVisible)
  let s := s.setValue "LegendPosition" (QVariant.int p.mLegendPosition.raw)
  let s := s.setValue "TransparentBackground" (QVariant.bool p.mTransparentBackground)
  let s := s.endGroup
  let s := s.beginGroup "ValueAxis"
  let s := s.setValue "TicksVisible" (QVariant.bool p.mYAxisTicksVisible)
  let s := s.setValue "LabelsVisible" (QVariant.bool p.mYAxisLabelsVisible)
  let s := s.setValue "GridVisible" (QVariant.bool p.mYAxisGridVisible)
  let s := s.setValue "ScaleMode" (QVariant.int p.mYAxisScale.raw)
  let s := s.setValue "ScaleMin" (QVariant.double p.mYAxisMinCustom)
  let s := s.setValue "ScaleMax" (QVariant.double p.mYAxisMaxCustom)
  let s := s.setValue "ThresholdsVisible" (QVariant.bool p.mThresholdsVisible)
  let s := s.endGroup
  let s := s.beginGroup "TimeAxis"
  let s := s.setValue "TicksVisible" (QVariant.bool p.mXAxisTicksVisible)
  let s := s.setValue "LabelsVisible" (QVariant.bool p.mXAxisLabelsVisible)
  let s := s.setValue "GridVisible" (QVariant.bool p.mXAxisGridVisible)
  let s := s.setValue "History" (QVariant.int p.mXAxisHistory)
  let s := s.setValue "Direction" (QVariant.int p.mXAxisDirection.raw)
  s.endGroup

/-- The method `loadSettings(settings)`. -/
def loadSettings (pf : Platform) (board : QTBoard) (settings : QSettings) (p : QTBPlotTime) :
    QTBPlotTime :=
  let s := settings.beginGroup "General"
  let p := if s.contains "LegendVisible" then
      p.setLegendVisible (s.value "LegendVisible").toBool else p
  let p := if s.contains "LegendPosition" then
      p.setLegendPosition ⟨(s.value "LegendPosition").toInt pf.qt⟩ else p
  let p := if s.contains "TransparentBackground" then
      p.setTransparentBackground (s.value "TransparentBackground").toBool else p
  let s := s.endGroup
  let s := s.beginGroup "ValueAxis"
  let p := if s.contains "TicksVisible" then
      p.setYAxisTicksVisible board (s.value "TicksVisible").toBool else p
  let p := if s.contains "LabelsVisible" then
      p.setYAxisLabelsVisible (s.value "LabelsVisible").toBool else p
  let p := if s.contains "GridVisible" then
      p.setYAxisGridVisible (s.value "GridVisible").toBool else p
  let p := if s.contains "ScaleMode" then
      p.setYAxisScale ⟨(s.value "ScaleMode").toInt pf.qt⟩ else p
  let p := if s.contains "ScaleMin" then
      p.setYAxisMinCustom ((s.value "ScaleMin").toDouble pf.qt) else p
  let p := if s.contains "ScaleMax" then
      p.setYAxisMaxCustom ((s.value "ScaleMax").toDouble pf.qt) else p
  let p := if s.contains "ThresholdsVisible" then
      p.setThresholdsVisible (s.value "ThresholdsVisible").toBool else p
  let s := s.endGroup
  let s := s.beginGroup "TimeAxis"
  let p := if s.contains "TicksVisible" then
      p.setXAxisTicksVisible board (s.value "TicksVisible").toBool else p
  let p := if s.contains "LabelsVisible" then
      p.setXAxisLabelsVisible (s.value "LabelsVisible").toBool else p
  let p := if s.contains "GridVisible" then
      p.setXAxisGridVisible (s.value "GridVisible").toBool else p
  let p := if s.contains "History" then
      p.setXAxisHistory ((s.value "History").toInt pf.qt) else p
  if s.contains "Direction" then
    p.setXAxisDirection ⟨(s.value "Direction").toInt pf.qt⟩ else p

/-- The state of the parameter loop of `updateAxes` in `asParam` mode: the flag `validRange` and
the two custom bounds. -/
structure ParamRange where
  validRange : Bool
  yAxisMinCustom : Rat
  yAxisMaxCustom : Rat
  deriving DecidableEq, Repr

/-- The body of the parameter loop of `updateAxes` for the entry at index `i`. -/
def paramRangeStep (i : Nat) (entry : Option BoundParameter) (st : ParamRange) : ParamRange :=
  match entry with
  | none => st
  | some bp =>
      let c := bp.configuration
      if i = 0 then
        if c.validRange then
          { validRange := true, yAxisMinCustom := c.rangeMinimum, yAxisMaxCustom := c.rangeMaximum }
        else st
      else
        if c.validRange then
          { validRange := true
            yAxisMinCustom :=
              if c.rangeMinimum < st.yAxisMinCustom then c.rangeMinimum else st.yAxisMinCustom
            yAxisMaxCustom :=
              if c.rangeMaximum > st.yAxisMaxCustom then c.rangeMaximum else st.yAxisMaxCustom }
        else st

/-- The parameter loop of `updateAxes` in `asParam` mode, from index `i` on. -/
def paramRangeFrom : Nat → List (Option BoundParameter) → ParamRange → ParamRange
  | _, [], st => st
  | i, entry :: rest, st => paramRangeFrom (i + 1) rest (paramRangeStep i entry st)

/-- The automatic scaling shared by the `asAuto` case and the `asParam` case without a valid
range. -/
def autoScale (pf : Platform) (p : QTBPlotTime) : QTBPlotTime :=
  let left := pf.axisRescale p.mAxisRect.graphs p.mAxisRect.left
  let scaled := decide (left.range ≠ p.mAutoRange)
  let left := if scaled then pf.axisScaleRange (105 / 100) (pf.rangeCenter left.range) left
    else left
  { p with
    mAutoRange := if scaled then left.range else p.mAutoRange
    mYAxisMinCustom := left.range.lower
    mYAxisMaxCustom := left.range.upper
    mAxisRect := { p.mAxisRect with left := left } }

/-- The `switch` on the scale mode in `updateAxes`. -/
def updateYAxis (pf : Platform) (p : QTBPlotTime) : QTBPlotTime :=
  if p.mYAxisScale = asAuto then autoScale pf p
  else if p.mYAxisScale = asParam then
    let st := paramRangeFrom 0 p.mDashParameters
      { validRange := false, yAxisMinCustom := p.mYAxisMinCustom,
        yAxisMaxCustom := p.mYAxisMaxCustom }
    let p1 := { p with mYAxisMinCustom := st.yAxisMinCustom,
                       mYAxisMaxCustom := st.yAxisMaxCustom }
    if !st.validRange then autoScale pf p1
    else
      { p1 with mAxisRect := { p1.mAxisRect with
          left := pf.axisSetRange { lower := p1.mYAxisMinCustom, upper := p1.mYAxisMaxCustom }
            p1.mAxisRect.left } }
  else if p.mYAxisScale = asCustom then
    { p with mAxisRect := { p.mAxisRect with
        left := pf.axisSetRange { lower := p.mYAxisMinCustom, upper := p.mYAxisMaxCustom }
          p.mAxisRect.left } }
  else p

/-- The method `updateAxes()`. -/
def updateAxes (pf : Platform) (board : QTBoard) (p : QTBPlotTime) : QTBPlotTime :=
  let p1 := updateYAxis pf p
  if board.liveDataRefreshEnabled then
    { p1 with mAxisRect := { p1.mAxisRect with
        bottom := pf.axisSetRange
          { lower := board.currentTimestamp - p1.mXAxisHistory,
            upper := board.currentTimestamp }
          p1.mAxisRect.bottom } }
  else p1

/-- The body of the parameter loop of `processNewSamples` for the entry at index `i`: a parameter
with id > 0 that has a graph gets its sample added, then the points older than the history
removed. -/
def processNewSamplesAt (history : Int) (graphs : List QTBGraph) (i : Nat)
    (entry : Option BoundParameter) : List QTBGraph :=
  match entry with
  | none => graphs
  | some bp =>
      if bp.parameter.getParameterId > 0 then
        if i < graphs.length then
          match bp.parameter.getValueDouble with
          | some value =>
              graphs.modify
                (fun g => (g.addData bp.parameter.getTimestamp value).removeBefore
                  (bp.parameter.getTimestamp - (int32 (history + 1) : Int)))
                i
          | none => graphs
        else graphs
      else graphs

/-- The parameter loop of `processNewSamples`, from index `i` on. -/
def processNewSamplesFrom (history : Int) :
    Nat → List (Option BoundParameter) → List QTBGraph → List QTBGraph
  | _, [], graphs => graphs
  | i, entry :: rest, graphs =>
      processNewSamplesFrom history (i + 1) rest (processNewSamplesAt history graphs i entry)

/-- The method `processNewSamples()`.  The first loop forwards the call to the value displays of
the legend; what the call changes inside a display is not modelled. -/
def processNewSamples (pf : Platform) (board : QTBoard) (p : QTBPlotTime) : QTBPlotTime :=
  let p1 := { p with mAxisRect := { p.mAxisRect with
    graphs := processNewSamplesFrom p.mXAxisHistory 0 p.mDashParameters p.mAxisRect.graphs } }
  updateAxes pf board p1

/-- The body of the parameter loop of `processHistoricalSamples` for the entry at index `i`. -/
def processHistoricalSamplesAt (dataManager : QTBDataManager) (graphs : List QTBGraph) (i : Nat)
    (entry : Option BoundParameter) : List QTBGraph :=
  match entry with
  | none => graphs
  | some bp =>
      if i < graphs.length then
        graphs.modify
          (fun g => g.addSerie (dataManager.dataSerie bp.parameter.getParameterId)) i
      else graphs

/-- The parameter loop of `processHistoricalSamples`, from index `i` on. -/
def processHistoricalSamplesFrom (dataManager : QTBDataManager) :
    Nat → List (Option BoundParameter) → List QTBGraph → List QTBGraph
  | _, [], graphs => graphs
  | i, entry :: rest, graphs =>
      processHistoricalSamplesFrom dataManager (i + 1) rest
        (processHistoricalSamplesAt dataManager graphs i entry)

/-- The method `processHistoricalSamples()`. -/
def processHistoricalSamples (board : QTBoard) (p : QTBPlotTime) : QTBPlotTime :=
  match board.dataManager with
  | none => p
  | some dataManager =>
      { p with mAxisRect := { p.mAxisRect with
          graphs := processHistoricalSamplesFrom dataManager 0 p.mDashParameters
            p.mAxisRect.graphs } }

/-- The method `initializeElement(dashboard)`: with a board, the axis rectangle and the legend
layout are created, the legend receives its two empty elements and the main layout the axis
rectangle.  The call of the base class and the ticker of the bottom axis are not modelled. -/
def initializeElement (dashboard : Option QTBoard) (p : QTBPlotTime) : QTBPlotTime :=
  match dashboard with
  | none => p
  | some _ =>
      let legendLayout : QCPLayoutGrid LegendElement := {}
      let legendLayout := legendLayout.addElement LegendElement.emptyElementFirst
      let legendLayout := legendLayout.addElement LegendElement.emptyElementLast
      { p with
        mAxisRect := {}
        mLegendLayout := legendLayout
        mLayout := p.mLayout.addElement MainElement.axisRect }

/-- The condition `mLegendLayout->elementCount() > 2 && mLegendVisible` of `updateLayout`. -/
def legendShown (p : QTBPlotTime) : Bool :=
  decide (p.mLegendLayout.elementCount > 2) && p.mLegendVisible

/-- The `switch` of `updateLayout` on the main layout, once emptied: the fill order and the
elements added for each legend position; no case for another value. -/
def composeLayout (p : QTBPlotTime) (layout : QCPLayoutGrid MainElement) :
    QCPLayoutGrid MainElement :=
  if p.mLegendPosition = lpRight then
    let layout := layout.setFillOrder FillOrder.foColumnsFirst
    let layout := layout.addElement MainElement.axisRect
    if p.legendShown then layout.addElement MainElement.legendLayout else layout
  else if p.mLegendPosition = lpLeft then
    let layout := layout.setFillOrder FillOrder.foColumnsFirst
    if p.legendShown then
      (layout.addElement MainElement.legendLayout).addElement MainElement.axisRect
    else layout.addElement MainElement.axisRect
  else if p.mLegendPosition = lpBottom then
    let layout := layout.setFillOrder FillOrder.foRowsFirst
    let layout := layout.addElement MainElement.axisRect
    if p.legendShown then layout.addElement MainElement.legendLayout else layout
  else if p.mLegendPosition = lpTop then
    let layout := layout.setFillOrder FillOrder.foRowsFirst
    if p.legendShown then
      (layout.addElement MainElement.legendLayout).addElement MainElement.axisRect
    else layout.addElement MainElement.axisRect
  else layout

/-- The `switch` of `updateLayout` on the legend layout, once set invisible: it is made visible
when it is added to the main layout, then it gets its fill order and its value displays their
orientation; no case for another value. -/
def composeLegend (p : QTBPlotTime) (legendLayout : QCPLayoutGrid LegendElement) :
    QCPLayoutGrid LegendElement :=
  if p.mLegendPosition = lpRight ∨ p.mLegendPosition = lpLeft then
    let legendLayout := if p.legendShown then legendLayout.setVisible true else legendLayout
    let legendLayout := legendLayout.setFillOrder FillOrder.foRowsFirst
    { legendLayout with cells := legendLayout.cells.map (Option.map (LegendElement.onValueDisplay
        fun legend => legend.setOrientation DisplayOrientation.doVerticalAlignLeftRight)) }
  else if p.mLegendPosition = lpBottom ∨ p.mLegendPosition = lpTop then
    let legendLayout := if p.legendShown then legendLayout.setVisible true else legendLayout
    let legendLayout := legendLayout.setFillOrder FillOrder.foColumnsFirst
    { legendLayout with cells := legendLayout.cells.map (Option.map (LegendElement.onValueDisplay
        fun legend => legend.setOrientation DisplayOrientation.doVerticalAlignCenter)) }
  else legendLayout

/-- The method `updateLayout()`: the axis rectangle and the legend layout are taken from the main
layout, the legend layout is set invisible, and the main layout is composed again for the legend
position; then the two axes are shown or hidden.  Stretch factors and margins are not
modelled. -/
def updateLayout (p : QTBPlotTime) : QTBPlotTime :=
  let layout := p.mLayout.take (fun element => decide (element = MainElement.axisRect))
  let layout := layout.take (fun element => decide (element = MainElement.legendLayout))
  let legendLayout := p.mLegendLayout.setVisible false
  let layout := layout.simplify
  { p with
    mLayout := p.composeLayout layout
    mLegendLayout := p.composeLegend legendLayout
    mAxisRect := { p.mAxisRect with
      left := { p.mAxisRect.left with
        visible := p.mYAxisLabelsVisible || p.mYAxisGridVisible || p.mYAxisTicksVisible }
      bottom := { p.mAxisRect.bottom with
        visible := p.mXAxisLabelsVisible || p.mXAxisGridVisible || p.mXAxisTicksVisible } } }

/-- The method `updateLegendSize()`: only sizes are set, which are not modelled; with a visible
legend the loop dereferences `elementAt(i)` for every `i` from 1 to `elementCount() - 2`, so
the call has no result when one of these cells is empty. -/
def updateLegendSize (p : QTBPlotTime) : Option QTBPlotTime :=
  if p.mLegendVisible then
    if (List.range (p.mLegendLayout.elementCount - 2)).all
        (fun k => (p.mLegendLayout.elementAt (k + 1)).isSome) then some p
    else none
  else some p

/-- The method `updateElement()`.  The last call, `updateGraphsStyle()`, sets pens, brushes and
styles of the graphs, which are not modelled. -/
def updateElement (m : ElementMethods) (p : QTBPlotTime) : Option QTBPlotTime :=
  p.updateLegendSize.bind fun p =>
    let p := p.updateLayout
    let p := { p with mLegendLayout := { p.mLegendLayout with
      cells := p.mLegendLayout.cells.map
        (Option.map (LegendElement.onValueDisplay m.displayUpdateElement)) } }
    some p.updateThresholdsItems

/-- The block `if(mBoard->dataManager()) { ... }` of `addParameter`, which adds the recorded
series of the parameter to the last graph; a last graph exists at both places of the block.
With a data manager, a null `dashParameter` is dereferenced and there is no result. -/
def fillLastGraph (board : QTBoard) (dashParameter : Option BoundParameter)
    (rect : QTBAxisRect) : Option QTBAxisRect :=
  match board.dataManager with
  | none => some rect
  | some dataManager =>
      match dashParameter with
      | none => none
      | some bp =>
          let serie := dataManager.dataSerie bp.parameter.getParameterId
          some { rect with
            graphs := rect.graphs.modify (fun g => g.addSerie serie) (rect.graphs.length - 1) }

/-- The `if`/`else` of `addParameter` on the legend layout and the graphs, after the call of the
base class.  When the legend is full, the value display at index `parametersCount()`, if there
is one, receives the parameter and the last graph is cleared and filled again; `graphs().last()`
has no result on an empty list.  Otherwise a new value display is put before the last empty
element of the legend and a new graph is created and filled. -/
def addLegendAndGraph (m : ElementMethods) (board : QTBoard)
    (dashParameter : Option BoundParameter) (p : QTBPlotTime) : Option QTBPlotTime :=
  if p.mLegendLayout.elementCount = p.mParametersMaxCount + 2 then
    match p.mLegendLayout.elementAt p.parametersCount with
    | some (LegendElement.valueDisplay legend) =>
        let legendLayout := { p.mLegendLayout with
          cells := p.mLegendLayout.cells.set p.parametersCount
            (some (LegendElement.valueDisplay (m.displayAddParameter legend dashParameter))) }
        if p.mAxisRect.graphs = [] then none
        else
          let graphs := p.mAxisRect.graphs.modify (fun g => { g with data := [] })
            (p.mAxisRect.graphs.length - 1)
          let rect := { p.mAxisRect with graphs := graphs }
          (fillLastGraph board dashParameter rect).map fun rect =>
            { p with mLegendLayout := legendLayout, mAxisRect := rect }
    | _ => some p
  else
    let legend := m.newValueDisplay board
    let legend := m.displayAddParameter legend dashParameter
    let legend := legend.setTransparentBackground true
    let legend :=
      if p.mLegendPosition = lpLeft ∨ p.mLegendPosition = lpRight then
        legend.setOrientation DisplayOrientation.doVerticalAlignLeftRight
      else legend.setOrientation DisplayOrientation.doVerticalAlignCenter
    let legendLayout := p.mLegendLayout.take LegendElement.isEmptyElementLast
    let legendLayout := legendLayout.simplify
    let legendLayout := legendLayout.addElement (LegendElement.valueDisplay legend)
    let legendLayout := legendLayout.addElement LegendElement.emptyElementLast
    let graph : QTBGraph := {}
    let rect := { p.mAxisRect with graphs := p.mAxisRect.graphs ++ [graph] }
    (fillLastGraph board dashParameter rect).map fun rect =>
      { p with mLegendLayout := legendLayout, mAxisRect := rect }

/-- The method `addParameter(QSharedPointer<QTBDashboardParameter> dashParameter)`: the call of
the base class, the `if`/`else` on the legend layout and the graphs, and `updateElement()`. -/
def addParameter (m : ElementMethods) (board : QTBoard) (dashParameter : Option BoundParameter)
    (p : QTBPlotTime) : Option QTBPlotTime :=
  let p := { p with mDashParameters :=
    m.elementAddParameter p.mParametersMaxCount p.mDashParameters dashParameter }
  (p.addLegendAndGraph m board dashParameter).bind fun p => p.updateElement m

/-- The method `removeDashParameter(index)`: the graph at the index is removed from the board,
hence from the axis rectangle, and the legend element at `index + 1` is taken and deleted.
There is no result when `graphs().at(index)` is out of range or when `takeAt` returns null, which
`el->deleteLater()` dereferences.  The index is a natural number; a negative `int` is out of
range like any index beyond the list. -/
def removeDashParameter (m : ElementMethods) (index : Nat) (p : QTBPlotTime) :
    Option QTBPlotTime :=
  if index < p.mAxisRect.graphs.length then
    let rect := { p.mAxisRect with graphs := p.mAxisRect.graphs.eraseIdx index }
    match p.mLegendLayout.takeAt (index + 1) with
    | (none, _) => none
    | (some _, legendLayout) =>
        let legendLayout := legendLayout.simplify
        let p := { p with
          mAxisRect := rect
          mLegendLayout := legendLayout
          mDashParameters := m.elementRemoveDashParameter p.mDashParameters index }
        p.updateElement m
  else none

end QTBPlotTime

/-! ## `QTBStateDisplay` (state_display.cpp) -/

/-- The text element `mTextValue`: its text, text colour and background brush. -/
structure TextElement where
  text : String := ""
  textColor : QColor := {}
  backgroundBrush : QBrush := QBrush.NoBrush
  deriving DecidableEq, Repr, Inhabited

/-- The data members of `QTBStateDisplay` used by `processNewSamples`: the parameter list of the
element and the text element. -/
structure QTBStateDisplay where
  mDashParameters : List (Option QTBDashboardParameter) := []
  mTextValue : TextElement := {}
  deriving Inhabited

namespace QTBStateDisplay

/-- The call `dashParameter(i)`: the entry, null when there is none. -/
def dashParameter (d : QTBStateDisplay) (i : Nat) : Option QTBDashboardParameter :=
  d.mDashParameters.getD i none

/-- The method `updateDashboardParameters(mode)`; the method of the base class
`QTBSingleDisplay`, whose source is not among the four files, is the argument
`singleDisplayUpdate`. -/
def updateDashboardParameters {σ : Type} (singleDisplayUpdate : UpdateMode → σ → σ)
    (_mode : UpdateMode) (display : σ) : σ :=
  singleDisplayUpdate UpdateMode.umState display

/-- The method `processNewSamples()`. -/
def processNewSamples (h : Heap) (d : QTBStateDisplay) : Option QTBStateDisplay :=
  match d.dashParameter 0 with
  | some dashParam =>
      if dashParam.getParameterId > 0 then
        (dashParam.getStateString h).bind fun text =>
          some { d with mTextValue :=
            { text := text
              textColor := dashParam.getForegroundColor
              backgroundBrush := dashParam.getBackgroundBrush } }
      else some { d with mTextValue := { d.mTextValue with text := "X" } }
  | none => some { d with mTextValue := { d.mTextValue with text := "X" } }

end QTBStateDisplay

/-! ## `QTBLayoutReactiveElement` (layout_reactive_element.cpp) -/

/-- A `QPointF`. -/
structure QPointF where
  x : Rat := 0
  y : Rat := 0
  deriving DecidableEq, Repr, Inhabited

/-- A `QRect`, by its `x()`, `y()`, `width()` and `height()`; `QRect()` has width and height 0. -/
structure QRect where
  x : Int := 0
  y : Int := 0
  width : Int := 0
  height : Int := 0
  deriving DecidableEq, Repr, Inhabited

/-- A `QRectF`: the members `xp`, `yp`, `w` and `h`. -/
structure QRectF where
  xp : Rat := 0
  yp : Rat := 0
  w : Rat := 0
  h : Rat := 0
  deriving DecidableEq, Repr, Inhabited

/-- The conversion `QRectF(const QRect &)`. -/
def QRect.toRectF (r : QRect) : QRectF :=
  { xp := r.x, yp := r.y, w := r.width, h := r.height }

/-- The method `QRectF::contains(const QPointF &)`: the rectangle is normalised (a negative
width or height extends it to the left or upwards), a rectangle of width or height 0 contains
nothing, and the four edges belong to the rectangle. -/
def QRectF.contains (r : QRectF) (p : QPointF) : Bool :=
  let left := if r.w < 0 then r.xp + r.w else r.xp
  let right := if r.w < 0 then r.xp else r.xp + r.w
  if left = right then false
  else if p.x < left ∨ p.x > right then false
  else
    let top := if r.h < 0 then r.yp + r.h else r.yp
    let bottom := if r.h < 0 then r.yp else r.yp + r.h
    if top = bottom then false
    else if p.y < top ∨ p.y > bottom then false
    else true

/-- The plot `mParentPlot` points to, by what `selectTest` reads of it. -/
structure QCustomPlot where
  selectionTolerance : Int := 8
  deriving DecidableEq, Repr, Inhabited

/-- The data members of `QTBLayoutReactiveElement` and of its base `QCPLayoutElement` that
`selectTest` reads; `mParentPlot` may be null. -/
structure QTBLayoutReactiveElement where
  mOuterRect : QRect := {}
  mParentPlot : Option QCustomPlot := none
  mTransparentBackground : Bool := false
  deriving DecidableEq, Repr, Inhabited

namespace QTBLayoutReactiveElement

/-- The method `selectTest(pos, onlySelectable, details)`; `details` is unused.  The product of
the `int` tolerance and the constant `0.99` is the exact rational product. -/
def selectTest (e : QTBLayoutReactiveElement) (pos : QPointF) (onlySelectable : Bool) : Rat :=
  if onlySelectable then -1
  else if e.mOuterRect.toRectF.contains pos then
    match e.mParentPlot with
    | some parentPlot => (parentPlot.selectionTolerance : Rat) * (99 / 100)
    | none => -1
  else -1

end QTBLayoutReactiveElement

/-! ## Notions used to state the properties -/

/-- The states of a dashboard parameter (with the heap of configurations) that one of the four
constructors followed by calls of `disconnectSharedConfiguration` and `loadParameterSettings`
can produce. -/
inductive Reachable (pf : Platform) : Heap → QTBDashboardParameter → Prop where
  | fromBoard (h0 : Heap) :
      Reachable pf (QTBDashboardParameter.newFromBoard pf h0).1
        (QTBDashboardParameter.newFromBoard pf h0).2
  | fromDataParameter (board : QTBoard) (dp : Option QTBParameter) (h0 h : Heap)
      (p : QTBDashboardParameter) :
      QTBDashboardParameter.newFromDataParameter pf board dp h0 = some (h, p) → Reachable pf h p
  | fromConfiguration (paramProperties : Ptr) (h0 h : Heap) (p : QTBDashboardParameter) :
      QTBDashboardParameter.newFromConfiguration pf paramProperties h0 = some (h, p) →
      Reachable pf h p
  | fromLabel (board : QTBoard) (label : String) (h0 h : Heap) (p : QTBDashboardParameter) :
      QTBDashboardParameter.newFromLabel pf board label h0 = some (h, p) → Reachable pf h p
  | disconnect (h : Heap) (p : QTBDashboardParameter) :
      Reachable pf h p → Reachable pf h p.disconnectSharedConfiguration
  | load (board : QTBoard) (settings : QSettings) (mode : ConfigurationMode) (h h1 : Heap)
      (p p1 : QTBDashboardParameter) :
      Reachable pf h p →
      QTBDashboardParameter.loadParameterSettings pf board settings mode h p = some (h1, p1) →
      Reachable pf h1 p1

/-- The reachable states in which a configuration has been bound: those produced by a constructor
that received a data parameter, a configuration or a non-empty label, and those produced by a
call of `disconnectSharedConfiguration` or `loadParameterSettings`. -/
inductive Bound (pf : Platform) : Heap → QTBDashboardParameter → Prop where
  | fromDataParameter (board : QTBoard) (dp : QTBParameter) (h0 h : Heap)
      (p : QTBDashboardParameter) :
      QTBDashboardParameter.newFromDataParameter pf board (some dp) h0 = some (h, p) →
      Bound pf h p
  | fromConfiguration (i : Nat) (h0 h : Heap) (p : QTBDashboardParameter) :
      QTBDashboardParameter.newFromConfiguration pf (some i) h0 = some (h, p) → Bound pf h p
  | fromLabel (board : QTBoard) (label : String) (h0 h : Heap) (p : QTBDashboardParameter) :
      label ≠ "" →
      QTBDashboardParameter.newFromLabel pf board label h0 = some (h, p) → Bound pf h p
  | disconnect (h : Heap) (p : QTBDashboardParameter) :
      Reachable pf h p → Bound pf h p.disconnectSharedConfiguration
  | load (board : QTBoard) (settings : QSettings) (mode : ConfigurationMode) (h h1 : Heap)
      (p p1 : QTBDashboardParameter) :
      Reachable pf h p →
      QTBDashboardParameter.loadParameterSettings pf board settings mode h p = some (h1, p1) →
      Bound pf h1 p1

/-- The configuration-resolution property: `parameterConfiguration()` is the shared
configuration when connected and the exclusive configuration when not. -/
def configurationResolved (p : QTBDashboardParameter) : Prop :=
  (p.connected = true → p.parameterConfiguration = p.sharedParameterConfiguration) ∧
  (p.connected = false → p.parameterConfiguration = p.exclusiveParameterConfiguration)

instance (p : QTBDashboardParameter) : Decidable (configurationResolved p) := by
  unfold configurationResolved
  infer_instance

/-- The colour settings that `update(umValue)` selects for the sample value `v` under the
configuration `c`: out of range first, then thresholds, then default. -/
def selectedColorSettings (c : QTBParameterConfiguration) (v : Rat) : QTBColorSettings :=
  if c.validRange = true ∧ c.outOfRangeColorEnabled = true ∧
      (v < c.rangeMinimum ∨ v > c.rangeMaximum) then
    c.outOfRangeColorSettings
  else if c.thresholdsSettings.active = true ∧ (c.thresholdsSettings.colorSettings v).2 = true then
    (c.thresholdsSettings.colorSettings v).1
  else c.defaultColorSettings

/-- The three colour members of a parameter. -/
def QTBDashboardParameter.colors (p : QTBDashboardParameter) : QColor × QColor × QBrush :=
  (p.mColor, p.mForegroundColor, p.mBackgroundBrush)

/-- The three members of colour settings, in the same order. -/
def QTBColorSettings.triple (cs : QTBColorSettings) : QColor × QColor × QBrush :=
  (cs.color, cs.foregroundColor, cs.backgroundBrush)

/-- A character among `0`-`9` and `A`-`F`. -/
def isUpperHexDigit (c : Char) : Bool :=
  c ∈ ['0', '1', '2', '3', '4', '5', '6', '7', '8', '9', 'A', 'B', 'C', 'D', 'E', 'F']

/-- The value of a hexadecimal digit character. -/
def hexDigitValue (c : Char) : Option Nat :=
  if '0'.toNat ≤ c.toNat ∧ c.toNat ≤ '9'.toNat then some (c.toNat - '0'.toNat)
  else if 'A'.toNat ≤ c.toNat ∧ c.toNat ≤ 'F'.toNat then some (c.toNat - 'A'.toNat + 10)
  else if 'a'.toNat ≤ c.toNat ∧ c.toNat ≤ 'f'.toNat then some (c.toNat - 'a'.toNat + 10)
  else none

/-- Read a list of characters as a base-16 number, most significant digit first, starting from
the value read so far. -/
def readHexFrom : Option Nat → List Char → Option Nat
  | acc, [] => acc
  | acc, c :: cs =>
      readHexFrom (acc.bind fun n => (hexDigitValue c).map fun d => 16 * n + d) cs

/-- Read a string as a base-16 number. -/
def readHex (s : String) : Option Nat :=
  readHexFrom (some 0) s.data

/-- The `w` least significant base-16 digits of `n`, most significant first, lower case. -/
def hexDigitsFixed : Nat → Nat → List Char
  | 0, _ => []
  | w + 1, n => hexDigitsFixed w (n / 16) ++ [Nat.digitChar (n % 16)]

/-- The fifteen settings that `saveSettings` writes and `loadSettings` reads. -/
structure PersistedSettings where
  legendVisible : Bool
  legendPosition : LegendPosition
  transparentBackground : Bool
  yAxisTicksVisible : Bool
  yAxisLabelsVisible : Bool
  yAxisGridVisible : Bool
  yAxisScale : YAxisScale
  yAxisMinCustom : Rat
  yAxisMaxCustom : Rat
  thresholdsVisible : Bool
  xAxisTicksVisible : Bool
  xAxisLabelsVisible : Bool
  xAxisGridVisible : Bool
  xAxisHistory : Int
  xAxisDirection : XAxisDirection
  deriving DecidableEq, Repr

/-- The persisted settings of a plot, read through its accessors. -/
def QTBPlotTime.persisted (p : QTBPlotTime) : PersistedSettings :=
  { legendVisible := p.mLegendVisible
    legendPosition := p.mLegendPosition
    transparentBackground := p.mTransparentBackground
    yAxisTicksVisible := p.mYAxisTicksVisible
    yAxisLabelsVisible := p.mYAxisLabelsVisible
    yAxisGridVisible := p.mYAxisGridVisible
    yAxisScale := p.mYAxisScale
    yAxisMinCustom := p.mYAxisMinCustom
    yAxisMaxCustom := p.mYAxisMaxCustom
    thresholdsVisible := p.mThresholdsVisible
    xAxisTicksVisible := p.mXAxisTicksVisible
    xAxisLabelsVisible := p.mXAxisLabelsVisible
    xAxisGridVisible := p.mXAxisGridVisible
    xAxisHistory := p.mXAxisHistory
    xAxisDirection := p.mXAxisDirection }

/-- The colour settings that `update(umState)` selects for the state value `v`, from the states
settings and the default colour settings alone. -/
def stateColorSettings (states : QTBStatesSettings) (defaults : QTBColorSettings) (v : Nat) :
    QTBColorSettings :=
  if states.active = true ∧ (states.colorSettings v).2 = true then (states.colorSettings v).1
  else defaults

/-- The interval and the pen of a coloured segment. -/
def QTBColoredSegment.span (s : QTBColoredSegment) : Rat × Rat × QPen :=
  (s.lower, s.upper, s.pen)

/-- The `j`-th low segment (counted from 0) for the low thresholds `low`, listed by ascending
key: from the previous key (from `-DBL_MAX` for the first) to the `j`-th key, in the colour of
the `j`-th threshold. -/
def lowSegmentSpan (low : List (Rat × QTBColorSettings)) (j : Nat) : Rat × Rat × QPen :=
  (if j = 0 then -DBL_MAX else (low.getD (j - 1) default).1,
   (low.getD j default).1,
   QPen.solidLine (low.getD j default).2.color)

/-- The `j`-th high segment (counted from 0) for the high thresholds `high`, listed by ascending
key: from the `j`-th key counted from the top to the key above it (to `DBL_MAX` for the first),
in the colour of the threshold at its lower end. -/
def highSegmentSpan (high : List (Rat × QTBColorSettings)) (j : Nat) : Rat × Rat × QPen :=
  ((high.getD (high.length - 1 - j) default).1,
   if j = 0 then DBL_MAX else (high.getD (high.length - j) default).1,
   QPen.solidLine (high.getD (high.length - 1 - j) default).2.color)

/-- The segments that the loop over the low thresholds adds, starting from the bound `lower`. -/
def lowSegmentsFrom (c : QTBParameterConfiguration) :
    Rat → List (Rat × QTBColorSettings) → List QTBColoredSegment
  | _, [] => []
  | lower, t :: ts =>
      { lower := lower, upper := t.1, pen := QPen.solidLine t.2.color,
        brush := QTBPlotTime.segmentBrush c.graphBrush t.2.color } :: lowSegmentsFrom c t.1 ts

/-- The segments that the loop over the high thresholds adds, for the thresholds listed by
descending key, starting from the bound `upper`. -/
def highSegmentsFrom (c : QTBParameterConfiguration) :
    Rat → List (Rat × QTBColorSettings) → List QTBColoredSegment
  | _, [] => []
  | upper, t :: ts =>
      { lower := t.1, upper := upper, pen := QPen.solidLine t.2.color,
        brush := QTBPlotTime.segmentBrush c.graphBrush t.2.color } :: highSegmentsFrom c t.1 ts

/-- Apply to the element at index `i + k` the update given by the `k`-th entry, for every entry
of the list: the shape shared by the parameter loops of the plot, which pair the parameter at an
index with the graph at the same index. -/
def modifyEach {α β : Type} (f : β → α → α) : Nat → List β → List α → List α
  | _, [], l => l
  | i, e :: rest, l => modifyEach f (i + 1) rest (l.modify (f e) i)

/-- What `processNewSamples` does to the graph of a parameter entry. -/
def newSampleUpdate (history : Int) (entry : Option BoundParameter) (g : QTBGraph) : QTBGraph :=
  match entry with
  | none => g
  | some bp =>
      if bp.parameter.mParameterId > 0 then
        (g.addData bp.parameter.mSample.datationSecFromMidnight
            bp.parameter.mSample.value.toDouble).removeBefore
          (bp.parameter.mSample.datationSecFromMidnight - (int32 (history + 1) : Int))
      else g

/-- What `processHistoricalSamples` does to the graph of a parameter entry. -/
def historicalUpdate (dataManager : QTBDataManager) (entry : Option BoundParameter)
    (g : QTBGraph) : QTBGraph :=
  match entry with
  | none => g
  | some bp => g.addSerie (dataManager.dataSerie bp.parameter.mParameterId)

/-- What `updateThresholdsItems` does to the graph of a parameter entry. -/
def thresholdSegmentsUpdate (entry : Option BoundParameter) (g : QTBGraph) : QTBGraph :=
  match entry with
  | none => g
  | some bp =>
      { g with coloredSegments :=
          if bp.configuration.itemColorMode = ItemColorMode.icDynamic then
            lowSegmentsFrom bp.configuration (-DBL_MAX)
                bp.configuration.thresholdsSettings.lowThresholds ++
              highSegmentsFrom bp.configuration DBL_MAX
                bp.configuration.thresholdsSettings.highThresholds.reverse
          else [] }

/-- The straight lines that `updateThresholdsItems` creates for a parameter entry: one per low
threshold by ascending key, then one per high threshold by descending key, when the thresholds
of the plot are visible and the configuration of the parameter has `itemsThresholdsVisible`;
none otherwise, and none for a null entry. -/
def thresholdItemsOf (thresholdsVisible : Bool) (entry : Option BoundParameter) :
    List QCPItemStraightLine :=
  match entry with
  | none => []
  | some bp =>
      if thresholdsVisible && bp.configuration.itemsThresholdsVisible then
        bp.configuration.thresholdsSettings.lowThresholds.map QTBPlotTime.thresholdLine ++
          bp.configuration.thresholdsSettings.highThresholds.reverse.map QTBPlotTime.thresholdLine
      else []

/-- The lines of `thresholdItemsOf` for the entries of a parameter list, in the order of the
list. -/
def thresholdItemsFrom (thresholdsVisible : Bool) :
    List (Option BoundParameter) → List QCPItemStraightLine
  | [] => []
  | entry :: rest =>
      thresholdItemsOf thresholdsVisible entry ++ thresholdItemsFrom thresholdsVisible rest

/-- The number of thresholds, low and high, of the parameters of the list whose configuration has
`itemsThresholdsVisible`. -/
def visibleThresholdsCount : List (Option BoundParameter) → Nat
  | [] => 0
  | none :: rest => visibleThresholdsCount rest
  | some bp :: rest =>
      (if bp.configuration.itemsThresholdsVisible then
        bp.configuration.thresholdsSettings.lowThresholds.length +
          bp.configuration.thresholdsSettings.highThresholds.length
       else 0) + visibleThresholdsCount rest

/-- The cells of a legend layout that holds the first empty element, then the given value
displays, then the last empty element, with no empty cell. -/
def legendCells (displays : List QTBValueDisplay) : List (Option LegendElement) :=
  some LegendElement.emptyElementFirst ::
    (displays.map (fun legend => some (LegendElement.valueDisplay legend)) ++
      [some LegendElement.emptyElementLast])

/-- The legend/graph correspondence: the legend layout is the first empty element, one value
display per graph of the axis rectangle, and the last empty element. -/
def LegendMatchesGraphs (p : QTBPlotTime) : Prop :=
  ∃ displays : List QTBValueDisplay,
    p.mLegendLayout.cells = legendCells displays ∧
      displays.length = p.mAxisRect.graphs.length

/-- The plots that `initializeElement` with a board, followed by any sequence of calls of
`addParameter(dashParameter)` and `removeDashParameter(index)` that return, produce from a newly
constructed plot. -/
inductive PlotReachable (m : ElementMethods) : QTBPlotTime → Prop where
  | initialized (board : QTBoard) (yAxisMinCustom yAxisMaxCustom : Rat) :
      PlotReachable m ((QTBPlotTime.new yAxisMinCustom yAxisMaxCustom).initializeElement (some board))
  | added (board : QTBoard) (dashParameter : Option BoundParameter) (p q : QTBPlotTime) :
      PlotReachable m p → p.addParameter m board dashParameter = some q → PlotReachable m q
  | removed (index : Nat) (p q : QTBPlotTime) :
      PlotReachable m p → p.removeDashParameter m index = some q → PlotReachable m q

/-! ## Concrete inputs used in the examples -/

/-- A configuration with a valid range whose minimum (10) is above its maximum (5),
out-of-range colouring enabled (red), green default colour, no thresholds. -/
def invertedRangeConfiguration : QTBParameterConfiguration :=
  { validRange := true, outOfRangeColorEnabled := true, rangeMinimum := 10, rangeMaximum := 5,
    outOfRangeColorSettings := { color := QColor.rgba 255 0 0 255 },
    defaultColorSettings := { color := QColor.rgba 0 255 0 255 } }

/-- A configuration with the valid range 0 to 5, out-of-range colouring enabled (red), green
default colour, no thresholds. -/
def rangedConfiguration : QTBParameterConfiguration :=
  { validRange := true, outOfRangeColorEnabled := true, rangeMinimum := 0, rangeMaximum := 5,
    outOfRangeColorSettings := { color := QColor.rgba 255 0 0 255 },
    defaultColorSettings := { color := QColor.rgba 0 255 0 255 } }

/-- A parameter with id 1 whose `parameterConfiguration()` is cell 0 of the heap. -/
def boundParameter : QTBDashboardParameter :=
  { mParameterId := 1, mParameterConfiguration := some 0 }

/-- A data manager that returns, for every id, a sample of value `v`. -/
def managerWithValue (v : Rat) : QTBDataManager :=
  { lastSample := fun _ => { value := { toDouble := v } }, dataSerie := fun _ => [] }

/-- A board with the data manager `managerWithValue v`. -/
def boardWithValue (v : Rat) : QTBoard :=
  { (default : QTBoard) with dataManager := some (managerWithValue v) }

/-- A plot in `asParam` mode whose custom bounds are -100 and 100 and that has two parameters:
the first without a valid range, the second with the valid range 0 to 10. -/
def staleBoundsPlot : QTBPlotTime :=
  { mYAxisScale := asParam
    mYAxisMinCustom := -100
    mYAxisMaxCustom := 100
    mDashParameters :=
      [some { configuration := { validRange := false } },
       some { configuration := { validRange := true, rangeMinimum := 0, rangeMaximum := 10 } }] }

/-- A configuration whose states settings are active and give every state the text `X`. -/
def stateXConfiguration : QTBParameterConfiguration :=
  { statesSettings := { active := true, text := fun _ => "X" } }

/-- A state display whose parameter at index 0 is `boundParameter` (id 1). -/
def stateXDisplay : QTBStateDisplay :=
  { mDashParameters := [some boundParameter] }

/-- A plot in `asParam` mode with custom bounds -100 and 100 and one parameter whose valid range
is 0 to 10. -/
def singleRangePlot : QTBPlotTime :=
  { mYAxisScale := asParam
    mYAxisMinCustom := -100
    mYAxisMaxCustom := 100
    mDashParameters :=
      [some { configuration := { validRange := true, rangeMinimum := 0, rangeMaximum := 10 } }] }

/-- A plot with custom bounds -100 and 100 and one parameter without a valid range. -/
def noRangePlot : QTBPlotTime :=
  { mYAxisMinCustom := -100
    mYAxisMaxCustom := 100
    mDashParameters := [some { configuration := { validRange := false } }] }

/-- A plot whose history is -2 seconds, with one parameter (id 1) holding the sample of value 5
at time 100, and an empty graph for it. -/
def negativeHistoryPlot : QTBPlotTime :=
  { mXAxisHistory := -2
    mDashParameters :=
      [some { parameter :=
        { mParameterId := 1
          mSample := { value := { toDouble := 5 }, datationSecFromMidnight := 100 } } }]
    mAxisRect := { graphs := [{}] } }

/-- A plot with the default history of 30 seconds, one parameter (id 1) holding the sample of
value 5 at time 100, and a graph for it that holds points at times 50, 69, 80 and 99. -/
def liveSamplesPlot : QTBPlotTime :=
  { mDashParameters :=
      [some { parameter :=
        { mParameterId := 1
          mSample := { value := { toDouble := 5 }, datationSecFromMidnight := 100 } } }]
    mAxisRect := { graphs := [{ data := [(50, 1), (69, 2), (80, 3), (99, 4)] }] } }

/-- A data series of two samples: value 5 at time 1 and value 6 at time 2. -/
def historySerie : List QTBDataSample :=
  [{ value := { toDouble := 5 }, datationSecFromMidnight := 1 },
   { value := { toDouble := 6 }, datationSecFromMidnight := 2 }]

/-- A board whose data manager holds `historySerie` for every parameter id. -/
def historyBoard : QTBoard :=
  { (default : QTBoard) with
    dataManager := some { lastSample := fun _ => {}, dataSerie := fun _ => historySerie } }

/-- A plot with one parameter (id 1) whose graph was filled from `historySerie` by the fill loop
of `addParameter`. -/
def historyPlot : QTBPlotTime :=
  { mDashParameters := [some { parameter := { mParameterId := 1 } }]
    mAxisRect := { graphs := [({} : QTBGraph).addSerie historySerie] } }

/-- A configuration in dynamic item colour mode with the low thresholds 1 (red) and 2 (green)
and the high thresholds 8 (blue) and 9 (white). -/
def thresholdsConfiguration : QTBParameterConfiguration :=
  { itemColorMode := ItemColorMode.icDynamic
    thresholdsSettings :=
      { lowThresholds := [(1, { color := QColor.rgba 255 0 0 255 }),
                          (2, { color := QColor.rgba 0 255 0 255 })]
        highThresholds := [(8, { color := QColor.rgba 0 0 255 255 }),
                           (9, { color := QColor.rgba 255 255 255 255 })] } }

/-- A plot with one parameter under `thresholdsConfiguration` and a graph for it. -/
def thresholdsPlot : QTBPlotTime :=
  { mDashParameters := [some { configuration := thresholdsConfiguration }]
    mAxisRect := { graphs := [{}] } }

/-- A settings store that holds only the legend visibility and the history. -/
def legendOnlyStore : QSettings :=
  { groups := []
    entries := fun k =>
      if k = "General/LegendVisible" then some (QVariant.bool false)
      else if k = "TimeAxis/History" then some (QVariant.int 60)
      else none }

/-- A reactive element of 10 by 10 pixels at the origin, in a plot with selection tolerance 8. -/
def squareElement : QTBLayoutReactiveElement :=
  { mOuterRect := { x := 0, y := 0, width := 10, height := 10 }
    mParentPlot := some { selectionTolerance := 8 } }

/-- A plot that shows its thresholds, with two parameters under `thresholdsConfiguration`, of
which only the first has `itemsThresholdsVisible`, a graph for each, and a stale item. -/
def markedPlot : QTBPlotTime :=
  { mDashParameters :=
      [some { configuration := { thresholdsConfiguration with itemsThresholdsVisible := true } },
       some { configuration := thresholdsConfiguration }]
    mThresholdsVisible := true
    mAxisRect := { graphs := [{}, {}], items := [{ y := 5, pen := QPen.NoPen }] } }

/-- Methods of the value displays and of the base class: a new display has no parameter,
`addParameter` appends to the list of the display or, below the limit, of the element,
`updateElement` changes nothing and `removeDashParameter` removes the entry at the index. -/
def listMethods : ElementMethods :=
  { newValueDisplay := fun _ => {}
    displayAddParameter := fun legend dashParameter =>
      { legend with mDashParameters := legend.mDashParameters ++ [dashParameter] }
    displayUpdateElement := fun legend => legend
    elementAddParameter := fun parametersMaxCount parameters dashParameter =>
      if parameters.length < parametersMaxCount then parameters ++ [dashParameter]
      else parameters
    elementRemoveDashParameter := fun parameters index => parameters.eraseIdx index }

/-- The plot that `addParameter` with a default parameter returns on a new plot initialised with
the board `boardWithValue 0`, whose data manager has no recorded sample. -/
def composedPlot : QTBPlotTime :=
  (((QTBPlotTime.new 0 0).initializeElement (some (boardWithValue 0))).addParameter listMethods
    (boardWithValue 0) (some {})).getD default

/-- A plot with the legend at the left, one value display in the legend and the axis rectangle
alone in the main layout. -/
def legendLeftPlot : QTBPlotTime :=
  { mLegendPosition := lpLeft
    mLegendVisible := true
    mLayout := { cells := [some MainElement.axisRect] }
    mLegendLayout := { cells := legendCells [{}] } }

/-- The parameter built by the board constructor over a heap holding one project configuration,
then given the id 5, a sample of value 7 and a red colour, as calls of `setParameterId` and
`update` leave them. -/
def updatedParameter : QTBDashboardParameter :=
  { (QTBDashboardParameter.newFromBoard default [{ label := "speed" }]).2 with
    mParameterId := 5
    mSample := { value := { toDouble := 7 } }
    mColor := QColor.rgba 255 0 0 255 }

/-- The parameter `updatedParameter`, connected to the project configuration in cell 0. -/
def connectedUpdatedParameter : QTBDashboardParameter :=
  { updatedParameter with
    mParameterConfigurationIsShared := true
    mSharedParameterConfiguration := some 0
    mParameterConfiguration := some 0 }

/-! ## Formatting: hexadecimal strings -/

theorem hexDigitsFixed_length (w n : Nat) : (hexDigitsFixed w n).length = w := by
  induction w generalizing n with
  | zero => rfl
  | succ w ih => simp [hexDigitsFixed, ih]

theorem hexDigitsFixed_zero (w : Nat) : hexDigitsFixed w 0 = List.replicate w '0' := by
  induction w with
  | zero => rfl
  | succ w ih =>
      have h0 : Nat.digitChar 0 = '0' := rfl
      simp [hexDigitsFixed, ih, h0, List.replicate_succ']

theorem toDigitsCore_append (b fuel : Nat) :
    ∀ (n : Nat) (acc : List Char),
      Nat.toDigitsCore b fuel n acc = Nat.toDigitsCore b fuel n [] ++ acc := by
  induction fuel with
  | zero => intro n acc; simp [Nat.toDigitsCore]
  | succ fuel ih =>
      intro n acc
      simp only [Nat.toDigitsCore]
      by_cases h : n / b = 0
      · simp [h]
      · simp only [h, if_false]
        rw [ih (n / b) (Nat.digitChar (n % b) :: acc), ih (n / b) [Nat.digitChar (n % b)]]
        simp

theorem toDigitsCore_padded (w : Nat) :
    ∀ (fuel n : Nat), n < fuel → n < 16 ^ w → 1 ≤ w →
      (Nat.toDigitsCore 16 fuel n []).length ≤ w ∧
      List.replicate (w - (Nat.toDigitsCore 16 fuel n []).length) '0' ++
        Nat.toDigitsCore 16 fuel n [] = hexDigitsFixed w n := by
  induction w with
  | zero => intro fuel n _ _ hw; omega
  | succ w ih =>
      intro fuel n hfuel hn _
      obtain ⟨f, rfl⟩ : ∃ f, fuel = f + 1 := ⟨fuel - 1, by omega⟩
      simp only [Nat.toDigitsCore]
      by_cases h : n / 16 = 0
      · have hlt : n < 16 := by omega
        simp only [h, if_true, List.length_singleton, hexDigitsFixed, hexDigitsFixed_zero]
        constructor
        · omega
        · simp
      · simp only [h, if_false]
        rw [toDigitsCore_append]
        have hw1 : 1 ≤ w := by
          rcases Nat.eq_zero_or_pos w with h0 | h0
          · subst h0; simp at hn; omega
          · exact h0
        have hdiv : n / 16 < 16 ^ w := by
          rw [Nat.div_lt_iff_lt_mul (by norm_num)]
          rw [pow_succ] at hn; exact hn
        obtain ⟨hlen, hpad⟩ := ih f (n / 16) (by omega) hdiv hw1
        constructor
        · simp; omega
        · simp only [List.length_append, List.length_singleton, hexDigitsFixed]
          rw [← hpad, ← List.append_assoc]
          congr 2
          congr 1
          omega

theorem QString_arg_hex (w n : Nat) (hw : 1 ≤ w) (hn : n < 16 ^ w) :
    QString_arg n w 16 '0' = String.mk (hexDigitsFixed w n) := by
  unfold QString_arg Nat.toDigits
  simp only
  rw [(toDigitsCore_padded w (n + 1) n (by omega) hn hw).2]

theorem QString_toUpper_mk (l : List Char) :
    QString_toUpper (String.mk l) = String.mk (l.map Char.toUpper) := rfl

theorem upper_digitChar (d : Nat) (hd : d < 16) :
    isUpperHexDigit (Char.toUpper (Nat.digitChar d)) = true ∧
      hexDigitValue (Char.toUpper (Nat.digitChar d)) = some d := by
  interval_cases d <;> decide

theorem readHexFrom_append (acc : Option Nat) (l1 l2 : List Char) :
    readHexFrom acc (l1 ++ l2) = readHexFrom (readHexFrom acc l1) l2 := by
  induction l1 generalizing acc with
  | nil => rfl
  | cons c cs ih => simp [readHexFrom, ih]

theorem readHexFrom_upper_fixed (w : Nat) :
    ∀ (a n : Nat),
      readHexFrom (some a) ((hexDigitsFixed w n).map Char.toUpper) =
        some (a * 16 ^ w + n % 16 ^ w) := by
  induction w with
  | zero => intro a n; simp [hexDigitsFixed, readHexFrom, Nat.mod_one]
  | succ w ih =>
      intro a n
      simp only [hexDigitsFixed, List.map_append, List.map_cons, List.map_nil,
        readHexFrom_append, ih, readHexFrom]
      rw [(upper_digitChar (n % 16) (Nat.mod_lt _ (by norm_num))).2]
      have h1 : n % 16 ^ (w + 1) = 16 * (n / 16 % 16 ^ w) + n % 16 := by
        rw [pow_succ, mul_comm, Nat.mod_mul]
        ring
      simp only [Option.some_bind, Option.map_some', Option.some.injEq]
      rw [h1, pow_succ]
      ring

theorem upper_fixed_all (w n : Nat) :
    ∀ c ∈ (hexDigitsFixed w n).map Char.toUpper, isUpperHexDigit c = true := by
  induction w generalizing n with
  | zero => intro c hc; simp [hexDigitsFixed] at hc
  | succ w ih =>
      intro c hc
      simp only [hexDigitsFixed, List.map_append, List.map_cons, List.map_nil,
        List.mem_append, List.mem_singleton] at hc
      rcases hc with hc | hc
      · exact ih (n / 16) c hc
      · rw [hc]
        exact (upper_digitChar (n % 16) (Nat.mod_lt _ (by norm_num))).1

theorem hexDigitsFixed_split (a b n : Nat) :
    hexDigitsFixed (a + b) n = hexDigitsFixed a (n / 16 ^ b) ++ hexDigitsFixed b (n % 16 ^ b) := by
  induction b generalizing n with
  | zero => simp [hexDigitsFixed]
  | succ b ih =>
      have e1 : n / 16 / 16 ^ b = n / 16 ^ (b + 1) := by
        rw [Nat.div_div_eq_div_mul, pow_succ, mul_comm]
      have e2 : n / 16 % 16 ^ b = n % 16 ^ (b + 1) / 16 := by
        rw [pow_succ, mul_comm, Nat.mod_mul_right_div_self]
      have e3 : n % 16 = n % 16 ^ (b + 1) % 16 := by
        rw [pow_succ, Nat.mod_mul_left_mod]
      rw [← Nat.add_assoc]
      simp only [hexDigitsFixed]
      rw [ih, e1, e2, ← e3, List.append_assoc]

theorem hexString_spec (w n : Nat) (hw : 1 ≤ w) (hn : n < 16 ^ w) :
    (QString_toUpper (QString_arg n w 16 '0')).length = w ∧
      (∀ c ∈ (QString_toUpper (QString_arg n w 16 '0')).data, isUpperHexDigit c = true) ∧
      readHex (QString_toUpper (QString_arg n w 16 '0')) = some n := by
  rw [QString_arg_hex w n hw hn, QString_toUpper_mk]
  refine ⟨?_, ?_, ?_⟩
  · simp [String.length, hexDigitsFixed_length]
  · exact upper_fixed_all w n
  · unfold readHex
    rw [readHexFrom_upper_fixed w 0 n, Nat.mod_eq_of_lt hn]
    simp

theorem unionLsb_little (v : Nat) : unionLsb true v = v % 65536 := by
  simp [unionLsb, uint32Bytes, uint16OfBytes]
  omega

theorem unionMsb_little (v : Nat) (hv : v < 2 ^ 32) : unionMsb true v = v / 65536 := by
  simp [unionMsb, uint32Bytes, uint16OfBytes]
  omega

/-! ## Claims on `getValueString` -/

/-- C3: a parameter whose id is 0 yields the string `X` for every value string format, whatever
the platform, the heap, the stored sample and the configuration pointers are. -/
theorem getValueString_unbound (pf : Platform) (h : Heap) (p : QTBDashboardParameter)
    (format : ValueStringFormat) (hid : p.mParameterId = 0) :
    p.getValueString pf h format = some "X" := by
  simp [QTBDashboardParameter.getValueString, hid]

/-- Witness of C3 on a parameter with id 0 that holds a sample, for the four formats. -/
theorem getValueString_unbound_witness :
    ((({ mParameterId := 0, mSample := { value := { uint32_value := 48879 } } } :
        QTBDashboardParameter).mParameterId = 0) ∧
      ({ mParameterId := 0, mSample := { value := { uint32_value := 48879 } } } :
        QTBDashboardParameter).getValueString default [] ValueStringFormat.vsfHexa = some "X") ∧
    ({ mParameterId := 0, mSample := { value := { uint32_value := 48879 } } } :
        QTBDashboardParameter).getValueString default [] ValueStringFormat.vsfDecimal
      = some "X" :=
  ⟨⟨rfl, getValueString_unbound default [] _ ValueStringFormat.vsfHexa rfl⟩,
    getValueString_unbound default [] _ ValueStringFormat.vsfDecimal rfl⟩

/-- C4: for a parameter with id > 0 whose sample holds the 32-bit unsigned value `v`,
`getValueString(vsfHexa)` is a string of exactly 8 characters, each among `0`-`9` and `A`-`F`,
and reading it as a base-16 number gives `v`. -/
theorem getValueString_hexa (pf : Platform) (h : Heap) (p : QTBDashboardParameter) (v : Nat)
    (hid : 0 < p.mParameterId) (hv : p.mSample.value.uint32_value = v) (hlt : v < 2 ^ 32) :
    ∃ s, p.getValueString pf h ValueStringFormat.vsfHexa = some s ∧ s.length = 8 ∧
      (∀ c ∈ s.data, isUpperHexDigit c = true) ∧ readHex s = some v := by
  have hmod : v % 4294967296 = v := Nat.mod_eq_of_lt (by norm_num at hlt; exact hlt)
  refine ⟨QString_toUpper (QString_arg v 8 16 '0'), ?_, hexString_spec 8 v (by norm_num) hlt⟩
  simp [QTBDashboardParameter.getValueString, hid, hv, hmod]

/-- Witness of C4 at the sample value 48879 (`BEEF` in base 16). -/
theorem getValueString_hexa_witness :
    ∃ s, ({ mParameterId := 1, mSample := { value := { uint32_value := 48879 } } } :
        QTBDashboardParameter).getValueString default [] ValueStringFormat.vsfHexa = some s ∧
      s.length = 8 ∧ (∀ c ∈ s.data, isUpperHexDigit c = true) ∧ readHex s = some 48879 :=
  getValueString_hexa default [] _ 48879 (by decide) rfl (by decide)

/-- C5: on a little-endian host, for a parameter with id > 0 whose sample holds the 32-bit
unsigned value `v`, `getValueString(vsfHexaLsb16)` is the 4-character upper-case hexadecimal of
`v mod 65536`, `getValueString(vsfHexaMsb16)` is that of `v div 65536`, and the second followed
by the first is `getValueString(vsfHexa)`. -/
theorem getValueString_halves (pf : Platform) (h : Heap) (p : QTBDashboardParameter) (v : Nat)
    (hle : pf.littleEndian = true) (hid : 0 < p.mParameterId)
    (hv : p.mSample.value.uint32_value = v) (hlt : v < 2 ^ 32) :
    ∃ lsb msb hexa,
      p.getValueString pf h ValueStringFormat.vsfHexaLsb16 = some lsb ∧
      p.getValueString pf h ValueStringFormat.vsfHexaMsb16 = some msb ∧
      p.getValueString pf h ValueStringFormat.vsfHexa = some hexa ∧
      (lsb.length = 4 ∧ (∀ c ∈ lsb.data, isUpperHexDigit c = true) ∧
        readHex lsb = some (v % 65536)) ∧
      (msb.length = 4 ∧ (∀ c ∈ msb.data, isUpperHexDigit c = true) ∧
        readHex msb = some (v / 65536)) ∧
      msb ++ lsb = hexa := by
  have hmod : v % 4294967296 = v := Nat.mod_eq_of_lt (by norm_num at hlt; exact hlt)
  have hl : v % 65536 < 16 ^ 4 := by norm_num; omega
  have hm : v / 65536 < 16 ^ 4 := by norm_num at hlt ⊢; omega
  refine ⟨QString_toUpper (QString_arg (v % 65536) 4 16 '0'),
    QString_toUpper (QString_arg (v / 65536) 4 16 '0'),
    QString_toUpper (QString_arg v 8 16 '0'), ?_, ?_, ?_,
    hexString_spec 4 _ (by norm_num) hl, hexString_spec 4 _ (by norm_num) hm, ?_⟩
  · simp [QTBDashboardParameter.getValueString, hid, hv, hmod, hle, unionLsb_little]
  · simp [QTBDashboardParameter.getValueString, hid, hv, hmod, hle, unionMsb_little v hlt]
  · simp [QTBDashboardParameter.getValueString, hid, hv, hmod]
  · rw [QString_arg_hex 4 _ (by norm_num) hl, QString_arg_hex 4 _ (by norm_num) hm,
      QString_arg_hex 8 v (by norm_num) hlt]
    simp only [QString_toUpper_mk]
    have hs := hexDigitsFixed_split 4 4 v
    have e : (16 : Nat) ^ 4 = 65536 := by norm_num
    rw [e] at hs
    show String.mk _ ++ String.mk _ = String.mk _
    rw [show (8 : Nat) = 4 + 4 from rfl, hs, List.map_append]
    rfl

/-- Witness of C5 at the sample value 3735928559 (`DEADBEEF` in base 16). -/
theorem getValueString_halves_witness :
    ∃ lsb msb hexa,
      ({ mParameterId := 1, mSample := { value := { uint32_value := 3735928559 } } } :
        QTBDashboardParameter).getValueString { (default : Platform) with littleEndian := true }
          [] ValueStringFormat.vsfHexaLsb16 = some lsb ∧
      ({ mParameterId := 1, mSample := { value := { uint32_value := 3735928559 } } } :
        QTBDashboardParameter).getValueString { (default : Platform) with littleEndian := true }
          [] ValueStringFormat.vsfHexaMsb16 = some msb ∧
      ({ mParameterId := 1, mSample := { value := { uint32_value := 3735928559 } } } :
        QTBDashboardParameter).getValueString { (default : Platform) with littleEndian := true }
          [] ValueStringFormat.vsfHexa = some hexa ∧
      (lsb.length = 4 ∧ (∀ c ∈ lsb.data, isUpperHexDigit c = true) ∧
        readHex lsb = some (3735928559 % 65536)) ∧
      (msb.length = 4 ∧ (∀ c ∈ msb.data, isUpperHexDigit c = true) ∧
        readHex msb = some (3735928559 / 65536)) ∧
      msb ++ lsb = hexa :=
  getValueString_halves _ [] _ 3735928559 rfl (by decide) rfl (by decide)

/-- The string of C4 at the sample value 48879, by evaluation. -/
theorem getValueString_hexa_example :
    ({ mParameterId := 1, mSample := { value := { uint32_value := 48879 } } } :
      QTBDashboardParameter).getValueString default [] ValueStringFormat.vsfHexa
      = some "0000BEEF" := by
  decide

/-! ## Heap lemmas -/

theorem deref_alloc_new (h : Heap) (c : QTBParameterConfiguration) :
    deref (alloc h c).1 (alloc h c).2 = some c := by
  simp [deref, alloc]

theorem deref_alloc_old (h : Heap) (c e : QTBParameterConfiguration) (q : Ptr)
    (hq : deref h q = some e) : deref (alloc h c).1 q = some e := by
  cases q with
  | none => simp [deref] at hq
  | some i =>
      simp only [deref, alloc] at hq ⊢
      have hi : i < h.length := by
        by_contra hge
        rw [List.getElem?_eq_none (by omega)] at hq
        exact absurd hq (by simp)
      rw [List.getElem?_append_left hi]
      exact hq

theorem deref_store_same (h : Heap) (q : Ptr) (c e : QTBParameterConfiguration)
    (hq : deref h q = some e) : deref (store h q c) q = some c := by
  cases q with
  | none => simp [deref] at hq
  | some i =>
      simp only [deref, store] at hq ⊢
      have hi : i < h.length := by
        by_contra hge
        rw [List.getElem?_eq_none (by omega)] at hq
        exact absurd hq (by simp)
      simp [List.getElem?_set, hi]

theorem deref_store_valid (h : Heap) (q r : Ptr) (c e : QTBParameterConfiguration)
    (hr : deref h r = some e) : ∃ e1, deref (store h q c) r = some e1 := by
  cases r with
  | none => simp [deref] at hr
  | some j =>
      cases q with
      | none => exact ⟨e, hr⟩
      | some i =>
          simp only [deref, store] at hr ⊢
          have hj : j < h.length := by
            by_contra hge
            rw [List.getElem?_eq_none (by omega)] at hr
            exact absurd hr (by simp)
          by_cases hij : i = j
          · subst hij
            exact ⟨c, by simp [List.getElem?_set, hj]⟩
          · exact ⟨e, by simp [List.getElem?_set, hij, hr]⟩

/-! ## The constructors and `loadParameterSettings`, case by case -/

theorem newFromBoard_exclusive (pf : Platform) (h0 : Heap) :
    ∃ e, deref (QTBDashboardParameter.newFromBoard pf h0).1
      (QTBDashboardParameter.newFromBoard pf h0).2.mExclusiveParameterConfiguration = some e := by
  refine ⟨pf.newConfiguration, ?_⟩
  simp only [QTBDashboardParameter.newFromBoard]
  exact deref_alloc_old _ _ _ _ (deref_alloc_new _ _)

theorem newFromDataParameter_none (pf : Platform) (board : QTBoard) (h0 : Heap) :
    QTBDashboardParameter.newFromDataParameter pf board none h0 =
      some ((alloc (alloc h0 pf.newConfiguration).1 pf.newConfiguration).1,
        { mParameterId := 0
          mParameterConfigurationIsShared := false
          mExclusiveParameterConfiguration := (alloc h0 pf.newConfiguration).2
          mParameterConfiguration :=
            (alloc (alloc h0 pf.newConfiguration).1 pf.newConfiguration).2 }) := rfl

theorem newFromDataParameter_some (pf : Platform) (board : QTBoard) (dp : QTBParameter)
    (h0 : Heap) :
    ∃ h e, QTBDashboardParameter.newFromDataParameter pf board (some dp) h0 =
      some (h, { mParameterId := dp.parameterId % 2 ^ 32
                 mLabel := dp.label
                 mUnit := dp.unit
                 mParameterConfigurationIsShared := false
                 mExclusiveParameterConfiguration := some h0.length
                 mParameterConfiguration := some h0.length }) ∧
      deref h (some h0.length) = some e ∧ e.label = dp.label := by
  have he : deref (alloc (alloc h0 pf.newConfiguration).1 pf.newConfiguration).1
      (alloc h0 pf.newConfiguration).2 = some pf.newConfiguration :=
    deref_alloc_old _ _ _ _ (deref_alloc_new _ _)
  simp only [QTBDashboardParameter.newFromDataParameter]
  rw [he]
  simp only [Option.some_bind]
  rw [deref_store_same _ _ _ _ he]
  exact ⟨_, _, rfl, deref_store_same _ _ _ _ (deref_store_same _ _ _ _ he), rfl⟩

theorem newFromLabel_empty (pf : Platform) (board : QTBoard) (h0 : Heap) :
    QTBDashboardParameter.newFromLabel pf board "" h0 =
      some ((alloc (alloc h0 pf.newConfiguration).1 pf.newConfiguration).1,
        { mParameterId := 0
          mParameterConfigurationIsShared := false
          mExclusiveParameterConfiguration := (alloc h0 pf.newConfiguration).2
          mParameterConfiguration :=
            (alloc (alloc h0 pf.newConfiguration).1 pf.newConfiguration).2 }) := by
  simp [QTBDashboardParameter.newFromLabel]

theorem newFromLabel_nonempty (pf : Platform) (board : QTBoard) (l : String) (hl : l ≠ "")
    (h0 : Heap) :
    ∃ h e, QTBDashboardParameter.newFromLabel pf board l h0 =
      some (h, { mParameterId := 0
                 mLabel := l
                 mParameterConfigurationIsShared := false
                 mExclusiveParameterConfiguration := some h0.length
                 mParameterConfiguration := some h0.length }) ∧
      deref h (some h0.length) = some e ∧ e.label = l := by
  have he : deref (alloc (alloc h0 pf.newConfiguration).1 pf.newConfiguration).1
      (alloc h0 pf.newConfiguration).2 = some pf.newConfiguration :=
    deref_alloc_old _ _ _ _ (deref_alloc_new _ _)
  simp only [QTBDashboardParameter.newFromLabel, hl, ne_eq, not_false_eq_true, if_true]
  rw [he]
  simp only [Option.some_bind]
  rw [deref_store_same _ _ _ _ he]
  exact ⟨_, _, rfl, deref_store_same _ _ _ _ (deref_store_same _ _ _ _ he), rfl⟩

theorem newFromConfiguration_null (pf : Platform) (h0 : Heap) :
    QTBDashboardParameter.newFromConfiguration pf none h0 =
      some ((alloc (alloc h0 pf.newConfiguration).1 pf.newConfiguration).1,
        { mParameterId := 0
          mParameterConfigurationIsShared := true
          mSharedParameterConfiguration := none
          mExclusiveParameterConfiguration := (alloc h0 pf.newConfiguration).2
          mParameterConfiguration :=
            (alloc (alloc h0 pf.newConfiguration).1 pf.newConfiguration).2 }) := rfl

theorem newFromConfiguration_some (pf : Platform) (i : Nat) (h0 : Heap)
    (c : QTBParameterConfiguration) (hc : deref h0 (some i) = some c) :
    QTBDashboardParameter.newFromConfiguration pf (some i) h0 =
      some ((alloc (alloc (alloc h0 pf.newConfiguration).1 pf.newConfiguration).1 c).1,
        { mParameterId := 0
          mLabel := c.label
          mParameterConfigurationIsShared := true
          mSharedParameterConfiguration := some i
          mExclusiveParameterConfiguration :=
            (alloc (alloc (alloc h0 pf.newConfiguration).1 pf.newConfiguration).1 c).2
          mParameterConfiguration := some i }) := by
  have hc2 : deref (alloc (alloc h0 pf.newConfiguration).1 pf.newConfiguration).1 (some i)
      = some c := deref_alloc_old _ _ _ _ (deref_alloc_old _ _ _ _ hc)
  simp only [QTBDashboardParameter.newFromConfiguration]
  rw [hc2]
  rfl

theorem newFromConfiguration_live (pf : Platform) (i : Nat) (h0 h : Heap)
    (p : QTBDashboardParameter)
    (hp : QTBDashboardParameter.newFromConfiguration pf (some i) h0 = some (h, p)) :
    ∃ c, deref (alloc (alloc h0 pf.newConfiguration).1 pf.newConfiguration).1 (some i) = some c ∧
      h = (alloc (alloc (alloc h0 pf.newConfiguration).1 pf.newConfiguration).1 c).1 ∧
      p = { mParameterId := 0
            mLabel := c.label
            mParameterConfigurationIsShared := true
            mSharedParameterConfiguration := some i
            mExclusiveParameterConfiguration :=
              (alloc (alloc (alloc h0 pf.newConfiguration).1 pf.newConfiguration).1 c).2
            mParameterConfiguration := some i } := by
  simp only [QTBDashboardParameter.newFromConfiguration] at hp
  cases hc : deref (alloc (alloc h0 pf.newConfiguration).1 pf.newConfiguration).1 (some i) with
  | none => rw [hc] at hp; simp at hp
  | some c =>
      rw [hc] at hp
      simp only [Option.some_bind, Option.some.injEq, Prod.mk.injEq] at hp
      exact ⟨c, rfl, hp.1.symm, hp.2.symm⟩

/-- The first branch of `loadParameterSettings`: the store says connected and the project has the
configuration. -/
theorem load_connected (pf : Platform) (board : QTBoard) (settings : QSettings)
    (mode : ConfigurationMode) (h : Heap) (p : QTBDashboardParameter) (i : Nat)
    (c : QTBParameterConfiguration)
    (hconn : (settings.value "Connected").toBool = true)
    (hres : board.parameterSettings ((settings.value "ConnectedParamLabel").toString pf.qt)
      ((settings.value "ConnectedProperties").toString pf.qt) = some i)
    (hc : deref h (some i) = some c) :
    p.loadParameterSettings pf board settings mode h =
      some ((alloc h c).1,
        { p with mParameterConfigurationIsShared := true
                 mSharedParameterConfiguration := some i
                 mLabel := c.label
                 mExclusiveParameterConfiguration := (alloc h c).2
                 mParameterConfiguration := some i }) := by
  simp only [QTBDashboardParameter.loadParameterSettings, hconn, if_true, hres]
  rw [hc]
  rfl

/-- The second branch of `loadParameterSettings`: the store says connected and the project has
no such configuration. -/
theorem load_fallback (pf : Platform) (board : QTBoard) (settings : QSettings)
    (mode : ConfigurationMode) (h : Heap) (p : QTBDashboardParameter)
    (e : QTBParameterConfiguration)
    (hconn : (settings.value "Connected").toBool = true)
    (hres : board.parameterSettings ((settings.value "ConnectedParamLabel").toString pf.qt)
      ((settings.value "ConnectedProperties").toString pf.qt) = none)
    (he : deref h p.mExclusiveParameterConfiguration = some e) :
    p.loadParameterSettings pf board settings mode h =
      some (store (store h p.mExclusiveParameterConfiguration
              (e.setLabel ((settings.value "ConnectedParamLabel").toString pf.qt)))
            p.mExclusiveParameterConfiguration
            ((e.setLabel ((settings.value "ConnectedParamLabel").toString pf.qt)).setDefaultColor
              board.randomColor),
        { p with mParameterConfigurationIsShared := false
                 mLabel := (settings.value "ConnectedParamLabel").toString pf.qt
                 mParameterConfiguration := p.mExclusiveParameterConfiguration }) := by
  simp only [QTBDashboardParameter.loadParameterSettings, hconn, if_true, hres]
  rw [he]
  simp only [Option.some_bind]
  rw [deref_store_same _ _ _ _ he]
  rfl

/-- The third branch of `loadParameterSettings`: the store does not say connected. -/
theorem load_exclusive (pf : Platform) (board : QTBoard) (settings : QSettings)
    (mode : ConfigurationMode) (h : Heap) (p : QTBDashboardParameter)
    (e : QTBParameterConfiguration)
    (hconn : (settings.value "Connected").toBool = false)
    (he : deref h p.mExclusiveParameterConfiguration = some e) :
    p.loadParameterSettings pf board settings mode h =
      some (store h p.mExclusiveParameterConfiguration (pf.configurationLoad settings mode e),
        { p with mParameterConfigurationIsShared := false
                 mLabel := (pf.configurationLoad settings mode e).label
                 mParameterConfiguration := p.mExclusiveParameterConfiguration }) := by
  have hsome : p.mExclusiveParameterConfiguration.isNone = false := by
    cases hx : p.mExclusiveParameterConfiguration with
    | none => rw [hx] at he; simp [deref] at he
    | some i => rfl
  simp only [QTBDashboardParameter.loadParameterSettings, hconn, hsome, Bool.false_eq_true,
    if_false]
  rw [he]
  rfl

/-- Every result of `loadParameterSettings` on a state whose exclusive configuration is live
comes from one of the three branches. -/
theorem load_result (pf : Platform) (board : QTBoard) (settings : QSettings)
    (mode : ConfigurationMode) (h h1 : Heap) (p p1 : QTBDashboardParameter)
    (e : QTBParameterConfiguration)
    (he : deref h p.mExclusiveParameterConfiguration = some e)
    (hload : p.loadParameterSettings pf board settings mode h = some (h1, p1)) :
    (∃ i c, (settings.value "Connected").toBool = true ∧
        board.parameterSettings ((settings.value "ConnectedParamLabel").toString pf.qt)
          ((settings.value "ConnectedProperties").toString pf.qt) = some i ∧
        deref h (some i) = some c ∧ h1 = (alloc h c).1 ∧
        p1 = { p with mParameterConfigurationIsShared := true
                      mSharedParameterConfiguration := some i
                      mLabel := c.label
                      mExclusiveParameterConfiguration := (alloc h c).2
                      mParameterConfiguration := some i }) ∨
    ((settings.value "Connected").toBool = true ∧
        board.parameterSettings ((settings.value "ConnectedParamLabel").toString pf.qt)
          ((settings.value "ConnectedProperties").toString pf.qt) = none ∧
        h1 = store (store h p.mExclusiveParameterConfiguration
              (e.setLabel ((settings.value "ConnectedParamLabel").toString pf.qt)))
            p.mExclusiveParameterConfiguration
            ((e.setLabel ((settings.value "ConnectedParamLabel").toString pf.qt)).setDefaultColor
              board.randomColor) ∧
        p1 = { p with mParameterConfigurationIsShared := false
                      mLabel := (settings.value "ConnectedParamLabel").toString pf.qt
                      mParameterConfiguration := p.mExclusiveParameterConfiguration }) ∨
    ((settings.value "Connected").toBool = false ∧
        h1 = store h p.mExclusiveParameterConfiguration (pf.configurationLoad settings mode e) ∧
        p1 = { p with mParameterConfigurationIsShared := false
                      mLabel := (pf.configurationLoad settings mode e).label
                      mParameterConfiguration := p.mExclusiveParameterConfiguration }) := by
  cases hconn : (settings.value "Connected").toBool with
  | false =>
      rw [load_exclusive pf board settings mode h p e hconn he] at hload
      simp only [Option.some.injEq, Prod.mk.injEq] at hload
      exact Or.inr (Or.inr ⟨rfl, hload.1.symm, hload.2.symm⟩)
  | true =>
      cases hres : board.parameterSettings ((settings.value "ConnectedParamLabel").toString pf.qt)
          ((settings.value "ConnectedProperties").toString pf.qt) with
      | none =>
          rw [load_fallback pf board settings mode h p e hconn hres he] at hload
          simp only [Option.some.injEq, Prod.mk.injEq] at hload
          exact Or.inr (Or.inl ⟨rfl, rfl, hload.1.symm, hload.2.symm⟩)
      | some i =>
          cases hc : deref h (some i) with
          | none =>
              simp only [QTBDashboardParameter.loadParameterSettings, hconn, if_true, hres]
                at hload
              rw [hc] at hload
              simp at hload
          | some c =>
              rw [load_connected pf board settings mode h p i c hconn hres hc] at hload
              simp only [Option.some.injEq, Prod.mk.injEq] at hload
              exact Or.inl ⟨i, c, rfl, rfl, hc, hload.1.symm, hload.2.symm⟩

/-- In every reachable state the exclusive configuration is a live object. -/
theorem reachable_exclusive_live (pf : Platform) (h : Heap) (p : QTBDashboardParameter)
    (hr : Reachable pf h p) : ∃ e, deref h p.mExclusiveParameterConfiguration = some e := by
  induction hr with
  | fromBoard h0 => exact newFromBoard_exclusive pf h0
  | fromDataParameter board dp h0 h p heq =>
      cases dp with
      | none =>
          rw [newFromDataParameter_none] at heq
          simp only [Option.some.injEq, Prod.mk.injEq] at heq
          rw [← heq.1, ← heq.2]
          exact ⟨_, deref_alloc_old _ _ _ _ (deref_alloc_new _ _)⟩
      | some dp =>
          obtain ⟨h2, e, hEq, hd, _⟩ := newFromDataParameter_some pf board dp h0
          rw [hEq] at heq
          simp only [Option.some.injEq, Prod.mk.injEq] at heq
          rw [← heq.1, ← heq.2]
          exact ⟨e, hd⟩
  | fromConfiguration pp h0 h p heq =>
      cases pp with
      | none =>
          rw [newFromConfiguration_null] at heq
          simp only [Option.some.injEq, Prod.mk.injEq] at heq
          rw [← heq.1, ← heq.2]
          exact ⟨_, deref_alloc_old _ _ _ _ (deref_alloc_new _ _)⟩
      | some i =>
          obtain ⟨c, _, hh, hp⟩ := newFromConfiguration_live pf i h0 h p heq
          rw [hh, hp]
          exact ⟨c, deref_alloc_new _ _⟩
  | fromLabel board l h0 h p heq =>
      by_cases hl : l = ""
      · subst hl
        rw [newFromLabel_empty] at heq
        simp only [Option.some.injEq, Prod.mk.injEq] at heq
        rw [← heq.1, ← heq.2]
        exact ⟨_, deref_alloc_old _ _ _ _ (deref_alloc_new _ _)⟩
      · obtain ⟨h2, e, hEq, hd, _⟩ := newFromLabel_nonempty pf board l hl h0
        rw [hEq] at heq
        simp only [Option.some.injEq, Prod.mk.injEq] at heq
        rw [← heq.1, ← heq.2]
        exact ⟨e, hd⟩
  | disconnect h p _ ih => exact ih
  | load board settings mode h h1 p p1 _ hload ih =>
      obtain ⟨e, he⟩ := ih
      rcases load_result pf board settings mode h h1 p p1 e he hload with
        ⟨i, c, _, _, _, hh, hp⟩ | ⟨_, _, hh, hp⟩ | ⟨_, hh, hp⟩
      · rw [hh, hp]
        exact ⟨c, deref_alloc_new _ _⟩
      · rw [hh, hp]
        exact ⟨_, deref_store_same _ _ _ _ (deref_store_same _ _ _ _ he)⟩
      · rw [hh, hp]
        exact ⟨_, deref_store_same _ _ _ _ he⟩

/-! ## Claims on the configuration pointers -/

/-- Counterexample to C1 as stated: right after the constructor `QTBDashboardParameter(board)`
the parameter is not connected, and `parameterConfiguration()` (cell 2) is not the exclusive
configuration (cell 1). -/
theorem configurationResolved_fails_after_newFromBoard :
    Reachable default (QTBDashboardParameter.newFromBoard default []).1
        (QTBDashboardParameter.newFromBoard default []).2 ∧
      (QTBDashboardParameter.newFromBoard default []).2.connected = false ∧
      (QTBDashboardParameter.newFromBoard default []).2.parameterConfiguration = some 2 ∧
      (QTBDashboardParameter.newFromBoard default []).2.exclusiveParameterConfiguration
        = some 1 ∧
      ¬ configurationResolved (QTBDashboardParameter.newFromBoard default []).2 :=
  ⟨Reachable.fromBoard [], rfl, rfl, rfl, by decide⟩

/-- C1 (amended): in every state produced by a constructor that received a data parameter, a
configuration or a non-empty label, and in every state produced by a call of
`disconnectSharedConfiguration` or `loadParameterSettings` on a reachable state,
`parameterConfiguration()` is the same object as `sharedParameterConfiguration()` when
`connected()` is true and the same object as `exclusiveParameterConfiguration()` when it is
false. -/
theorem bound_configurationResolved (pf : Platform) (h : Heap) (p : QTBDashboardParameter)
    (hb : Bound pf h p) : configurationResolved p := by
  induction hb with
  | fromDataParameter board dp h0 h p heq =>
      obtain ⟨h2, e, hEq, _, _⟩ := newFromDataParameter_some pf board dp h0
      rw [hEq] at heq
      simp only [Option.some.injEq, Prod.mk.injEq] at heq
      rw [← heq.2]
      simp [configurationResolved, QTBDashboardParameter.connected,
        QTBDashboardParameter.parameterConfiguration,
        QTBDashboardParameter.exclusiveParameterConfiguration]
  | fromConfiguration i h0 h p heq =>
      obtain ⟨c, _, _, hp⟩ := newFromConfiguration_live pf i h0 h p heq
      rw [hp]
      simp [configurationResolved, QTBDashboardParameter.connected,
        QTBDashboardParameter.parameterConfiguration,
        QTBDashboardParameter.sharedParameterConfiguration]
  | fromLabel board l h0 h p hl heq =>
      obtain ⟨h2, e, hEq, _, _⟩ := newFromLabel_nonempty pf board l hl h0
      rw [hEq] at heq
      simp only [Option.some.injEq, Prod.mk.injEq] at heq
      rw [← heq.2]
      simp [configurationResolved, QTBDashboardParameter.connected,
        QTBDashboardParameter.parameterConfiguration,
        QTBDashboardParameter.exclusiveParameterConfiguration]
  | disconnect h p _ =>
      simp [configurationResolved, QTBDashboardParameter.connected,
        QTBDashboardParameter.parameterConfiguration,
        QTBDashboardParameter.exclusiveParameterConfiguration,
        QTBDashboardParameter.disconnectSharedConfiguration]
  | load board settings mode h h1 p p1 hr hload =>
      obtain ⟨e, he⟩ := reachable_exclusive_live pf h p hr
      rcases load_result pf board settings mode h h1 p p1 e he hload with
        ⟨i, c, _, _, _, _, hp⟩ | ⟨_, _, _, hp⟩ | ⟨_, _, hp⟩ <;>
      · rw [hp]
        simp [configurationResolved, QTBDashboardParameter.connected,
          QTBDashboardParameter.parameterConfiguration,
          QTBDashboardParameter.sharedParameterConfiguration,
          QTBDashboardParameter.exclusiveParameterConfiguration]

/-- Witness of C1 (amended): the state after the board constructor followed by
`disconnectSharedConfiguration`. -/
theorem bound_configurationResolved_witness :
    Bound default (QTBDashboardParameter.newFromBoard default []).1
        (QTBDashboardParameter.newFromBoard default []).2.disconnectSharedConfiguration ∧
      configurationResolved
        (QTBDashboardParameter.newFromBoard default []).2.disconnectSharedConfiguration :=
  ⟨Bound.disconnect _ _ (Reachable.fromBoard []),
    bound_configurationResolved default _ _ (Bound.disconnect _ _ (Reachable.fromBoard []))⟩

/-- C8: for every settings store and every parameter, whatever its id, label, unit, sample,
colours, flag and shared pointer, whose exclusive configuration is a live object, and with a
project that hands out live configurations, `loadParameterSettings` returns, and afterwards the
parameter is connected exactly when the stored key `Connected` is true and the project resolves
the stored pair (`ConnectedParamLabel`, `ConnectedProperties`) to a non-null configuration; in
that case the shared configuration and `parameterConfiguration()` are both that configuration and
`getLabel()` is its label. -/
theorem loadParameterSettings_connected_iff (pf : Platform) (board : QTBoard)
    (settings : QSettings) (mode : ConfigurationMode) (h : Heap) (p : QTBDashboardParameter)
    (hexclusive : ∃ e, deref h p.mExclusiveParameterConfiguration = some e)
    (hlive : ∀ i, board.parameterSettings ((settings.value "ConnectedParamLabel").toString pf.qt)
      ((settings.value "ConnectedProperties").toString pf.qt) = some i →
      ∃ c, deref h (some i) = some c) :
    ∃ h1 p1, p.loadParameterSettings pf board settings mode h = some (h1, p1) ∧
      (p1.connected = true ↔
        ((settings.value "Connected").toBool = true ∧
          board.parameterSettings ((settings.value "ConnectedParamLabel").toString pf.qt)
            ((settings.value "ConnectedProperties").toString pf.qt) ≠ none)) ∧
      (p1.connected = true →
        p1.sharedParameterConfiguration =
          board.parameterSettings ((settings.value "ConnectedParamLabel").toString pf.qt)
            ((settings.value "ConnectedProperties").toString pf.qt) ∧
        p1.parameterConfiguration =
          board.parameterSettings ((settings.value "ConnectedParamLabel").toString pf.qt)
            ((settings.value "ConnectedProperties").toString pf.qt) ∧
        ∃ c, deref h1 p1.parameterConfiguration = some c ∧ p1.getLabel = c.label) := by
  obtain ⟨e, he⟩ := hexclusive
  cases hconn : (settings.value "Connected").toBool with
  | false =>
      refine ⟨_, _, load_exclusive pf board settings mode h p e hconn he, ?_, ?_⟩ <;>
        simp [QTBDashboardParameter.connected]
  | true =>
      cases hres : board.parameterSettings ((settings.value "ConnectedParamLabel").toString pf.qt)
          ((settings.value "ConnectedProperties").toString pf.qt) with
      | none =>
          refine ⟨_, _, load_fallback pf board settings mode h p e hconn hres he, ?_, ?_⟩ <;>
            simp [QTBDashboardParameter.connected]
      | some i =>
          obtain ⟨c, hc⟩ := hlive i hres
          refine ⟨_, _, load_connected pf board settings mode h p i c hconn hres hc, ?_, ?_⟩
          · simp [QTBDashboardParameter.connected]
          · intro _
            refine ⟨rfl, rfl, c, ?_, rfl⟩
            exact deref_alloc_old _ _ _ _ hc

/-- Witness of C8: the parameter `updatedParameter`, which carries an id, a sample and colours
as after calls of `setParameterId` and `update`, over a heap holding one project configuration,
a store that says connected, and a project that resolves every pair to that configuration. -/
theorem loadParameterSettings_connected_iff_witness :
    ∃ h1 p1,
      updatedParameter.loadParameterSettings
        default { (default : QTBoard) with parameterSettings := fun _ _ => some 0 }
        { entries := fun k => if k = "Connected" then some (QVariant.bool true) else none }
        ConfigurationMode.cmGraph
        (QTBDashboardParameter.newFromBoard default [{ label := "speed" }]).1 = some (h1, p1) ∧
      (p1.connected = true ↔
        (((({ entries := fun k => if k = "Connected" then some (QVariant.bool true) else none } :
            QSettings).value "Connected").toBool = true) ∧ (some 0 : Ptr) ≠ none)) ∧
      (p1.connected = true →
        p1.sharedParameterConfiguration = some 0 ∧ p1.parameterConfiguration = some 0 ∧
        ∃ c, deref h1 p1.parameterConfiguration = some c ∧ p1.getLabel = c.label) :=
  loadParameterSettings_connected_iff default
    { (default : QTBoard) with parameterSettings := fun _ _ => some 0 }
    { entries := fun k => if k = "Connected" then some (QVariant.bool true) else none }
    ConfigurationMode.cmGraph _ updatedParameter
    (newFromBoard_exclusive default [{ label := "speed" }])
    (fun i hi => ⟨{ label := "speed" }, by
      have h0 : i = 0 := (Option.some.inj hi).symm
      subst h0
      rfl⟩)

/-- C9: for every parameter, whatever its id, label, unit, sample, colours, flag and shared
pointer, whose exclusive configuration is a live object, when the store says connected and the
project has no configuration for the stored label and description, `loadParameterSettings`
returns, the parameter ends not connected, `getLabel()` is the stored `ConnectedParamLabel`, the
exclusive configuration is a live object whose label is that same label, and
`parameterConfiguration()` is the exclusive configuration. -/
theorem loadParameterSettings_unresolved (pf : Platform) (board : QTBoard)
    (settings : QSettings) (mode : ConfigurationMode) (h : Heap) (p : QTBDashboardParameter)
    (hexclusive : ∃ e, deref h p.mExclusiveParameterConfiguration = some e)
    (hconn : (settings.value "Connected").toBool = true)
    (hres : board.parameterSettings ((settings.value "ConnectedParamLabel").toString pf.qt)
      ((settings.value "ConnectedProperties").toString pf.qt) = none) :
    ∃ h1 p1 e, p.loadParameterSettings pf board settings mode h = some (h1, p1) ∧
      p1.connected = false ∧
      p1.getLabel = (settings.value "ConnectedParamLabel").toString pf.qt ∧
      deref h1 p1.exclusiveParameterConfiguration = some e ∧
      e.label = (settings.value "ConnectedParamLabel").toString pf.qt ∧
      p1.parameterConfiguration = p1.exclusiveParameterConfiguration := by
  obtain ⟨e, he⟩ := hexclusive
  exact ⟨_, _,
    (e.setLabel ((settings.value "ConnectedParamLabel").toString pf.qt)).setDefaultColor
      board.randomColor,
    load_fallback pf board settings mode h p e hconn hres he, rfl, rfl,
    deref_store_same _ _ _ _ (deref_store_same _ _ _ _ he), rfl, rfl⟩

/-- Witness of C9: the parameter `connectedUpdatedParameter`, which carries an id, a sample and
colours as after calls of `setParameterId` and `update` and was connected before the call, a
store that says connected with the label `speed`, and a project without configurations. -/
theorem loadParameterSettings_unresolved_witness :
    ∃ h1 p1 e,
      connectedUpdatedParameter.loadParameterSettings
        default { (default : QTBoard) with parameterSettings := fun _ _ => none }
        { entries := fun k =>
            if k = "Connected" then some (QVariant.bool true)
            else if k = "ConnectedParamLabel" then some (QVariant.string "speed") else none }
        ConfigurationMode.cmGraph
        (QTBDashboardParameter.newFromBoard default [{ label := "speed" }]).1 = some (h1, p1) ∧
      p1.connected = false ∧
      p1.getLabel = "speed" ∧
      deref h1 p1.exclusiveParameterConfiguration = some e ∧
      e.label = "speed" ∧
      p1.parameterConfiguration = p1.exclusiveParameterConfiguration :=
  loadParameterSettings_unresolved default
    { (default : QTBoard) with parameterSettings := fun _ _ => none }
    { entries := fun k =>
        if k = "Connected" then some (QVariant.bool true)
        else if k = "ConnectedParamLabel" then some (QVariant.string "speed") else none }
    ConfigurationMode.cmGraph _ connectedUpdatedParameter
    (newFromBoard_exclusive default [{ label := "speed" }]) rfl rfl

/-- C10: from every state, `disconnectSharedConfiguration` makes `connected()` false, makes the
shared configuration null and makes `parameterConfiguration()` the exclusive configuration; the
label, the unit, the parameter id, the stored sample, the three colours, the exclusive pointer
and the object it points to in any heap are unchanged; a second call changes nothing. -/
theorem disconnectSharedConfiguration_effect (p : QTBDashboardParameter) :
    p.disconnectSharedConfiguration.connected = false ∧
    p.disconnectSharedConfiguration.sharedParameterConfiguration = none ∧
    p.disconnectSharedConfiguration.parameterConfiguration =
      p.disconnectSharedConfiguration.exclusiveParameterConfiguration ∧
    p.disconnectSharedConfiguration.getLabel = p.getLabel ∧
    p.disconnectSharedConfiguration.getUnit = p.getUnit ∧
    p.disconnectSharedConfiguration.getParameterId = p.getParameterId ∧
    p.disconnectSharedConfiguration.mSample = p.mSample ∧
    p.disconnectSharedConfiguration.colors = p.colors ∧
    p.disconnectSharedConfiguration.exclusiveParameterConfiguration =
      p.exclusiveParameterConfiguration ∧
    (∀ h : Heap, deref h p.disconnectSharedConfiguration.exclusiveParameterConfiguration =
      deref h p.exclusiveParameterConfiguration) ∧
    p.disconnectSharedConfiguration.disconnectSharedConfiguration =
      p.disconnectSharedConfiguration :=
  ⟨rfl, rfl, rfl, rfl, rfl, rfl, rfl, rfl, rfl, fun _ => rfl, rfl⟩

/-! ## Claims on `update` -/

/-- The result of `update(umValue)` on a bound parameter whose configuration is live: the sample
is the last sample of the data manager and the colours are the selected colour settings. -/
theorem update_umValue_eq (board : QTBoard) (dm : QTBDataManager) (h : Heap)
    (p : QTBDashboardParameter) (c : QTBParameterConfiguration) (hid : 0 < p.mParameterId)
    (hdm : board.dataManager = some dm)
    (hc : deref h p.mParameterConfiguration = some c) :
    p.update board UpdateMode.umValue h =
      some (QTBDashboardParameter.setColors
        { p with mSample := dm.lastSample p.mParameterId }
        (selectedColorSettings c (dm.lastSample p.mParameterId).value.toDouble)) := by
  simp only [QTBDashboardParameter.update, hid, if_true, hdm, hc, Option.some_bind,
    selectedColorSettings, QTBDashboardParameter.setColors]
  by_cases h1 : c.validRange = true <;> by_cases h2 : c.outOfRangeColorEnabled = true <;>
    by_cases h3 : (dm.lastSample p.mParameterId).value.toDouble < c.rangeMinimum <;>
    by_cases h4 : (dm.lastSample p.mParameterId).value.toDouble > c.rangeMaximum <;>
    by_cases h5 : c.thresholdsSettings.active = true <;>
    by_cases h6 : (c.thresholdsSettings.colorSettings
      (dm.lastSample p.mParameterId).value.toDouble).2 = true <;>
    simp [h1, h2, h3, h4, h5, h6]

/-- Counterexample to C2 as stated: under a configuration with a valid range whose minimum (10)
is above its maximum (5), out-of-range colouring enabled and no thresholds, the sample value 10
equals `rangeMinimum` and `update(umValue)` gives it the out-of-range colours (red), which differ
from the default ones (green). -/
theorem update_umValue_boundary_out_of_range :
    (boundParameter.update (boardWithValue 10) UpdateMode.umValue
        [invertedRangeConfiguration]).map QTBDashboardParameter.colors
      = some invertedRangeConfiguration.outOfRangeColorSettings.triple ∧
    ((managerWithValue 10).lastSample boundParameter.mParameterId).value.toDouble
      = invertedRangeConfiguration.rangeMinimum ∧
    invertedRangeConfiguration.thresholdsSettings.active = false ∧
    invertedRangeConfiguration.outOfRangeColorSettings.triple ≠
      invertedRangeConfiguration.defaultColorSettings.triple := by
  refine ⟨?_, rfl, rfl, by decide⟩
  rw [update_umValue_eq (boardWithValue 10) (managerWithValue 10) [invertedRangeConfiguration]
    boundParameter invertedRangeConfiguration (by decide) rfl rfl]
  simp [selectedColorSettings, QTBDashboardParameter.setColors, QTBDashboardParameter.colors,
    QTBColorSettings.triple, invertedRangeConfiguration, managerWithValue, boundParameter]
  norm_num

/-- C2 (amended): for a parameter with id > 0 whose configuration `c` is live, on a board with a
data manager, with `v` the value of the data manager's last sample, `update(umValue)` returns
and sets the three colours to the out-of-range colour settings if `c` has `validRange` and
`outOfRangeColorEnabled` and `v < rangeMinimum` or `v > rangeMaximum`; otherwise to the
threshold colour settings for `v` if the thresholds are active and return a valid colour;
otherwise to the default colour settings.  The result is the same whatever colours were held
before the call, and when `rangeMinimum ≤ rangeMaximum` a value equal to `rangeMinimum` or to
`rangeMaximum` is not coloured as out of range. -/
theorem update_umValue_colors (board : QTBoard) (dm : QTBDataManager) (h : Heap)
    (p : QTBDashboardParameter) (c : QTBParameterConfiguration) (hid : 0 < p.mParameterId)
    (hdm : board.dataManager = some dm)
    (hc : deref h p.mParameterConfiguration = some c) :
    ∃ q, p.update board UpdateMode.umValue h = some q ∧
      q.colors =
        (selectedColorSettings c (dm.lastSample p.mParameterId).value.toDouble).triple ∧
      (∀ (col fg : QColor) (br : QBrush),
        ({ p with mColor := col, mForegroundColor := fg, mBackgroundBrush := br } :
          QTBDashboardParameter).update board UpdateMode.umValue h = some q) ∧
      (c.rangeMinimum ≤ c.rangeMaximum →
        ((dm.lastSample p.mParameterId).value.toDouble = c.rangeMinimum ∨
          (dm.lastSample p.mParameterId).value.toDouble = c.rangeMaximum) →
        q.colors =
          (if c.thresholdsSettings.active = true ∧ (c.thresholdsSettings.colorSettings
              (dm.lastSample p.mParameterId).value.toDouble).2 = true then
            (c.thresholdsSettings.colorSettings
              (dm.lastSample p.mParameterId).value.toDouble).1
          else c.defaultColorSettings).triple) := by
  refine ⟨_, update_umValue_eq board dm h p c hid hdm hc, rfl, ?_, ?_⟩
  · intro col fg br
    exact update_umValue_eq board dm h
      { p with mColor := col, mForegroundColor := fg, mBackgroundBrush := br } c hid hdm hc
  · intro hle hv
    have hin : ¬ ((dm.lastSample p.mParameterId).value.toDouble < c.rangeMinimum ∨
        (dm.lastSample p.mParameterId).value.toDouble > c.rangeMaximum) := by
      rcases hv with hv | hv <;> rw [hv] <;> intro hcon <;> rcases hcon with hcon | hcon
      · exact lt_irrefl _ hcon
      · exact absurd hcon (not_lt.mpr hle)
      · exact absurd hcon (not_lt.mpr hle)
      · exact lt_irrefl _ hcon
    simp only [QTBDashboardParameter.colors, QTBDashboardParameter.setColors,
      selectedColorSettings, hin, and_false, if_false]
    rfl

/-- Witness of C2 (amended): range 0 to 5, out-of-range colouring enabled, sample value 7;
the colours are the out-of-range ones. -/
theorem update_umValue_colors_witness :
    ∃ q, boundParameter.update (boardWithValue 7) UpdateMode.umValue [rangedConfiguration]
        = some q ∧
      q.colors = (selectedColorSettings rangedConfiguration 7).triple ∧
      q.colors = rangedConfiguration.outOfRangeColorSettings.triple := by
  obtain ⟨q, hq, hcol, _, _⟩ := update_umValue_colors (boardWithValue 7) (managerWithValue 7)
    [rangedConfiguration] boundParameter rangedConfiguration (by decide) rfl rfl
  refine ⟨q, hq, hcol, ?_⟩
  rw [hcol]
  simp [selectedColorSettings, QTBColorSettings.triple, rangedConfiguration, managerWithValue,
    boundParameter]
  norm_num

/-! ## The settings store -/

theorem string_append_right_inj (a b c : String) : a ++ b = a ++ c ↔ b = c := by
  constructor
  · intro h
    have hd := congrArg String.data h
    simp only [String.data_append] at hd
    exact String.ext (List.append_cancel_left hd)
  · intro h
    rw [h]

theorem groupPath_cons (g : String) (gs : List String) :
    groupPath (g :: gs) = groupPath gs ++ (g ++ "/") := rfl

theorem fullKey_beginGroup (s : QSettings) (g key : String) :
    (s.beginGroup g).fullKey key = groupPath s.groups ++ (g ++ "/" ++ key) := by
  simp [QSettings.fullKey, QSettings.beginGroup, groupPath, String.append_assoc]

/-! ## The setters of `QTBPlotTime` on the persisted settings -/

theorem persisted_setLegendVisible (p : QTBPlotTime) (v : Bool) :
    (p.setLegendVisible v).persisted = { p.persisted with legendVisible := v } := by
  by_cases h : v = p.mLegendVisible <;>
    simp [QTBPlotTime.setLegendVisible, QTBPlotTime.persisted, h]

theorem persisted_setLegendPosition (p : QTBPlotTime) (v : LegendPosition) :
    (p.setLegendPosition v).persisted = { p.persisted with legendPosition := v } := by
  unfold QTBPlotTime.setLegendPosition
  split
  · rfl
  · rename_i h
    simp only [ne_eq, not_not] at h
    simp [QTBPlotTime.persisted, h]

theorem persisted_setYAxisTicksVisible (board : QTBoard) (p : QTBPlotTime) (v : Bool) :
    (p.setYAxisTicksVisible board v).persisted = { p.persisted with yAxisTicksVisible := v } := by
  unfold QTBPlotTime.setYAxisTicksVisible
  split
  · rfl
  · rename_i h
    simp only [ne_eq, not_not] at h
    simp [QTBPlotTime.persisted, h]

theorem persisted_setYAxisLabelsVisible (p : QTBPlotTime) (v : Bool) :
    (p.setYAxisLabelsVisible v).persisted = { p.persisted with yAxisLabelsVisible := v } := by
  unfold QTBPlotTime.setYAxisLabelsVisible
  split
  · rfl
  · rename_i h
    simp only [ne_eq, not_not] at h
    simp [QTBPlotTime.persisted, h]

theorem persisted_setYAxisGridVisible (p : QTBPlotTime) (v : Bool) :
    (p.setYAxisGridVisible v).persisted = { p.persisted with yAxisGridVisible := v } := by
  unfold QTBPlotTime.setYAxisGridVisible
  split
  · rfl
  · rename_i h
    simp only [ne_eq, not_not] at h
    simp [QTBPlotTime.persisted, h]

theorem persisted_setXAxisTicksVisible (board : QTBoard) (p : QTBPlotTime) (v : Bool) :
    (p.setXAxisTicksVisible board v).persisted = { p.persisted with xAxisTicksVisible := v } := by
  unfold QTBPlotTime.setXAxisTicksVisible
  split
  · rfl
  · rename_i h
    simp only [ne_eq, not_not] at h
    simp [QTBPlotTime.persisted, h]

theorem persisted_setXAxisLabelsVisible (p : QTBPlotTime) (v : Bool) :
    (p.setXAxisLabelsVisible v).persisted = { p.persisted with xAxisLabelsVisible := v } := by
  unfold QTBPlotTime.setXAxisLabelsVisible
  split
  · rfl
  · rename_i h
    simp only [ne_eq, not_not] at h
    simp [QTBPlotTime.persisted, h]

theorem persisted_setXAxisGridVisible (p : QTBPlotTime) (v : Bool) :
    (p.setXAxisGridVisible v).persisted = { p.persisted with xAxisGridVisible := v } := by
  unfold QTBPlotTime.setXAxisGridVisible
  split
  · rfl
  · rename_i h
    simp only [ne_eq, not_not] at h
    simp [QTBPlotTime.persisted, h]

theorem persisted_setXAxisDirection (p : QTBPlotTime) (v : XAxisDirection) :
    (p.setXAxisDirection v).persisted = { p.persisted with xAxisDirection := v } := by
  unfold QTBPlotTime.setXAxisDirection
  split
  · rfl
  · rename_i h
    simp only [ne_eq, not_not] at h
    simp [QTBPlotTime.persisted, h]

theorem persisted_setTransparentBackground (p : QTBPlotTime) (v : Bool) :
    (p.setTransparentBackground v).persisted = { p.persisted with transparentBackground := v } := rfl

theorem persisted_setYAxisScale (p : QTBPlotTime) (v : YAxisScale) :
    (p.setYAxisScale v).persisted = { p.persisted with yAxisScale := v } := rfl

theorem persisted_setYAxisMinCustom (p : QTBPlotTime) (v : Rat) :
    (p.setYAxisMinCustom v).persisted = { p.persisted with yAxisMinCustom := v } := rfl

theorem persisted_setYAxisMaxCustom (p : QTBPlotTime) (v : Rat) :
    (p.setYAxisMaxCustom v).persisted = { p.persisted with yAxisMaxCustom := v } := rfl

theorem persisted_setXAxisHistory (p : QTBPlotTime) (v : Int) :
    (p.setXAxisHistory v).persisted = { p.persisted with xAxisHistory := v } := rfl

theorem persisted_updateThresholdsItems (p : QTBPlotTime) :
    p.updateThresholdsItems.persisted = p.persisted := rfl

theorem persisted_setThresholdsVisible (p : QTBPlotTime) (v : Bool) :
    (p.setThresholdsVisible v).persisted = { p.persisted with thresholdsVisible := v } := by
  by_cases h : v = p.mThresholdsVisible
  · simp [QTBPlotTime.setThresholdsVisible, QTBPlotTime.persisted, h]
  · simp only [QTBPlotTime.setThresholdsVisible, ne_eq, h, not_false_eq_true, if_true,
      persisted_updateThresholdsItems]
    rfl

/-! ## `saveSettings` followed by `loadSettings` -/

theorem saveSettings_groups (s0 : QSettings) (p : QTBPlotTime) :
    (p.saveSettings s0).groups = s0.groups := rfl

theorem saveSettings_entries (s0 : QSettings) (p : QTBPlotTime) (k : String) :
    (p.saveSettings s0).entries k =
      if k = groupPath s0.groups ++ "TimeAxis/Direction" then
        some (QVariant.int p.mXAxisDirection.raw)
      else if k = groupPath s0.groups ++ "TimeAxis/History" then
        some (QVariant.int p.mXAxisHistory)
      else if k = groupPath s0.groups ++ "TimeAxis/GridVisible" then
        some (QVariant.bool p.mXAxisGridVisible)
      else if k = groupPath s0.groups ++ "TimeAxis/LabelsVisible" then
        some (QVariant.bool p.mXAxisLabelsVisible)
      else if k = groupPath s0.groups ++ "TimeAxis/TicksVisible" then
        some (QVariant.bool p.mXAxisTicksVisible)
      else if k = groupPath s0.groups ++ "ValueAxis/ThresholdsVisible" then
        some (QVariant.bool p.mThresholdsVisible)
      else if k = groupPath s0.groups ++ "ValueAxis/ScaleMax" then
        some (QVariant.double p.mYAxisMaxCustom)
      else if k = groupPath s0.groups ++ "ValueAxis/ScaleMin" then
        some (QVariant.double p.mYAxisMinCustom)
      else if k = groupPath s0.groups ++ "ValueAxis/ScaleMode" then
        some (QVariant.int p.mYAxisScale.raw)
      else if k = groupPath s0.groups ++ "ValueAxis/GridVisible" then
        some (QVariant.bool p.mYAxisGridVisible)
      else if k = groupPath s0.groups ++ "ValueAxis/LabelsVisible" then
        some (QVariant.bool p.mYAxisLabelsVisible)
      else if k = groupPath s0.groups ++ "ValueAxis/TicksVisible" then
        some (QVariant.bool p.mYAxisTicksVisible)
      else if k = groupPath s0.groups ++ "General/TransparentBackground" then
        some (QVariant.bool p.mTransparentBackground)
      else if k = groupPath s0.groups ++ "General/LegendPosition" then
        some (QVariant.int p.mLegendPosition.raw)
      else if k = groupPath s0.groups ++ "General/LegendVisible" then
        some (QVariant.bool p.mLegendVisible)
      else s0.entries k := by
  simp [QTBPlotTime.saveSettings, QSettings.setValue, QSettings.beginGroup, QSettings.endGroup,
    QSettings.fullKey, groupPath, String.append_assoc]

theorem endGroup_beginGroup (s : QSettings) (g : String) : (s.beginGroup g).endGroup = s := rfl

theorem contains_beginGroup (s : QSettings) (g key : String) :
    (s.beginGroup g).contains key = (s.entries (groupPath s.groups ++ (g ++ "/" ++ key))).isSome := by
  rw [QSettings.contains, fullKey_beginGroup]
  rfl

theorem value_beginGroup (s : QSettings) (g key : String) :
    (s.beginGroup g).value key =
      (s.entries (groupPath s.groups ++ (g ++ "/" ++ key))).getD QVariant.invalid := by
  rw [QSettings.value, fullKey_beginGroup]
  rfl

/-- C7: for every plot `P`, every plot `Q` and every settings object, `loadSettings` on `Q`
applied to the store written by `P.saveSettings` makes the fifteen persisted settings of `Q`
equal to those of `P`; the keys `TicksVisible`, `LabelsVisible` and `GridVisible` of the groups
`ValueAxis` and `TimeAxis` are distinct entries of the store. -/
theorem loadSettings_saveSettings (pf : Platform) (board : QTBoard) (s0 : QSettings)
    (P Q : QTBPlotTime) :
    (Q.loadSettings pf board (P.saveSettings s0)).persisted = P.persisted := by
  simp only [QTBPlotTime.loadSettings, endGroup_beginGroup, contains_beginGroup,
    value_beginGroup, saveSettings_groups, saveSettings_entries]
  simp [string_append_right_inj, persisted_setLegendVisible, persisted_setLegendPosition,
    persisted_setTransparentBackground, persisted_setYAxisTicksVisible,
    persisted_setYAxisLabelsVisible, persisted_setYAxisGridVisible, persisted_setYAxisScale,
    persisted_setYAxisMinCustom, persisted_setYAxisMaxCustom, persisted_setThresholdsVisible,
    persisted_setXAxisTicksVisible, persisted_setXAxisLabelsVisible,
    persisted_setXAxisGridVisible, persisted_setXAxisHistory, persisted_setXAxisDirection,
    QVariant.toBool, QVariant.toInt, QVariant.toDouble]
  rfl

/-! ## Claims on `updateAxes` -/

/-- C6 (the code at the failing input): in `asParam` mode, with a first parameter that has no
valid range, a second parameter whose valid range is 0 to 10 and custom bounds that were -100 and
100 before the call, `updateAxes` finds a valid range, leaves `yAxisMinCustom` at -100 and
`yAxisMaxCustom` at 100, and passes these two stale bounds to `setRange` on the left axis; the
minimum and maximum over the parameters with a valid range are 0 and 10. -/
theorem updateAxes_keeps_stale_bounds (pf : Platform) (board : QTBoard) :
    (QTBPlotTime.paramRangeFrom 0 staleBoundsPlot.mDashParameters
      { validRange := false, yAxisMinCustom := -100, yAxisMaxCustom := 100 }).validRange = true ∧
    (staleBoundsPlot.updateAxes pf board).mYAxisMinCustom = -100 ∧
    (staleBoundsPlot.updateAxes pf board).mYAxisMaxCustom = 100 ∧
    (staleBoundsPlot.updateAxes pf board).mAxisRect.left =
      pf.axisSetRange { lower := -100, upper := 100 } staleBoundsPlot.mAxisRect.left ∧
    (staleBoundsPlot.updateAxes pf board).mYAxisMinCustom ≠ 0 ∧
    (staleBoundsPlot.updateAxes pf board).mYAxisMaxCustom ≠ 10 := by
  have hst : QTBPlotTime.paramRangeFrom 0 staleBoundsPlot.mDashParameters
      { validRange := false, yAxisMinCustom := staleBoundsPlot.mYAxisMinCustom,
        yAxisMaxCustom := staleBoundsPlot.mYAxisMaxCustom } =
      { validRange := true, yAxisMinCustom := -100, yAxisMaxCustom := 100 } := by
    simp [QTBPlotTime.paramRangeFrom, QTBPlotTime.paramRangeStep, staleBoundsPlot]
    norm_num
  have hmode : staleBoundsPlot.mYAxisScale = asParam := rfl
  have hne : asParam ≠ asAuto := by decide
  have hy : QTBPlotTime.updateYAxis pf staleBoundsPlot =
      { staleBoundsPlot with
        mAxisRect := { staleBoundsPlot.mAxisRect with
          left := pf.axisSetRange { lower := -100, upper := 100 }
            staleBoundsPlot.mAxisRect.left } } := by
    simp only [QTBPlotTime.updateYAxis, hmode, hne, if_false, if_true, hst]
    rfl
  refine ⟨?_, ?_, ?_, ?_, ?_, ?_⟩
  · exact congrArg QTBPlotTime.ParamRange.validRange hst
  all_goals
    simp only [QTBPlotTime.updateAxes, hy]
    cases board.liveDataRefreshEnabled <;> simp [staleBoundsPlot]

/-! ## Claims on `saveParameterSettings` and on `update` with other modes -/

/-- C11 (the code at the failing input): the configuration constructor called with a null
pointer yields a reachable state in which `connected()` is true and the shared configuration is
null; there `saveParameterSettings` dereferences the null pointer (the call has no result). -/
theorem saveParameterSettings_null_shared (pf : Platform) (settings : QSettings)
    (mode : ConfigurationMode) :
    ∃ h p, QTBDashboardParameter.newFromConfiguration pf none [] = some (h, p) ∧
      Reachable pf h p ∧ p.connected = true ∧ p.sharedParameterConfiguration = none ∧
      p.saveParameterSettings pf settings mode h = none :=
  ⟨_, _, newFromConfiguration_null pf [],
    Reachable.fromConfiguration none [] _ _ (newFromConfiguration_null pf []), rfl, rfl, rfl⟩

/-- C12: for a parameter whose id is 0, `update` returns for every update mode, every board
(with or without a data manager) and every heap; it sets `color` to `QColor(0,0,0,0)`,
`foregroundColor` to the same colour and `backgroundBrush` to `NoBrush`, and changes no other
member, the stored sample included. -/
theorem update_unbound (board : QTBoard) (mode : UpdateMode) (h : Heap)
    (p : QTBDashboardParameter) (hid : p.mParameterId = 0) :
    p.update board mode h =
        some { p with mColor := QColor.rgba 0 0 0 0
                      mForegroundColor := QColor.rgba 0 0 0 0
                      mBackgroundBrush := QBrush.NoBrush } ∧
      ∃ q, p.update board mode h = some q ∧ q.mColor = QColor.rgba 0 0 0 0 ∧
        q.mForegroundColor = q.mColor ∧ q.mBackgroundBrush = QBrush.NoBrush ∧
        q.mSample = p.mSample := by
  have hu : p.update board mode h =
      some { p with mColor := QColor.rgba 0 0 0 0
                    mForegroundColor := QColor.rgba 0 0 0 0
                    mBackgroundBrush := QBrush.NoBrush } := by
    simp [QTBDashboardParameter.update, hid]
  exact ⟨hu, _, hu, rfl, rfl, rfl, rfl⟩

/-- Witness of C12: a parameter with id 0 holding red colours, updated in `umValueOnly` mode on
a board without data manager. -/
theorem update_unbound_witness :
    ({ mParameterId := 0, mColor := QColor.rgba 255 0 0 255 } : QTBDashboardParameter).update
        { (default : QTBoard) with dataManager := none } UpdateMode.umValueOnly [] =
        some { mParameterId := 0, mColor := QColor.rgba 0 0 0 0
               mForegroundColor := QColor.rgba 0 0 0 0
               mBackgroundBrush := QBrush.NoBrush } ∧
      ∃ q, ({ mParameterId := 0, mColor := QColor.rgba 255 0 0 255 } :
          QTBDashboardParameter).update
          { (default : QTBoard) with dataManager := none } UpdateMode.umValueOnly [] = some q ∧
        q.mColor = QColor.rgba 0 0 0 0 ∧
        q.mForegroundColor = q.mColor ∧ q.mBackgroundBrush = QBrush.NoBrush ∧
        q.mSample = ({} : QTBDataSample) :=
  update_unbound { (default : QTBoard) with dataManager := none } UpdateMode.umValueOnly []
    { mParameterId := 0, mColor := QColor.rgba 255 0 0 255 } rfl

/-- C13: for a parameter with id > 0 on a board with a data manager, `update(umValueOnly)`
returns, replaces the stored sample by the data manager's last sample for that id and leaves
every other member unchanged: the three colours, the label, the unit and the three configuration
pointers (the heap of configurations is not written). -/
theorem update_umValueOnly (board : QTBoard) (dm : QTBDataManager) (h : Heap)
    (p : QTBDashboardParameter) (hid : 0 < p.mParameterId)
    (hdm : board.dataManager = some dm) :
    p.update board UpdateMode.umValueOnly h =
        some { p with mSample := dm.lastSample p.mParameterId } ∧
      ∃ q, p.update board UpdateMode.umValueOnly h = some q ∧
        q.mSample = dm.lastSample p.mParameterId ∧ q.colors = p.colors ∧
        q.getLabel = p.getLabel ∧ q.getUnit = p.getUnit ∧
        q.parameterConfiguration = p.parameterConfiguration ∧
        q.sharedParameterConfiguration = p.sharedParameterConfiguration ∧
        q.exclusiveParameterConfiguration = p.exclusiveParameterConfiguration := by
  have hu : p.update board UpdateMode.umValueOnly h =
      some { p with mSample := dm.lastSample p.mParameterId } := by
    simp [QTBDashboardParameter.update, hid, hdm]
  exact ⟨hu, _, hu, rfl, rfl, rfl, rfl, rfl, rfl, rfl⟩

/-- Witness of C13: the parameter `boundParameter` (id 1) on a board whose data manager returns
samples of value 7. -/
theorem update_umValueOnly_witness :
    boundParameter.update (boardWithValue 7) UpdateMode.umValueOnly [] =
        some { boundParameter with
          mSample := (managerWithValue 7).lastSample boundParameter.mParameterId } ∧
      ∃ q, boundParameter.update (boardWithValue 7) UpdateMode.umValueOnly [] = some q ∧
        q.mSample = (managerWithValue 7).lastSample boundParameter.mParameterId ∧
        q.colors = boundParameter.colors ∧
        q.getLabel = boundParameter.getLabel ∧ q.getUnit = boundParameter.getUnit ∧
        q.parameterConfiguration = boundParameter.parameterConfiguration ∧
        q.sharedParameterConfiguration = boundParameter.sharedParameterConfiguration ∧
        q.exclusiveParameterConfiguration = boundParameter.exclusiveParameterConfiguration :=
  update_umValueOnly (boardWithValue 7) (managerWithValue 7) [] boundParameter (by decide) rfl

/-! ## Claims on the state display -/

/-- The result of `update(umState)` on a bound parameter whose configuration is live. -/
theorem update_umState_eq (board : QTBoard) (dm : QTBDataManager) (h : Heap)
    (p : QTBDashboardParameter) (c : QTBParameterConfiguration) (hid : 0 < p.mParameterId)
    (hdm : board.dataManager = some dm)
    (hc : deref h p.mParameterConfiguration = some c) :
    p.update board UpdateMode.umState h =
      some (QTBDashboardParameter.setColors
        { p with mSample := dm.lastSample p.mParameterId }
        (stateColorSettings c.statesSettings c.defaultColorSettings
          ((dm.lastSample p.mParameterId).value.toUint32 % 2 ^ 32))) := by
  have hne : UpdateMode.umState ≠ UpdateMode.umValueOnly := by decide
  have hne2 : UpdateMode.umState ≠ UpdateMode.umValue := by decide
  simp only [QTBDashboardParameter.update, hid, if_true, hdm, hc, Option.some_bind,
    stateColorSettings, QTBDashboardParameter.setColors, ne_eq, hne, hne2, not_false_eq_true,
    if_false]
  generalize c.statesSettings.colorSettings
    ((dm.lastSample p.mParameterId).value.toUint32 % 2 ^ 32) = r
  by_cases h5 : c.statesSettings.active = true <;> by_cases h6 : r.2 = true <;> simp [h5, h6]

/-- C14: whatever update mode is requested, `QTBStateDisplay::updateDashboardParameters` calls
the base-class update with `umState`; and for a parameter with id > 0 (live configuration `c`,
board with a data manager) `update(umState)` returns and sets the three colours to the colour
settings of the state matching the sample value as unsigned 32-bit when the states are active
and that state has a valid colour, and to the default colour settings otherwise.  The result is
the same under every configuration with the same states settings and default colour settings,
whatever its thresholds and out-of-range settings are. -/
theorem stateDisplay_update_colors {σ : Type} (singleDisplayUpdate : UpdateMode → σ → σ)
    (mode : UpdateMode) (display : σ) (board : QTBoard) (dm : QTBDataManager) (h : Heap)
    (p : QTBDashboardParameter) (c : QTBParameterConfiguration) (hid : 0 < p.mParameterId)
    (hdm : board.dataManager = some dm)
    (hc : deref h p.mParameterConfiguration = some c) :
    QTBStateDisplay.updateDashboardParameters singleDisplayUpdate mode display =
        singleDisplayUpdate UpdateMode.umState display ∧
      ∃ q, p.update board UpdateMode.umState h = some q ∧
        q.colors =
          (if c.statesSettings.active = true ∧ (c.statesSettings.colorSettings
              ((dm.lastSample p.mParameterId).value.toUint32 % 2 ^ 32)).2 = true then
            (c.statesSettings.colorSettings
              ((dm.lastSample p.mParameterId).value.toUint32 % 2 ^ 32)).1
          else c.defaultColorSettings).triple ∧
        ∀ (h2 : Heap) (c2 : QTBParameterConfiguration),
          deref h2 p.mParameterConfiguration = some c2 →
          c2.statesSettings = c.statesSettings →
          c2.defaultColorSettings = c.defaultColorSettings →
          p.update board UpdateMode.umState h2 = some q := by
  refine ⟨rfl, _, update_umState_eq board dm h p c hid hdm hc, rfl, ?_⟩
  intro h2 c2 hc2 hs hd
  rw [update_umState_eq board dm h2 p c2 hid hdm hc2, hs, hd]

/-- Witness of C14: the parameter `boundParameter` under the configuration `rangedConfiguration`
(out-of-range colouring enabled, states inactive) with a sample value 7 outside the range gets
the default colours. -/
theorem stateDisplay_update_colors_witness :
    QTBStateDisplay.updateDashboardParameters (fun (m : UpdateMode) (_ : UpdateMode) => m)
        UpdateMode.umValue UpdateMode.umValue = UpdateMode.umState ∧
      ∃ q, boundParameter.update (boardWithValue 7) UpdateMode.umState [rangedConfiguration]
          = some q ∧
        q.colors = rangedConfiguration.defaultColorSettings.triple := by
  obtain ⟨_, q, hq, hcol, _⟩ := stateDisplay_update_colors
    (fun (m : UpdateMode) (_ : UpdateMode) => m) UpdateMode.umValue UpdateMode.umValue
    (boardWithValue 7) (managerWithValue 7) [rangedConfiguration] boundParameter
    rangedConfiguration (by decide) rfl rfl
  exact ⟨rfl, q, hq, by rw [hcol]; rfl⟩

/-- The result of `QTBStateDisplay::processNewSamples` when the parameter at index 0 is bound and
its configuration is live. -/
theorem stateDisplay_processNewSamples_bound (h : Heap) (d : QTBStateDisplay)
    (p : QTBDashboardParameter) (c : QTBParameterConfiguration)
    (hp : d.dashParameter 0 = some p) (hid : 0 < p.mParameterId)
    (hc : deref h p.mParameterConfiguration = some c) :
    p.getStateString h =
        some (if c.statesSettings.active = true then
          c.statesSettings.text (p.mSample.value.toUint32 % 2 ^ 32) else "") ∧
      d.processNewSamples h =
        some { d with mTextValue :=
          { text := if c.statesSettings.active = true then
              c.statesSettings.text (p.mSample.value.toUint32 % 2 ^ 32) else ""
            textColor := p.getForegroundColor
            backgroundBrush := p.getBackgroundBrush } } := by
  have hs : p.getStateString h =
      some (if c.statesSettings.active = true then
        c.statesSettings.text (p.mSample.value.toUint32 % 2 ^ 32) else "") := by
    simp only [QTBDashboardParameter.getStateString, hid, if_true, hc, Option.some_bind]
    by_cases ha : c.statesSettings.active = true <;> simp [ha]
  refine ⟨hs, ?_⟩
  simp only [QTBStateDisplay.processNewSamples, hp, QTBDashboardParameter.getParameterId, hid,
    if_true, hs, Option.some_bind, gt_iff_lt]

/-- Counterexample to C15 as stated: the display has a parameter at index 0 whose id is 1, its
states settings are active and give the state the text `X`; `processNewSamples` shows the text
`X`, which here is the parameter's `getStateString()`. -/
theorem stateDisplay_shows_X_when_bound :
    stateXDisplay.dashParameter 0 = some boundParameter ∧
    0 < boundParameter.mParameterId ∧
    boundParameter.getStateString [stateXConfiguration] = some "X" ∧
    (stateXDisplay.processNewSamples [stateXConfiguration]).map
      (fun d => d.mTextValue.text) = some "X" := by
  refine ⟨rfl, by decide, rfl, rfl⟩

/-- C15 (amended): `QTBStateDisplay::processNewSamples` shows the text `X` if the display has no
parameter at index 0 or that parameter's id is 0; otherwise (live configuration `c`) it returns
and the text is exactly the parameter's `getStateString()`, which is the states-settings text for
the sample value when the states are active and the empty string when they are not. -/
theorem stateDisplay_processNewSamples_text (h : Heap) (d : QTBStateDisplay) :
    ((d.dashParameter 0 = none ∨ ∃ p, d.dashParameter 0 = some p ∧ p.mParameterId = 0) →
        ∃ d1, d.processNewSamples h = some d1 ∧ d1.mTextValue.text = "X") ∧
      (∀ (p : QTBDashboardParameter) (c : QTBParameterConfiguration),
        d.dashParameter 0 = some p → 0 < p.mParameterId →
        deref h p.mParameterConfiguration = some c →
        ∃ d1, d.processNewSamples h = some d1 ∧
          some d1.mTextValue.text = p.getStateString h ∧
          d1.mTextValue.text =
            (if c.statesSettings.active = true then
              c.statesSettings.text (p.mSample.value.toUint32 % 2 ^ 32) else "")) := by
  constructor
  · rintro (hnone | ⟨p, hp, hid⟩)
    · refine ⟨{ d with mTextValue := { d.mTextValue with text := "X" } }, ?_, rfl⟩
      simp only [QTBStateDisplay.processNewSamples, hnone]
    · refine ⟨{ d with mTextValue := { d.mTextValue with text := "X" } }, ?_, rfl⟩
      simp only [QTBStateDisplay.processNewSamples, hp, QTBDashboardParameter.getParameterId,
        hid, gt_iff_lt, lt_self_iff_false, if_false]
  · intro p c hp hid hc
    obtain ⟨hs, hd⟩ := stateDisplay_processNewSamples_bound h d p c hp hid hc
    exact ⟨_, hd, hs.symm, rfl⟩

/-- Witness of C15 (amended): a display without parameters shows `X`; the display
`stateXDisplay` over an inactive states configuration shows the empty string. -/
theorem stateDisplay_processNewSamples_text_witness :
    (∃ d1, ({} : QTBStateDisplay).processNewSamples [] = some d1 ∧ d1.mTextValue.text = "X") ∧
    (∃ d1, stateXDisplay.processNewSamples [rangedConfiguration] = some d1 ∧
      some d1.mTextValue.text = boundParameter.getStateString [rangedConfiguration] ∧
      d1.mTextValue.text = "") :=
  ⟨(stateDisplay_processNewSamples_text [] {}).1 (Or.inl rfl),
    (stateDisplay_processNewSamples_text [rangedConfiguration] stateXDisplay).2
      boundParameter rangedConfiguration rfl (by decide) rfl⟩

/-! ## The parameter loop of `updateAxes` -/

theorem paramRangeFrom_without_range (rest : List (Option BoundParameter)) :
    ∀ (j : Nat) (st : QTBPlotTime.ParamRange),
      (∀ bp, some bp ∈ rest → bp.configuration.validRange = false) →
      QTBPlotTime.paramRangeFrom j rest st = st := by
  induction rest with
  | nil => intro j st _; rfl
  | cons e rest ih =>
      intro j st hnone
      simp only [QTBPlotTime.paramRangeFrom]
      have hstep : QTBPlotTime.paramRangeStep j e st = st := by
        cases e with
        | none => rfl
        | some bp =>
            have hb := hnone bp (List.mem_cons_self _ _)
            simp [QTBPlotTime.paramRangeStep, hb]
      rw [hstep]
      exact ih (j + 1) st (fun bp hbp => hnone bp (List.mem_cons_of_mem _ hbp))

theorem updateAxes_custom_bounds (pf : Platform) (board : QTBoard) (p : QTBPlotTime) :
    (p.updateAxes pf board).mYAxisMinCustom = (QTBPlotTime.updateYAxis pf p).mYAxisMinCustom ∧
      (p.updateAxes pf board).mYAxisMaxCustom = (QTBPlotTime.updateYAxis pf p).mYAxisMaxCustom ∧
      (p.updateAxes pf board).mAutoRange = (QTBPlotTime.updateYAxis pf p).mAutoRange ∧
      (p.updateAxes pf board).mAxisRect.left = (QTBPlotTime.updateYAxis pf p).mAxisRect.left ∧
      (p.updateAxes pf board).mAxisRect.graphs =
        (QTBPlotTime.updateYAxis pf p).mAxisRect.graphs := by
  simp only [QTBPlotTime.updateAxes]
  cases board.liveDataRefreshEnabled <;> simp

/-- C17: when no parameter of the plot has a valid range (in particular when the plot has no
parameter), `updateAxes` in `asParam` mode produces the same left axis (its range included), the
same auto range and the same two custom bounds as `updateAxes` in `asAuto` mode from the same
state. -/
theorem updateAxes_asParam_without_range (pf : Platform) (board : QTBoard) (p : QTBPlotTime)
    (hnone : ∀ bp, some bp ∈ p.mDashParameters → bp.configuration.validRange = false) :
    (QTBPlotTime.updateAxes pf board { p with mYAxisScale := asParam }).mAxisRect.left.range =
        (QTBPlotTime.updateAxes pf board { p with mYAxisScale := asAuto }).mAxisRect.left.range ∧
      (QTBPlotTime.updateAxes pf board { p with mYAxisScale := asParam }).mAxisRect.left =
        (QTBPlotTime.updateAxes pf board { p with mYAxisScale := asAuto }).mAxisRect.left ∧
      (QTBPlotTime.updateAxes pf board { p with mYAxisScale := asParam }).mAutoRange =
        (QTBPlotTime.updateAxes pf board { p with mYAxisScale := asAuto }).mAutoRange ∧
      (QTBPlotTime.updateAxes pf board { p with mYAxisScale := asParam }).mYAxisMinCustom =
        (QTBPlotTime.updateAxes pf board { p with mYAxisScale := asAuto }).mYAxisMinCustom ∧
      (QTBPlotTime.updateAxes pf board { p with mYAxisScale := asParam }).mYAxisMaxCustom =
        (QTBPlotTime.updateAxes pf board { p with mYAxisScale := asAuto }).mYAxisMaxCustom := by
  have hne : asParam ≠ asAuto := by decide
  have hloop := paramRangeFrom_without_range p.mDashParameters 0
    { validRange := false, yAxisMinCustom := p.mYAxisMinCustom,
      yAxisMaxCustom := p.mYAxisMaxCustom } hnone
  have hp : QTBPlotTime.updateYAxis pf { p with mYAxisScale := asParam } =
      QTBPlotTime.autoScale pf { p with mYAxisScale := asParam } := by
    simp only [QTBPlotTime.updateYAxis, hne, if_false, if_true, hloop, Bool.not_false]
  have ha : QTBPlotTime.updateYAxis pf { p with mYAxisScale := asAuto } =
      QTBPlotTime.autoScale pf { p with mYAxisScale := asAuto } := by
    simp only [QTBPlotTime.updateYAxis, if_true]
  obtain ⟨a1, a2, a3, a4, _⟩ := updateAxes_custom_bounds pf board { p with mYAxisScale := asParam }
  obtain ⟨b1, b2, b3, b4, _⟩ := updateAxes_custom_bounds pf board { p with mYAxisScale := asAuto }
  rw [a1, a2, a3, a4, b1, b2, b3, b4, hp, ha]
  exact ⟨rfl, rfl, rfl, rfl, rfl⟩

/-- Witness of C17: the plot `noRangePlot`, whose only parameter has no valid range. -/
theorem updateAxes_asParam_without_range_witness :
    (QTBPlotTime.updateAxes default default
        { noRangePlot with mYAxisScale := asParam }).mAxisRect.left.range =
        (QTBPlotTime.updateAxes default default
          { noRangePlot with mYAxisScale := asAuto }).mAxisRect.left.range ∧
      (QTBPlotTime.updateAxes default default
        { noRangePlot with mYAxisScale := asParam }).mAxisRect.left =
        (QTBPlotTime.updateAxes default default
          { noRangePlot with mYAxisScale := asAuto }).mAxisRect.left ∧
      (QTBPlotTime.updateAxes default default
        { noRangePlot with mYAxisScale := asParam }).mAutoRange =
        (QTBPlotTime.updateAxes default default
          { noRangePlot with mYAxisScale := asAuto }).mAutoRange ∧
      (QTBPlotTime.updateAxes default default
        { noRangePlot with mYAxisScale := asParam }).mYAxisMinCustom =
        (QTBPlotTime.updateAxes default default
          { noRangePlot with mYAxisScale := asAuto }).mYAxisMinCustom ∧
      (QTBPlotTime.updateAxes default default
        { noRangePlot with mYAxisScale := asParam }).mYAxisMaxCustom =
        (QTBPlotTime.updateAxes default default
          { noRangePlot with mYAxisScale := asAuto }).mYAxisMaxCustom :=
  updateAxes_asParam_without_range default default noRangePlot (by
    intro bp hbp
    simp only [noRangePlot, List.mem_singleton, Option.some.injEq] at hbp
    rw [hbp])

/-! ## The parameter loops over the graphs -/

theorem modifyEach_length {α β : Type} (f : β → α → α) (rest : List β) :
    ∀ (j : Nat) (l : List α), (modifyEach f j rest l).length = l.length := by
  induction rest with
  | nil => intro j l; rfl
  | cons e rest ih => intro j l; simp [modifyEach, ih]

theorem modifyEach_before {α β : Type} (f : β → α → α) (rest : List β) :
    ∀ (j : Nat) (l : List α) (k : Nat), k < j → (modifyEach f j rest l)[k]? = l[k]? := by
  induction rest with
  | nil => intro j l k _; rfl
  | cons e rest ih =>
      intro j l k hk
      simp only [modifyEach]
      rw [ih (j + 1) _ k (by omega), List.getElem?_modify_ne _ _ (by omega)]

theorem modifyEach_at {α β : Type} (f : β → α → α) (rest : List β) :
    ∀ (j : Nat) (l : List α) (i : Nat) (e : β), j ≤ i → rest[i - j]? = some e →
      (modifyEach f j rest l)[i]? = (l[i]?).map (f e) := by
  induction rest with
  | nil => intro j l i e _ he; simp at he
  | cons e0 rest ih =>
      intro j l i e hji he
      simp only [modifyEach]
      rcases Nat.eq_or_lt_of_le hji with heq | hlt
      · subst heq
        simp only [Nat.sub_self, List.getElem?_cons_zero, Option.some.injEq] at he
        subst he
        rw [modifyEach_before f rest (j + 1) _ j (by omega), List.getElem?_modify_eq]
        rfl
      · have hidx : i - j = (i - (j + 1)) + 1 := by omega
        rw [hidx, List.getElem?_cons_succ] at he
        rw [ih (j + 1) _ i e (by omega) he, List.getElem?_modify_ne _ _ (by omega)]

theorem processNewSamplesAt_eq (history : Int) (graphs : List QTBGraph) (i : Nat)
    (entry : Option BoundParameter) :
    QTBPlotTime.processNewSamplesAt history graphs i entry =
      graphs.modify (newSampleUpdate history entry) i := by
  cases entry with
  | none =>
      simp only [QTBPlotTime.processNewSamplesAt]
      exact (List.modify_id i graphs).symm
  | some bp =>
      simp only [QTBPlotTime.processNewSamplesAt, QTBDashboardParameter.getParameterId,
        QTBDashboardParameter.getValueDouble, QTBDashboardParameter.getTimestamp]
      by_cases hid : bp.parameter.mParameterId > 0
      · by_cases hi : i < graphs.length
        · simp only [hid, hi, if_true]
          congr 1
          funext g
          simp [newSampleUpdate, hid]
        · simp only [hid, hi, if_true, if_false]
          exact (List.modify_eq_self (by omega)).symm
      · have hfun : newSampleUpdate history (some bp) = id := by
          funext g
          simp [newSampleUpdate, hid]
        simp only [hid, if_false, hfun]
        exact (List.modify_id i graphs).symm

theorem processNewSamplesFrom_eq (history : Int) (rest : List (Option BoundParameter)) :
    ∀ (j : Nat) (graphs : List QTBGraph),
      QTBPlotTime.processNewSamplesFrom history j rest graphs =
        modifyEach (newSampleUpdate history) j rest graphs := by
  induction rest with
  | nil => intro j graphs; rfl
  | cons e rest ih =>
      intro j graphs
      simp only [QTBPlotTime.processNewSamplesFrom, modifyEach, processNewSamplesAt_eq, ih]

theorem processHistoricalSamplesAt_eq (dm : QTBDataManager) (graphs : List QTBGraph) (i : Nat)
    (entry : Option BoundParameter) :
    QTBPlotTime.processHistoricalSamplesAt dm graphs i entry =
      graphs.modify (historicalUpdate dm entry) i := by
  cases entry with
  | none =>
      simp only [QTBPlotTime.processHistoricalSamplesAt]
      exact (List.modify_id i graphs).symm
  | some bp =>
      simp only [QTBPlotTime.processHistoricalSamplesAt, QTBDashboardParameter.getParameterId]
      by_cases hi : i < graphs.length
      · simp only [hi, if_true]
        rfl
      · simp only [hi, if_false]
        exact (List.modify_eq_self (by omega)).symm

theorem processHistoricalSamplesFrom_eq (dm : QTBDataManager)
    (rest : List (Option BoundParameter)) :
    ∀ (j : Nat) (graphs : List QTBGraph),
      QTBPlotTime.processHistoricalSamplesFrom dm j rest graphs =
        modifyEach (historicalUpdate dm) j rest graphs := by
  induction rest with
  | nil => intro j graphs; rfl
  | cons e rest ih =>
      intro j graphs
      simp only [QTBPlotTime.processHistoricalSamplesFrom, modifyEach,
        processHistoricalSamplesAt_eq, ih]

/-! ## Graph data -/

theorem addData_perm (g : QTBGraph) (key value : Rat) :
    (g.addData key value).data.Perm ((key, value) :: g.data) := by
  unfold QTBGraph.addData
  split
  · split
    · exact List.perm_append_singleton _ _
    · split
      · exact List.Perm.refl _
      · refine List.Perm.trans List.perm_middle ?_
        rw [List.takeWhile_append_dropWhile]
  · exact List.perm_append_singleton _ _

theorem int32_of_small (x : Int) (hlo : -2147483648 ≤ x) (hhi : x < 2147483648) :
    int32 x = x := by
  unfold int32
  omega

theorem updateYAxis_graphs (pf : Platform) (p : QTBPlotTime) :
    (QTBPlotTime.updateYAxis pf p).mAxisRect.graphs = p.mAxisRect.graphs := by
  unfold QTBPlotTime.updateYAxis
  split
  · rfl
  · split
    · simp only []
      split <;> rfl
    · split <;> rfl

theorem updateAxes_graphs (pf : Platform) (board : QTBoard) (p : QTBPlotTime) :
    (p.updateAxes pf board).mAxisRect.graphs = p.mAxisRect.graphs := by
  rw [(updateAxes_custom_bounds pf board p).2.2.2.2, updateYAxis_graphs]

theorem processNewSamples_graph (pf : Platform) (board : QTBoard) (p : QTBPlotTime) (i : Nat)
    (entry : Option BoundParameter) (he : p.mDashParameters[i]? = some entry) :
    (p.processNewSamples pf board).mAxisRect.graphs[i]? =
      (p.mAxisRect.graphs[i]?).map (newSampleUpdate p.mXAxisHistory entry) := by
  simp only [QTBPlotTime.processNewSamples, updateAxes_graphs, processNewSamplesFrom_eq]
  exact modifyEach_at _ _ 0 _ i entry (Nat.zero_le _) (by simpa using he)

/-! ## Claims on `processNewSamples` and `processHistoricalSamples` -/

/-- Counterexample to C18 as stated: with a history of -2 seconds, a bound parameter (id 1)
whose latest sample is the value 5 at time 100 and an empty graph, `processNewSamples` adds the
point `(100, 5)` and then removes every point before time 101: the graph is empty afterwards and
does not contain the point of the latest sample. -/
theorem processNewSamples_drops_latest :
    negativeHistoryPlot.mDashParameters[0]? =
        some (some { parameter :=
          { mParameterId := 1
            mSample := { value := { toDouble := 5 }, datationSecFromMidnight := 100 } } }) ∧
      (negativeHistoryPlot.processNewSamples default default).mAxisRect.graphs[0]? =
        some { data := [] } ∧
      ((100 : Rat), (5 : Rat)) ∉ ([] : List (Rat × Rat)) := by
  refine ⟨rfl, ?_, by simp⟩
  rw [processNewSamples_graph default default negativeHistoryPlot 0 _ rfl]
  simp [negativeHistoryPlot, newSampleUpdate, QTBGraph.addData, QTBGraph.removeBefore, int32]

/-- C18 (amended): when `xAxisHistory + 1` is a non-negative `int`
(`-1 ≤ xAxisHistory < 2^31 - 1`), for every parameter index `i` of the plot that has a bound
parameter (id > 0) and a graph, after `processNewSamples` graph `i` contains the point `(t, v)`
of the parameter's latest sample and, of the points it held before, exactly those whose
timestamp is not earlier than `t - (xAxisHistory + 1)`; so no point lying within `xAxisHistory`
seconds before the latest sample is dropped.  Whatever the history is, the graphs of null
entries and of parameters with id 0 are left unchanged. -/
theorem processNewSamples_retention (pf : Platform) (board : QTBoard) (p : QTBPlotTime) :
    (∀ (i : Nat) (bp : BoundParameter) (g : QTBGraph),
        p.mDashParameters[i]? = some (some bp) → 0 < bp.parameter.mParameterId →
        p.mAxisRect.graphs[i]? = some g →
        -1 ≤ p.mXAxisHistory → p.mXAxisHistory < 2147483647 →
        ∃ g1, (p.processNewSamples pf board).mAxisRect.graphs[i]? = some g1 ∧
          (bp.parameter.mSample.datationSecFromMidnight, bp.parameter.mSample.value.toDouble)
            ∈ g1.data ∧
          g1.data.Perm
            ((bp.parameter.mSample.datationSecFromMidnight, bp.parameter.mSample.value.toDouble)
              :: g.data.filter (fun pt => decide
                (bp.parameter.mSample.datationSecFromMidnight - (p.mXAxisHistory + 1)
                  ≤ pt.1))) ∧
          ∀ pt ∈ g.data,
            bp.parameter.mSample.datationSecFromMidnight - p.mXAxisHistory ≤ pt.1 →
            pt ∈ g1.data) ∧
      (∀ (k : Nat) (entry : Option BoundParameter), p.mDashParameters[k]? = some entry →
        (entry = none ∨ ∃ bp, entry = some bp ∧ bp.parameter.mParameterId = 0) →
        (p.processNewSamples pf board).mAxisRect.graphs[k]? = p.mAxisRect.graphs[k]?) := by
  constructor
  · intro i bp g he hid hg hlo hhi
    have hint : int32 (p.mXAxisHistory + 1) = p.mXAxisHistory + 1 :=
      int32_of_small _ (by omega) (by omega)
    have hgraph := processNewSamples_graph pf board p i (some bp) he
    rw [hg] at hgraph
    have hidpos : bp.parameter.mParameterId > 0 := hid
    have hperm : (newSampleUpdate p.mXAxisHistory (some bp) g).data.Perm
        ((bp.parameter.mSample.datationSecFromMidnight, bp.parameter.mSample.value.toDouble)
          :: g.data.filter (fun pt => decide
            (bp.parameter.mSample.datationSecFromMidnight - (p.mXAxisHistory + 1) ≤ pt.1))) := by
      simp only [newSampleUpdate, hidpos, if_true, QTBGraph.removeBefore, hint]
      have hcast : (((p.mXAxisHistory + 1 : Int)) : Rat) = (p.mXAxisHistory : Rat) + 1 := by
        push_cast
        ring
      rw [hcast]
      have hfun : (fun pt : Rat × Rat => decide
          (¬ pt.1 < bp.parameter.mSample.datationSecFromMidnight - ((p.mXAxisHistory : Rat) + 1)))
          = (fun pt : Rat × Rat => decide
            (bp.parameter.mSample.datationSecFromMidnight - ((p.mXAxisHistory : Rat) + 1)
              ≤ pt.1)) := by
        funext pt
        simp only [not_lt]
      rw [hfun]
      have hkeep : decide (bp.parameter.mSample.datationSecFromMidnight -
          ((p.mXAxisHistory : Rat) + 1) ≤ bp.parameter.mSample.datationSecFromMidnight) = true := by
        have h0 : (0 : Rat) ≤ (p.mXAxisHistory : Rat) + 1 := by
          have : (0 : Int) ≤ p.mXAxisHistory + 1 := by omega
          exact_mod_cast this
        simp only [decide_eq_true_eq]
        linarith
      have hstep := List.Perm.filter (fun pt : Rat × Rat => decide
        (bp.parameter.mSample.datationSecFromMidnight - ((p.mXAxisHistory : Rat) + 1) ≤ pt.1))
        (addData_perm g bp.parameter.mSample.datationSecFromMidnight
          bp.parameter.mSample.value.toDouble)
      simp only [List.filter_cons, hkeep, if_true] at hstep
      exact hstep
    refine ⟨_, hgraph, ?_, hperm, ?_⟩
    · exact hperm.symm.subset (List.mem_cons_self _ _)
    · intro pt hpt hle
      apply hperm.symm.subset
      apply List.mem_cons_of_mem
      rw [List.mem_filter]
      refine ⟨hpt, ?_⟩
      simp only [decide_eq_true_eq]
      linarith
  · intro k entry he hcase
    rw [processNewSamples_graph pf board p k entry he]
    have hfun : newSampleUpdate p.mXAxisHistory entry = id := by
      funext g
      rcases hcase with hnone | ⟨bp, hbp, hid⟩
      · subst hnone; rfl
      · subst hbp; simp [newSampleUpdate, hid]
    rw [hfun]
    simp

/-- Witness of C18 (amended): the plot `liveSamplesPlot` (history 30 s, latest sample at time
100): the points at times 69, 80 and 99 stay, the point at time 50 goes. -/
theorem processNewSamples_retention_witness :
    ∃ g1, (liveSamplesPlot.processNewSamples default default).mAxisRect.graphs[0]? = some g1 ∧
      ((100 : Rat), (5 : Rat)) ∈ g1.data ∧
      g1.data.Perm (((100 : Rat), (5 : Rat)) ::
        ([(50, 1), (69, 2), (80, 3), (99, 4)] : List (Rat × Rat)).filter
          (fun pt => decide ((100 : Rat) - (((30 : Int) : Rat) + 1) ≤ pt.1))) ∧
      ∀ pt ∈ ([(50, 1), (69, 2), (80, 3), (99, 4)] : List (Rat × Rat)),
        (100 : Rat) - ((30 : Int) : Rat) ≤ pt.1 → pt ∈ g1.data :=
  (processNewSamples_retention default default liveSamplesPlot).1 0
    { parameter :=
      { mParameterId := 1
        mSample := { value := { toDouble := 5 }, datationSecFromMidnight := 100 } } }
    { data := [(50, 1), (69, 2), (80, 3), (99, 4)] } rfl (by decide) rfl (by decide) (by decide)

theorem processHistoricalSamples_graph (board : QTBoard) (dm : QTBDataManager) (p : QTBPlotTime)
    (i : Nat) (entry : Option BoundParameter) (hdm : board.dataManager = some dm)
    (he : p.mDashParameters[i]? = some entry) :
    (p.processHistoricalSamples board).mAxisRect.graphs[i]? =
      (p.mAxisRect.graphs[i]?).map (historicalUpdate dm entry) := by
  simp only [QTBPlotTime.processHistoricalSamples, hdm, processHistoricalSamplesFrom_eq]
  exact modifyEach_at _ _ 0 _ i entry (Nat.zero_le _) (by simpa using he)

/-- C19 (the code at the failing input): the data manager holds a series of two samples,
`(1, 5)` and `(2, 6)`, and the graph of the parameter was filled from that series by the fill
loop of `addParameter`, so it holds these two points; `processHistoricalSamples` adds the series
to the graph without clearing it, and the graph then holds four points, each sample twice. -/
theorem processHistoricalSamples_duplicates :
    historyPlot.mAxisRect.graphs[0]? = some { data := [(1, 5), (2, 6)] } ∧
      (historyPlot.processHistoricalSamples historyBoard).mAxisRect.graphs[0]? =
        some { data := [(1, 5), (1, 5), (2, 6), (2, 6)] } ∧
      historySerie.length = 2 := by
  have h0 : historyPlot.mAxisRect.graphs[0]? = some { data := [(1, 5), (2, 6)] } := by
    simp [historyPlot, historySerie, QTBGraph.addSerie, QTBGraph.addData]
  refine ⟨h0, ?_, rfl⟩
  rw [processHistoricalSamples_graph historyBoard _ historyPlot 0 _ rfl rfl, h0]
  simp [historyPlot, historySerie, historicalUpdate, QTBGraph.addSerie, QTBGraph.addData]

/-! ## The threshold loops of `updateThresholdsItems` -/

theorem lowThresholdStep_dynamic (lv : Bool) (c : QTBParameterConfiguration)
    (hdyn : c.itemColorMode = ItemColorMode.icDynamic) (st : QTBPlotTime.ThresholdLoop)
    (t : Rat × QTBColorSettings) :
    (QTBPlotTime.lowThresholdStep lv true c st t).segments =
        st.segments ++ [{ lower := st.bound, upper := t.1, pen := QPen.solidLine t.2.color,
                          brush := QTBPlotTime.segmentBrush c.graphBrush t.2.color }] ∧
      (QTBPlotTime.lowThresholdStep lv true c st t).bound = t.1 := by
  cases lv <;> simp [QTBPlotTime.lowThresholdStep, hdyn]

theorem highThresholdStep_dynamic (lv : Bool) (c : QTBParameterConfiguration)
    (hdyn : c.itemColorMode = ItemColorMode.icDynamic) (st : QTBPlotTime.ThresholdLoop)
    (t : Rat × QTBColorSettings) :
    (QTBPlotTime.highThresholdStep lv true c st t).segments =
        st.segments ++ [{ lower := t.1, upper := st.bound, pen := QPen.solidLine t.2.color,
                          brush := QTBPlotTime.segmentBrush c.graphBrush t.2.color }] ∧
      (QTBPlotTime.highThresholdStep lv true c st t).bound = t.1 := by
  cases lv <;> simp [QTBPlotTime.highThresholdStep, hdyn]

theorem lowThresholdStep_static (lv hasGraph : Bool) (c : QTBParameterConfiguration)
    (hdyn : c.itemColorMode ≠ ItemColorMode.icDynamic) (st : QTBPlotTime.ThresholdLoop)
    (t : Rat × QTBColorSettings) :
    (QTBPlotTime.lowThresholdStep lv hasGraph c st t).segments = st.segments := by
  cases lv <;> simp [QTBPlotTime.lowThresholdStep, hdyn]

theorem highThresholdStep_static (lv hasGraph : Bool) (c : QTBParameterConfiguration)
    (hdyn : c.itemColorMode ≠ ItemColorMode.icDynamic) (st : QTBPlotTime.ThresholdLoop)
    (t : Rat × QTBColorSettings) :
    (QTBPlotTime.highThresholdStep lv hasGraph c st t).segments = st.segments := by
  cases lv <;> simp [QTBPlotTime.highThresholdStep, hdyn]

theorem lowLoop_dynamic (lv : Bool) (c : QTBParameterConfiguration)
    (hdyn : c.itemColorMode = ItemColorMode.icDynamic) (low : List (Rat × QTBColorSettings)) :
    ∀ st : QTBPlotTime.ThresholdLoop,
      (low.foldl (QTBPlotTime.lowThresholdStep lv true c) st).segments =
        st.segments ++ lowSegmentsFrom c st.bound low := by
  induction low with
  | nil => intro st; simp [lowSegmentsFrom]
  | cons t ts ih =>
      intro st
      obtain ⟨h1, h2⟩ := lowThresholdStep_dynamic lv c hdyn st t
      simp only [List.foldl_cons, ih, h1, h2, lowSegmentsFrom, List.append_assoc,
        List.singleton_append]

theorem highLoop_dynamic (lv : Bool) (c : QTBParameterConfiguration)
    (hdyn : c.itemColorMode = ItemColorMode.icDynamic) (high : List (Rat × QTBColorSettings)) :
    ∀ st : QTBPlotTime.ThresholdLoop,
      (high.foldl (QTBPlotTime.highThresholdStep lv true c) st).segments =
        st.segments ++ highSegmentsFrom c st.bound high := by
  induction high with
  | nil => intro st; simp [highSegmentsFrom]
  | cons t ts ih =>
      intro st
      obtain ⟨h1, h2⟩ := highThresholdStep_dynamic lv c hdyn st t
      simp only [List.foldl_cons, ih, h1, h2, highSegmentsFrom, List.append_assoc,
        List.singleton_append]

theorem lowLoop_static (lv hasGraph : Bool) (c : QTBParameterConfiguration)
    (hdyn : c.itemColorMode ≠ ItemColorMode.icDynamic) (low : List (Rat × QTBColorSettings)) :
    ∀ st : QTBPlotTime.ThresholdLoop,
      (low.foldl (QTBPlotTime.lowThresholdStep lv hasGraph c) st).segments = st.segments := by
  induction low with
  | nil => intro st; rfl
  | cons t ts ih =>
      intro st
      simp only [List.foldl_cons, ih, lowThresholdStep_static lv hasGraph c hdyn st t]

theorem highLoop_static (lv hasGraph : Bool) (c : QTBParameterConfiguration)
    (hdyn : c.itemColorMode ≠ ItemColorMode.icDynamic) (high : List (Rat × QTBColorSettings)) :
    ∀ st : QTBPlotTime.ThresholdLoop,
      (high.foldl (QTBPlotTime.highThresholdStep lv hasGraph c) st).segments = st.segments := by
  induction high with
  | nil => intro st; rfl
  | cons t ts ih =>
      intro st
      simp only [List.foldl_cons, ih, highThresholdStep_static lv hasGraph c hdyn st t]

theorem updateThresholdsItemsAt_graphs (tv : Bool) (rect : QTBAxisRect) (i : Nat)
    (entry : Option BoundParameter) :
    (QTBPlotTime.updateThresholdsItemsAt tv rect i entry).graphs =
      rect.graphs.modify (thresholdSegmentsUpdate entry) i := by
  cases entry with
  | none =>
      simp only [QTBPlotTime.updateThresholdsItemsAt]
      exact (List.modify_id i rect.graphs).symm
  | some bp =>
      simp only [QTBPlotTime.updateThresholdsItemsAt]
      by_cases hi : i < rect.graphs.length
      · simp only [hi, decide_True, if_true]
        congr 1
        funext g
        simp only [thresholdSegmentsUpdate]
        by_cases hdyn : bp.configuration.itemColorMode = ItemColorMode.icDynamic
        · simp only [hdyn, if_true]
          rw [highLoop_dynamic _ _ hdyn, lowLoop_dynamic _ _ hdyn]
          simp
        · simp only [hdyn, if_false]
          rw [highLoop_static _ _ _ hdyn, lowLoop_static _ _ _ hdyn]
      · simp only [hi, decide_False, Bool.false_eq_true, if_false]
        exact (List.modify_eq_self (by omega)).symm

theorem updateThresholdsItemsFrom_graphs (tv : Bool) (rest : List (Option BoundParameter)) :
    ∀ (j : Nat) (rect : QTBAxisRect),
      (QTBPlotTime.updateThresholdsItemsFrom tv j rest rect).graphs =
        modifyEach thresholdSegmentsUpdate j rest rect.graphs := by
  induction rest with
  | nil => intro j rect; rfl
  | cons e rest ih =>
      intro j rect
      simp only [QTBPlotTime.updateThresholdsItemsFrom, modifyEach, ih,
        updateThresholdsItemsAt_graphs]

theorem updateThresholdsItems_graph (p : QTBPlotTime) (i : Nat)
    (entry : Option BoundParameter) (he : p.mDashParameters[i]? = some entry) :
    p.updateThresholdsItems.mAxisRect.graphs[i]? =
      (p.mAxisRect.graphs[i]?).map (thresholdSegmentsUpdate entry) := by
  simp only [QTBPlotTime.updateThresholdsItems, updateThresholdsItemsFrom_graphs]
  exact modifyEach_at _ _ 0 _ i entry (Nat.zero_le _) (by simpa using he)

/-! ## The coloured segments, one by one -/

theorem lowSegmentsFrom_length (c : QTBParameterConfiguration)
    (low : List (Rat × QTBColorSettings)) :
    ∀ lower : Rat, (lowSegmentsFrom c lower low).length = low.length := by
  induction low with
  | nil => intro lower; rfl
  | cons t ts ih => intro lower; simp [lowSegmentsFrom, ih]

theorem highSegmentsFrom_length (c : QTBParameterConfiguration)
    (high : List (Rat × QTBColorSettings)) :
    ∀ upper : Rat, (highSegmentsFrom c upper high).length = high.length := by
  induction high with
  | nil => intro upper; rfl
  | cons t ts ih => intro upper; simp [highSegmentsFrom, ih]

theorem lowSegmentsFrom_span (c : QTBParameterConfiguration)
    (low : List (Rat × QTBColorSettings)) :
    ∀ (lower : Rat) (j : Nat), j < low.length →
      ((lowSegmentsFrom c lower low)[j]?).map QTBColoredSegment.span =
        some (if j = 0 then lower else (low.getD (j - 1) default).1,
              (low.getD j default).1,
              QPen.solidLine (low.getD j default).2.color) := by
  induction low with
  | nil => intro lower j hj; simp at hj
  | cons t ts ih =>
      intro lower j hj
      cases j with
      | zero => simp [lowSegmentsFrom, QTBColoredSegment.span]
      | succ k =>
          have hk : k < ts.length := by simpa using hj
          simp only [lowSegmentsFrom, List.getElem?_cons_succ, ih t.1 k hk]
          cases k with
          | zero => simp
          | succ k1 => simp

theorem highSegmentsFrom_span (c : QTBParameterConfiguration)
    (high : List (Rat × QTBColorSettings)) :
    ∀ (upper : Rat) (j : Nat), j < high.length →
      ((highSegmentsFrom c upper high)[j]?).map QTBColoredSegment.span =
        some ((high.getD j default).1,
              if j = 0 then upper else (high.getD (j - 1) default).1,
              QPen.solidLine (high.getD j default).2.color) := by
  induction high with
  | nil => intro upper j hj; simp at hj
  | cons t ts ih =>
      intro upper j hj
      cases j with
      | zero => simp [highSegmentsFrom, QTBColoredSegment.span]
      | succ k =>
          have hk : k < ts.length := by simpa using hj
          simp only [highSegmentsFrom, List.getElem?_cons_succ, ih t.1 k hk]
          cases k with
          | zero => simp
          | succ k1 => simp

theorem getD_reverse_index {α : Type} (l : List α) (d : α) (j : Nat) (hj : j < l.length) :
    l.reverse.getD j d = l.getD (l.length - 1 - j) d := by
  simp only [List.getD_eq_getElem?_getD, List.getElem?_reverse hj]

theorem lowSegmentsFrom_upper (c : QTBParameterConfiguration)
    (low : List (Rat × QTBColorSettings)) :
    ∀ (lower : Rat) (s : QTBColoredSegment), s ∈ lowSegmentsFrom c lower low →
      ∃ t ∈ low, s.upper = t.1 := by
  induction low with
  | nil => intro lower s hs; simp [lowSegmentsFrom] at hs
  | cons t ts ih =>
      intro lower s hs
      simp only [lowSegmentsFrom, List.mem_cons] at hs
      rcases hs with hs | hs
      · exact ⟨t, List.mem_cons_self _ _, by rw [hs]⟩
      · obtain ⟨u, hu, hsu⟩ := ih t.1 s hs
        exact ⟨u, List.mem_cons_of_mem _ hu, hsu⟩

theorem highSegmentsFrom_lower (c : QTBParameterConfiguration)
    (high : List (Rat × QTBColorSettings)) :
    ∀ (upper : Rat) (s : QTBColoredSegment), s ∈ highSegmentsFrom c upper high →
      ∃ t ∈ high, s.lower = t.1 := by
  induction high with
  | nil => intro upper s hs; simp [highSegmentsFrom] at hs
  | cons t ts ih =>
      intro upper s hs
      simp only [highSegmentsFrom, List.mem_cons] at hs
      rcases hs with hs | hs
      · exact ⟨t, List.mem_cons_self _ _, by rw [hs]⟩
      · obtain ⟨u, hu, hsu⟩ := ih t.1 s hs
        exact ⟨u, List.mem_cons_of_mem _ hu, hsu⟩

theorem ascending_le_last (l : List (Rat × QTBColorSettings))
    (hs : l.Pairwise (fun a b => a.1 < b.1)) (km : Rat × QTBColorSettings)
    (hlast : l.getLast? = some km) : ∀ t ∈ l, t.1 ≤ km.1 := by
  obtain ⟨ys, rfl⟩ := List.getLast?_eq_some_iff.mp hlast
  rw [List.pairwise_append] at hs
  intro t ht
  rcases List.mem_append.mp ht with h1 | h1
  · exact le_of_lt (hs.2.2 t h1 km (List.mem_singleton_self _))
  · rw [List.mem_singleton.mp h1]

theorem ascending_first_le (l : List (Rat × QTBColorSettings))
    (hs : l.Pairwise (fun a b => a.1 < b.1)) (h1 : Rat × QTBColorSettings)
    (hhead : l.head? = some h1) : ∀ t ∈ l, h1.1 ≤ t.1 := by
  cases l with
  | nil => simp at hhead
  | cons a as =>
      simp only [List.head?_cons, Option.some.injEq] at hhead
      subst hhead
      intro t ht
      rcases List.mem_cons.mp ht with h2 | h2
      · rw [h2]
      · exact le_of_lt ((List.pairwise_cons.mp hs).1 t h2)

/-! ## Claim on the threshold-coloured segments -/

/-- C20: for every parameter in dynamic item colour mode that has a graph, with low thresholds
`k1 < ... < km` and high thresholds `h1 < ... < hn`, `updateThresholdsItems` gives the graph
exactly `m + n` coloured segments: first the low segments `[-DBL_MAX, k1]`, `[k1, k2]`, ...,
`[k(m-1), km]`, each with the pen of the threshold at its upper end, then the high segments
`[hn, DBL_MAX]`, `[h(n-1), hn]`, ..., `[h1, h2]`, each with the pen of the threshold at its lower
end; consecutive segments of a family share an endpoint, and no segment contains a point
strictly between `km` and `h1`. -/
theorem updateThresholdsItems_segments (p : QTBPlotTime) (i : Nat) (bp : BoundParameter)
    (g : QTBGraph) (he : p.mDashParameters[i]? = some (some bp))
    (hg : p.mAxisRect.graphs[i]? = some g)
    (hdyn : bp.configuration.itemColorMode = ItemColorMode.icDynamic)
    (hlow : bp.configuration.thresholdsSettings.lowThresholds.Pairwise (fun a b => a.1 < b.1))
    (hhigh : bp.configuration.thresholdsSettings.highThresholds.Pairwise
      (fun a b => a.1 < b.1)) :
    ∃ g1, p.updateThresholdsItems.mAxisRect.graphs[i]? = some g1 ∧
      g1.coloredSegments.length =
        bp.configuration.thresholdsSettings.lowThresholds.length +
          bp.configuration.thresholdsSettings.highThresholds.length ∧
      (∀ j, j < bp.configuration.thresholdsSettings.lowThresholds.length →
        (g1.coloredSegments[j]?).map QTBColoredSegment.span =
          some (lowSegmentSpan bp.configuration.thresholdsSettings.lowThresholds j)) ∧
      (∀ j, j < bp.configuration.thresholdsSettings.highThresholds.length →
        (g1.coloredSegments[
            bp.configuration.thresholdsSettings.lowThresholds.length + j]?).map
            QTBColoredSegment.span =
          some (highSegmentSpan bp.configuration.thresholdsSettings.highThresholds j)) ∧
      (∀ j, j + 1 < bp.configuration.thresholdsSettings.lowThresholds.length →
        (lowSegmentSpan bp.configuration.thresholdsSettings.lowThresholds j).2.1 =
          (lowSegmentSpan bp.configuration.thresholdsSettings.lowThresholds (j + 1)).1) ∧
      (∀ j, j + 1 < bp.configuration.thresholdsSettings.highThresholds.length →
        (highSegmentSpan bp.configuration.thresholdsSettings.highThresholds j).1 =
          (highSegmentSpan bp.configuration.thresholdsSettings.highThresholds (j + 1)).2.1) ∧
      (∀ km h1, bp.configuration.thresholdsSettings.lowThresholds.getLast? = some km →
        bp.configuration.thresholdsSettings.highThresholds.head? = some h1 →
        ∀ s ∈ g1.coloredSegments, ∀ x : Rat, km.1 < x → x < h1.1 →
          ¬ (s.lower ≤ x ∧ x ≤ s.upper)) := by
  have hgraph := updateThresholdsItems_graph p i (some bp) he
  rw [hg] at hgraph
  have hsegs : (thresholdSegmentsUpdate (some bp) g).coloredSegments =
      lowSegmentsFrom bp.configuration (-DBL_MAX)
          bp.configuration.thresholdsSettings.lowThresholds ++
        highSegmentsFrom bp.configuration DBL_MAX
          bp.configuration.thresholdsSettings.highThresholds.reverse := by
    simp [thresholdSegmentsUpdate, hdyn]
  refine ⟨_, hgraph, ?_, ?_, ?_, ?_, ?_, ?_⟩
  · rw [hsegs, List.length_append, lowSegmentsFrom_length, highSegmentsFrom_length,
      List.length_reverse]
  · intro j hj
    rw [hsegs, List.getElem?_append_left (by rw [lowSegmentsFrom_length]; exact hj),
      lowSegmentsFrom_span _ _ _ j hj]
    rfl
  · intro j hj
    have hjr : j < bp.configuration.thresholdsSettings.highThresholds.reverse.length := by
      rw [List.length_reverse]; exact hj
    rw [hsegs, List.getElem?_append_right (by rw [lowSegmentsFrom_length]; omega),
      lowSegmentsFrom_length, Nat.add_sub_cancel_left, highSegmentsFrom_span _ _ _ j hjr,
      getD_reverse_index _ _ j hj]
    simp only [highSegmentSpan, Option.some.injEq, Prod.mk.injEq, true_and]
    by_cases hj0 : j = 0
    · simp [hj0]
    · simp only [hj0, if_false, and_true]
      rw [getD_reverse_index _ _ (j - 1) (by omega)]
      congr 2
      omega
  · intro j hj
    simp [lowSegmentSpan]
  · intro j hj
    simp only [highSegmentSpan, Nat.add_one_ne_zero, if_false]
    congr 2
    omega
  · intro km h1 hkm hh1 s hs x hx1 hx2 hcover
    rw [hsegs, List.mem_append] at hs
    rcases hs with hs | hs
    · obtain ⟨t, ht, hst⟩ := lowSegmentsFrom_upper _ _ _ s hs
      have hle := ascending_le_last _ hlow km hkm t ht
      rw [hst] at hcover
      linarith [hcover.2]
    · obtain ⟨t, ht, hst⟩ := highSegmentsFrom_lower _ _ _ s hs
      have hle := ascending_first_le _ hhigh h1 hh1 t (List.mem_reverse.mp ht)
      rw [hst] at hcover
      linarith [hcover.1]

/-- Witness of C20: the plot `thresholdsPlot` (low thresholds 1 and 2, high thresholds 8 and 9)
gets the four segments `[-DBL_MAX, 1]`, `[1, 2]`, `[9, DBL_MAX]`, `[8, 9]`. -/
theorem updateThresholdsItems_segments_witness :
    thresholdsPlot.updateThresholdsItems.mAxisRect.graphs.map
        (fun g => g.coloredSegments.map QTBColoredSegment.span) =
      [[(-DBL_MAX, 1, QPen.solidLine (QColor.rgba 255 0 0 255)),
        (1, 2, QPen.solidLine (QColor.rgba 0 255 0 255)),
        (9, DBL_MAX, QPen.solidLine (QColor.rgba 255 255 255 255)),
        (8, 9, QPen.solidLine (QColor.rgba 0 0 255 255))]] ∧
    ∃ g1, thresholdsPlot.updateThresholdsItems.mAxisRect.graphs[0]? = some g1 ∧
      g1.coloredSegments.length = 2 + 2 := by
  obtain ⟨g1, hg1, hlen, _⟩ := updateThresholdsItems_segments thresholdsPlot 0
    { configuration := thresholdsConfiguration } {} rfl rfl rfl
    (by simp [thresholdsConfiguration])
    (by simp [thresholdsConfiguration]; norm_num)
  refine ⟨?_, g1, hg1, hlen⟩
  simp [thresholdsPlot, thresholdsConfiguration, QTBPlotTime.updateThresholdsItems,
    QTBPlotTime.updateThresholdsItemsFrom, QTBPlotTime.updateThresholdsItemsAt,
    QTBPlotTime.lowThresholdStep, QTBPlotTime.highThresholdStep, QTBColoredSegment.span]

/-! ## `loadSettings`, setting by setting -/

theorem persisted_ite_setLegendVisible (c : Bool) (p : QTBPlotTime) (v : Bool) :
    (if c then p.setLegendVisible v else p).persisted =
      { p.persisted with legendVisible := if c then v else p.persisted.legendVisible } := by
  cases c
  · rfl
  · exact persisted_setLegendVisible p v

theorem persisted_ite_setLegendPosition (c : Bool) (p : QTBPlotTime) (v : LegendPosition) :
    (if c then p.setLegendPosition v else p).persisted =
      { p.persisted with legendPosition := if c then v else p.persisted.legendPosition } := by
  cases c
  · rfl
  · exact persisted_setLegendPosition p v

theorem persisted_ite_setTransparentBackground (c : Bool) (p : QTBPlotTime) (v : Bool) :
    (if c then p.setTransparentBackground v else p).persisted =
      { p.persisted with transparentBackground := if c then v else p.persisted.transparentBackground } := by
  cases c
  · rfl
  · exact persisted_setTransparentBackground p v

theorem persisted_ite_setYAxisTicksVisible (board : QTBoard) (c : Bool) (p : QTBPlotTime) (v : Bool) :
    (if c then QTBPlotTime.setYAxisTicksVisible board p v else p).persisted =
      { p.persisted with yAxisTicksVisible := if c then v else p.persisted.yAxisTicksVisible } := by
  cases c
  · rfl
  · exact persisted_setYAxisTicksVisible board p v

theorem persisted_ite_setYAxisLabelsVisible (c : Bool) (p : QTBPlotTime) (v : Bool) :
    (if c then p.setYAxisLabelsVisible v else p).persisted =
      { p.persisted with yAxisLabelsVisible := if c then v else p.persisted.yAxisLabelsVisible } := by
  cases c
  · rfl
  · exact persisted_setYAxisLabelsVisible p v

theorem persisted_ite_setYAxisGridVisible (c : Bool) (p : QTBPlotTime) (v : Bool) :
    (if c then p.setYAxisGridVisible v else p).persisted =
      { p.persisted with yAxisGridVisible := if c then v else p.persisted.yAxisGridVisible } := by
  cases c
  · rfl
  · exact persisted_setYAxisGridVisible p v

theorem persisted_ite_setYAxisScale (c : Bool) (p : QTBPlotTime) (v : YAxisScale) :
    (if c then p.setYAxisScale v else p).persisted =
      { p.persisted with yAxisScale := if c then v else p.persisted.yAxisScale } := by
  cases c
  · rfl
  · exact persisted_setYAxisScale p v

theorem persisted_ite_setYAxisMinCustom (c : Bool) (p : QTBPlotTime) (v : Rat) :
    (if c then p.setYAxisMinCustom v else p).persisted =
      { p.persisted with yAxisMinCustom := if c then v else p.persisted.yAxisMinCustom } := by
  cases c
  · rfl
  · exact persisted_setYAxisMinCustom p v

theorem persisted_ite_setYAxisMaxCustom (c : Bool) (p : QTBPlotTime) (v : Rat) :
    (if c then p.setYAxisMaxCustom v else p).persisted =
      { p.persisted with yAxisMaxCustom := if c then v else p.persisted.yAxisMaxCustom } := by
  cases c
  · rfl
  · exact persisted_setYAxisMaxCustom p v

theorem persisted_ite_setThresholdsVisible (c : Bool) (p : QTBPlotTime) (v : Bool) :
    (if c then p.setThresholdsVisible v else p).persisted =
      { p.persisted with thresholdsVisible := if c then v else p.persisted.thresholdsVisible } := by
  cases c
  · rfl
  · exact persisted_setThresholdsVisible p v

theorem persisted_ite_setXAxisTicksVisible (board : QTBoard) (c : Bool) (p : QTBPlotTime) (v : Bool) :
    (if c then QTBPlotTime.setXAxisTicksVisible board p v else p).persisted =
      { p.persisted with xAxisTicksVisible := if c then v else p.persisted.xAxisTicksVisible } := by
  cases c
  · rfl
  · exact persisted_setXAxisTicksVisible board p v

theorem persisted_ite_setXAxisLabelsVisible (c : Bool) (p : QTBPlotTime) (v : Bool) :
    (if c then p.setXAxisLabelsVisible v else p).persisted =
      { p.persisted with xAxisLabelsVisible := if c then v else p.persisted.xAxisLabelsVisible } := by
  cases c
  · rfl
  · exact persisted_setXAxisLabelsVisible p v

theorem persisted_ite_setXAxisGridVisible (c : Bool) (p : QTBPlotTime) (v : Bool) :
    (if c then p.setXAxisGridVisible v else p).persisted =
      { p.persisted with xAxisGridVisible := if c then v else p.persisted.xAxisGridVisible } := by
  cases c
  · rfl
  · exact persisted_setXAxisGridVisible p v

theorem persisted_ite_setXAxisHistory (c : Bool) (p : QTBPlotTime) (v : Int) :
    (if c then p.setXAxisHistory v else p).persisted =
      { p.persisted with xAxisHistory := if c then v else p.persisted.xAxisHistory } := by
  cases c
  · rfl
  · exact persisted_setXAxisHistory p v

theorem persisted_ite_setXAxisDirection (c : Bool) (p : QTBPlotTime) (v : XAxisDirection) :
    (if c then p.setXAxisDirection v else p).persisted =
      { p.persisted with xAxisDirection := if c then v else p.persisted.xAxisDirection } := by
  cases c
  · rfl
  · exact persisted_setXAxisDirection p v

theorem loadSettings_persisted (pf : Platform) (board : QTBoard) (s : QSettings)
    (p : QTBPlotTime) :
    (p.loadSettings pf board s).persisted =
      { legendVisible :=
          if (s.beginGroup "General").contains "LegendVisible" then
            ((s.beginGroup "General").value "LegendVisible").toBool
          else p.mLegendVisible
        legendPosition :=
          if (s.beginGroup "General").contains "LegendPosition" then
            ⟨((s.beginGroup "General").value "LegendPosition").toInt pf.qt⟩
          else p.mLegendPosition
        transparentBackground :=
          if (s.beginGroup "General").contains "TransparentBackground" then
            ((s.beginGroup "General").value "TransparentBackground").toBool
          else p.mTransparentBackground
        yAxisTicksVisible :=
          if (s.beginGroup "ValueAxis").contains "TicksVisible" then
            ((s.beginGroup "ValueAxis").value "TicksVisible").toBool
          else p.mYAxisTicksVisible
        yAxisLabelsVisible :=
          if (s.beginGroup "ValueAxis").contains "LabelsVisible" then
            ((s.beginGroup "ValueAxis").value "LabelsVisible").toBool
          else p.mYAxisLabelsVisible
        yAxisGridVisible :=
          if (s.beginGroup "ValueAxis").contains "GridVisible" then
            ((s.beginGroup "ValueAxis").value "GridVisible").toBool
          else p.mYAxisGridVisible
        yAxisScale :=
          if (s.beginGroup "ValueAxis").contains "ScaleMode" then
            ⟨((s.beginGroup "ValueAxis").value "ScaleMode").toInt pf.qt⟩
          else p.mYAxisScale
        yAxisMinCustom :=
          if (s.beginGroup "ValueAxis").contains "ScaleMin" then
            ((s.beginGroup "ValueAxis").value "ScaleMin").toDouble pf.qt
          else p.mYAxisMinCustom
        yAxisMaxCustom :=
          if (s.beginGroup "ValueAxis").contains "ScaleMax" then
            ((s.beginGroup "ValueAxis").value "ScaleMax").toDouble pf.qt
          else p.mYAxisMaxCustom
        thresholdsVisible :=
          if (s.beginGroup "ValueAxis").contains "ThresholdsVisible" then
            ((s.beginGroup "ValueAxis").value "ThresholdsVisible").toBool
          else p.mThresholdsVisible
        xAxisTicksVisible :=
          if (s.beginGroup "TimeAxis").contains "TicksVisible" then
            ((s.beginGroup "TimeAxis").value "TicksVisible").toBool
          else p.mXAxisTicksVisible
        xAxisLabelsVisible :=
          if (s.beginGroup "TimeAxis").contains "LabelsVisible" then
            ((s.beginGroup "TimeAxis").value "LabelsVisible").toBool
          else p.mXAxisLabelsVisible
        xAxisGridVisible :=
          if (s.beginGroup "TimeAxis").contains "GridVisible" then
            ((s.beginGroup "TimeAxis").value "GridVisible").toBool
          else p.mXAxisGridVisible
        xAxisHistory :=
          if (s.beginGroup "TimeAxis").contains "History" then
            ((s.beginGroup "TimeAxis").value "History").toInt pf.qt
          else p.mXAxisHistory
        xAxisDirection :=
          if (s.beginGroup "TimeAxis").contains "Direction" then
            ⟨((s.beginGroup "TimeAxis").value "Direction").toInt pf.qt⟩
          else p.mXAxisDirection } := by
  unfold QTBPlotTime.loadSettings
  lift_lets
  extract_lets s1 p1 p2 p3 s1e s2 p4 p5 p6 p7 p8 p9 p10 s2e s3 p11 p12 p13 p14
  have h1 : p1.persisted = _ := persisted_ite_setLegendVisible _ p _
  have h2 : p2.persisted = _ := persisted_ite_setLegendPosition _ p1 _
  have h3 : p3.persisted = _ := persisted_ite_setTransparentBackground _ p2 _
  have h4 : p4.persisted = _ := persisted_ite_setYAxisTicksVisible board _ p3 _
  have h5 : p5.persisted = _ := persisted_ite_setYAxisLabelsVisible _ p4 _
  have h6 : p6.persisted = _ := persisted_ite_setYAxisGridVisible _ p5 _
  have h7 : p7.persisted = _ := persisted_ite_setYAxisScale _ p6 _
  have h8 : p8.persisted = _ := persisted_ite_setYAxisMinCustom _ p7 _
  have h9 : p9.persisted = _ := persisted_ite_setYAxisMaxCustom _ p8 _
  have h10 : p10.persisted = _ := persisted_ite_setThresholdsVisible _ p9 _
  have h11 : p11.persisted = _ := persisted_ite_setXAxisTicksVisible board _ p10 _
  have h12 : p12.persisted = _ := persisted_ite_setXAxisLabelsVisible _ p11 _
  have h13 : p13.persisted = _ := persisted_ite_setXAxisGridVisible _ p12 _
  have h14 : p14.persisted = _ := persisted_ite_setXAxisHistory _ p13 _
  have h15 := persisted_ite_setXAxisDirection (s3.contains "Direction") p14
    ⟨(s3.value "Direction").toInt pf.qt⟩
  have hs2 : s2 = s.beginGroup "ValueAxis" := rfl
  have hs3 : s3 = s.beginGroup "TimeAxis" := rfl
  have hs1 : s1 = s.beginGroup "General" := rfl
  clear_value p14 p13 p12 p11 p10 p9 p8 p7 p6 p5 p4 p3 p2 p1
  clear_value s3
  clear_value s2
  clear_value s1
  subst hs1 hs2 hs3
  simp only [Bool.decide_eq_true] at h15 ⊢
  rw [h15]
  simp only [h14, h13, h12, h11, h10, h9, h8, h7, h6, h5, h4, h3, h2, h1]
  rfl

/-- C24: `loadSettings` changes only the settings whose key is present.  For every settings
store and every plot, each of the fifteen persisted settings whose key is absent from its group
keeps the value it had before the call; and a plot fresh from the constructor has the legend at
the right and visible, the Y and X labels and grids visible, the ticks hidden, the automatic Y
scale, a history of 30 s, the right-to-left direction and the thresholds visible. -/
theorem loadSettings_keeps_absent (pf : Platform) (board : QTBoard) (s : QSettings)
    (p : QTBPlotTime) (yAxisMinCustom yAxisMaxCustom : Rat) :
    (((s.beginGroup "General").contains "LegendVisible" = false →
        (p.loadSettings pf board s).persisted.legendVisible = p.persisted.legendVisible) ∧
      ((s.beginGroup "General").contains "LegendPosition" = false →
        (p.loadSettings pf board s).persisted.legendPosition = p.persisted.legendPosition) ∧
      ((s.beginGroup "General").contains "TransparentBackground" = false →
        (p.loadSettings pf board s).persisted.transparentBackground =
          p.persisted.transparentBackground) ∧
      ((s.beginGroup "ValueAxis").contains "TicksVisible" = false →
        (p.loadSettings pf board s).persisted.yAxisTicksVisible =
          p.persisted.yAxisTicksVisible) ∧
      ((s.beginGroup "ValueAxis").contains "LabelsVisible" = false →
        (p.loadSettings pf board s).persisted.yAxisLabelsVisible =
          p.persisted.yAxisLabelsVisible) ∧
      ((s.beginGroup "ValueAxis").contains "GridVisible" = false →
        (p.loadSettings pf board s).persisted.yAxisGridVisible =
          p.persisted.yAxisGridVisible) ∧
      ((s.beginGroup "ValueAxis").contains "ScaleMode" = false →
        (p.loadSettings pf board s).persisted.yAxisScale = p.persisted.yAxisScale) ∧
      ((s.beginGroup "ValueAxis").contains "ScaleMin" = false →
        (p.loadSettings pf board s).persisted.yAxisMinCustom = p.persisted.yAxisMinCustom) ∧
      ((s.beginGroup "ValueAxis").contains "ScaleMax" = false →
        (p.loadSettings pf board s).persisted.yAxisMaxCustom = p.persisted.yAxisMaxCustom) ∧
      ((s.beginGroup "ValueAxis").contains "ThresholdsVisible" = false →
        (p.loadSettings pf board s).persisted.thresholdsVisible =
          p.persisted.thresholdsVisible) ∧
      ((s.beginGroup "TimeAxis").contains "TicksVisible" = false →
        (p.loadSettings pf board s).persisted.xAxisTicksVisible =
          p.persisted.xAxisTicksVisible) ∧
      ((s.beginGroup "TimeAxis").contains "LabelsVisible" = false →
        (p.loadSettings pf board s).persisted.xAxisLabelsVisible =
          p.persisted.xAxisLabelsVisible) ∧
      ((s.beginGroup "TimeAxis").contains "GridVisible" = false →
        (p.loadSettings pf board s).persisted.xAxisGridVisible =
          p.persisted.xAxisGridVisible) ∧
      ((s.beginGroup "TimeAxis").contains "History" = false →
        (p.loadSettings pf board s).persisted.xAxisHistory = p.persisted.xAxisHistory) ∧
      ((s.beginGroup "TimeAxis").contains "Direction" = false →
        (p.loadSettings pf board s).persisted.xAxisDirection = p.persisted.xAxisDirection)) ∧
    ((QTBPlotTime.new yAxisMinCustom yAxisMaxCustom).persisted.legendPosition = lpRight ∧
      (QTBPlotTime.new yAxisMinCustom yAxisMaxCustom).persisted.legendVisible = true ∧
      (QTBPlotTime.new yAxisMinCustom yAxisMaxCustom).persisted.yAxisLabelsVisible = true ∧
      (QTBPlotTime.new yAxisMinCustom yAxisMaxCustom).persisted.xAxisLabelsVisible = true ∧
      (QTBPlotTime.new yAxisMinCustom yAxisMaxCustom).persisted.yAxisGridVisible = true ∧
      (QTBPlotTime.new yAxisMinCustom yAxisMaxCustom).persisted.xAxisGridVisible = true ∧
      (QTBPlotTime.new yAxisMinCustom yAxisMaxCustom).persisted.yAxisTicksVisible = false ∧
      (QTBPlotTime.new yAxisMinCustom yAxisMaxCustom).persisted.xAxisTicksVisible = false ∧
      (QTBPlotTime.new yAxisMinCustom yAxisMaxCustom).persisted.yAxisScale = asAuto ∧
      (QTBPlotTime.new yAxisMinCustom yAxisMaxCustom).persisted.xAxisHistory = 30 ∧
      (QTBPlotTime.new yAxisMinCustom yAxisMaxCustom).persisted.xAxisDirection = adRightToLeft ∧
      (QTBPlotTime.new yAxisMinCustom yAxisMaxCustom).persisted.thresholdsVisible = true) := by
  refine ⟨?_, rfl, rfl, rfl, rfl, rfl, rfl, rfl, rfl, rfl, rfl, rfl, rfl⟩
  rw [loadSettings_persisted]
  refine ⟨?_, ?_, ?_, ?_, ?_, ?_, ?_, ?_, ?_, ?_, ?_, ?_, ?_, ?_, ?_⟩ <;>
    (intro h; simp only [h]; rfl)

/-- C24 at a concrete input: the store `legendOnlyStore` has no legend position and no scale
mode, and a fresh plot loaded from it keeps the legend at the right and the automatic scale,
while the legend visibility and the history, whose keys are present, change. -/
theorem loadSettings_keeps_absent_witness :
    (legendOnlyStore.beginGroup "General").contains "LegendPosition" = false ∧
    (legendOnlyStore.beginGroup "ValueAxis").contains "ScaleMode" = false ∧
    ((QTBPlotTime.new 0 0).loadSettings default default legendOnlyStore).persisted.legendPosition
      = lpRight ∧
    ((QTBPlotTime.new 0 0).loadSettings default default legendOnlyStore).persisted.yAxisScale
      = asAuto ∧
    ((QTBPlotTime.new 0 0).loadSettings default default legendOnlyStore).persisted.legendVisible
      = false ∧
    ((QTBPlotTime.new 0 0).loadSettings default default legendOnlyStore).persisted.xAxisHistory
      = 60 :=
  ⟨by decide, by decide,
   (loadSettings_keeps_absent default default legendOnlyStore (QTBPlotTime.new 0 0) 0 0).1.2.1
     (by decide),
   (loadSettings_keeps_absent default default legendOnlyStore (QTBPlotTime.new 0 0) 0 0).1.2.2.2.2.2.2.1
     (by decide),
   by rw [loadSettings_persisted]; decide,
   by rw [loadSettings_persisted]; decide⟩

/-! ## Claim on `selectTest` -/

/-- C25: `QTBLayoutReactiveElement::selectTest` returns -1 whenever `onlySelectable` is true,
whenever the position is not contained in the outer rectangle, and whenever the element has no
parent plot; in the remaining case (`onlySelectable` false, position contained in the outer
rectangle, parent plot set) it returns 0.99 times the selection tolerance of the plot, which is
non-negative when the tolerance is, and strictly below the tolerance when the tolerance is
positive. -/
theorem selectTest_cases (e : QTBLayoutReactiveElement) (pos : QPointF)
    (onlySelectable : Bool) :
    (onlySelectable = true → e.selectTest pos onlySelectable = -1) ∧
    (e.mOuterRect.toRectF.contains pos = false → e.selectTest pos onlySelectable = -1) ∧
    (e.mParentPlot = none → e.selectTest pos onlySelectable = -1) ∧
    (∀ parentPlot : QCustomPlot, onlySelectable = false →
      e.mOuterRect.toRectF.contains pos = true → e.mParentPlot = some parentPlot →
        e.selectTest pos onlySelectable = (parentPlot.selectionTolerance : Rat) * (99 / 100) ∧
        (0 ≤ parentPlot.selectionTolerance → 0 ≤ e.selectTest pos onlySelectable) ∧
        (0 < parentPlot.selectionTolerance →
          e.selectTest pos onlySelectable < parentPlot.selectionTolerance)) := by
  refine ⟨?_, ?_, ?_, ?_⟩
  · intro h
    simp [QTBLayoutReactiveElement.selectTest, h]
  · intro h
    simp [QTBLayoutReactiveElement.selectTest, h]
  · intro h
    simp only [QTBLayoutReactiveElement.selectTest, h]
    split
    · rfl
    · split <;> rfl
  · intro parentPlot hsel hin hplot
    have hval : e.selectTest pos onlySelectable =
        (parentPlot.selectionTolerance : Rat) * (99 / 100) := by
      simp [QTBLayoutReactiveElement.selectTest, hsel, hin, hplot]
    rw [hval]
    refine ⟨rfl, ?_, ?_⟩
    · intro h
      have h0 : (0 : Rat) ≤ (parentPlot.selectionTolerance : Rat) := by exact_mod_cast h
      positivity
    · intro h
      have h0 : (0 : Rat) < (parentPlot.selectionTolerance : Rat) := by exact_mod_cast h
      linarith

/-- C25 at a concrete input: the centre of `squareElement` is contained in its outer rectangle,
and the test answers 0.99 * 8 = 198 / 25, which lies between 0 and 8. -/
theorem selectTest_cases_witness :
    squareElement.mOuterRect.toRectF.contains { x := 5, y := 5 } = true ∧
    squareElement.selectTest { x := 5, y := 5 } false = 198 / 25 ∧
    0 ≤ squareElement.selectTest { x := 5, y := 5 } false ∧
    squareElement.selectTest { x := 5, y := 5 } false < 8 :=
  have hin : squareElement.mOuterRect.toRectF.contains { x := 5, y := 5 } = true := by
    norm_num [squareElement, QRect.toRectF, QRectF.contains]
  have h := (selectTest_cases squareElement { x := 5, y := 5 } false).2.2.2
    { selectionTolerance := 8 } rfl hin rfl
  ⟨hin, h.1.trans (by norm_num), h.2.1 (by decide), by simpa using h.2.2 (by decide)⟩

/-! ## The items of the axis rectangle after `updateThresholdsItems` -/

theorem lowThresholdStep_items (lv hasGraph : Bool) (c : QTBParameterConfiguration)
    (st : QTBPlotTime.ThresholdLoop) (t : Rat × QTBColorSettings) :
    (QTBPlotTime.lowThresholdStep lv hasGraph c st t).items =
      st.items ++ (if lv then [QTBPlotTime.thresholdLine t] else []) := by
  cases lv <;>
    by_cases h : (hasGraph && decide (c.itemColorMode = ItemColorMode.icDynamic)) = true <;>
    simp [QTBPlotTime.lowThresholdStep, h]

theorem highThresholdStep_items (lv hasGraph : Bool) (c : QTBParameterConfiguration)
    (st : QTBPlotTime.ThresholdLoop) (t : Rat × QTBColorSettings) :
    (QTBPlotTime.highThresholdStep lv hasGraph c st t).items =
      st.items ++ (if lv then [QTBPlotTime.thresholdLine t] else []) := by
  cases lv <;>
    by_cases h : (hasGraph && decide (c.itemColorMode = ItemColorMode.icDynamic)) = true <;>
    simp [QTBPlotTime.highThresholdStep, h]

theorem lowLoop_items (lv hasGraph : Bool) (c : QTBParameterConfiguration)
    (low : List (Rat × QTBColorSettings)) :
    ∀ st : QTBPlotTime.ThresholdLoop,
      (low.foldl (QTBPlotTime.lowThresholdStep lv hasGraph c) st).items =
        st.items ++ (if lv then low.map QTBPlotTime.thresholdLine else []) := by
  induction low with
  | nil => intro st; cases lv <;> simp
  | cons t ts ih =>
      intro st
      rw [List.foldl_cons, ih, lowThresholdStep_items]
      cases lv <;> simp

theorem highLoop_items (lv hasGraph : Bool) (c : QTBParameterConfiguration)
    (high : List (Rat × QTBColorSettings)) :
    ∀ st : QTBPlotTime.ThresholdLoop,
      (high.foldl (QTBPlotTime.highThresholdStep lv hasGraph c) st).items =
        st.items ++ (if lv then high.map QTBPlotTime.thresholdLine else []) := by
  induction high with
  | nil => intro st; cases lv <;> simp
  | cons t ts ih =>
      intro st
      rw [List.foldl_cons, ih, highThresholdStep_items]
      cases lv <;> simp

theorem updateThresholdsItemsAt_items (tv : Bool) (rect : QTBAxisRect) (i : Nat)
    (entry : Option BoundParameter) :
    (QTBPlotTime.updateThresholdsItemsAt tv rect i entry).items =
      rect.items ++ thresholdItemsOf tv entry := by
  cases entry with
  | none => simp [QTBPlotTime.updateThresholdsItemsAt, thresholdItemsOf]
  | some bp =>
      simp only [QTBPlotTime.updateThresholdsItemsAt, thresholdItemsOf, highLoop_items,
        lowLoop_items]
      cases (tv && bp.configuration.itemsThresholdsVisible) <;> simp

theorem updateThresholdsItemsAt_axes (tv : Bool) (rect : QTBAxisRect) (i : Nat)
    (entry : Option BoundParameter) :
    (QTBPlotTime.updateThresholdsItemsAt tv rect i entry).left = rect.left ∧
      (QTBPlotTime.updateThresholdsItemsAt tv rect i entry).bottom = rect.bottom := by
  cases entry <;> exact ⟨rfl, rfl⟩

theorem updateThresholdsItemsFrom_eq (tv : Bool) (rest : List (Option BoundParameter)) :
    ∀ (j : Nat) (rect : QTBAxisRect),
      QTBPlotTime.updateThresholdsItemsFrom tv j rest rect =
        { rect with
          items := rect.items ++ thresholdItemsFrom tv rest
          graphs := modifyEach thresholdSegmentsUpdate j rest rect.graphs } := by
  induction rest with
  | nil => intro j rect; simp [QTBPlotTime.updateThresholdsItemsFrom, thresholdItemsFrom, modifyEach]
  | cons e rest ih =>
      intro j rect
      simp only [QTBPlotTime.updateThresholdsItemsFrom, ih, updateThresholdsItemsAt_items,
        updateThresholdsItemsAt_graphs, (updateThresholdsItemsAt_axes tv rect j e).1,
        (updateThresholdsItemsAt_axes tv rect j e).2, thresholdItemsFrom, modifyEach,
        List.append_assoc]

theorem modifyEach_beyond {α β : Type} (f : β → α → α) (rest : List β) :
    ∀ (j : Nat) (l : List α) (k : Nat), j + rest.length ≤ k →
      (modifyEach f j rest l)[k]? = l[k]? := by
  induction rest with
  | nil => intro j l k _; rfl
  | cons e rest ih =>
      intro j l k hk
      simp only [List.length_cons] at hk
      simp only [modifyEach]
      rw [ih (j + 1) _ k (by omega), List.getElem?_modify_ne _ _ (by omega)]

theorem modifyEach_idempotent {α β : Type} (f : β → α → α)
    (hf : ∀ e a, f e (f e a) = f e a) (rest : List β) (l : List α) :
    modifyEach f 0 rest (modifyEach f 0 rest l) = modifyEach f 0 rest l := by
  apply List.ext_getElem?
  intro k
  by_cases hk : k < rest.length
  · have he : rest[k - 0]? = some rest[k] := by simp [hk]
    rw [modifyEach_at f rest 0 _ k _ (Nat.zero_le _) he,
      modifyEach_at f rest 0 _ k _ (Nat.zero_le _) he]
    cases l[k]? with
    | none => rfl
    | some a => simp [hf]
  · rw [modifyEach_beyond f rest 0 _ k (by omega)]

theorem thresholdSegmentsUpdate_idempotent (entry : Option BoundParameter) (g : QTBGraph) :
    thresholdSegmentsUpdate entry (thresholdSegmentsUpdate entry g) =
      thresholdSegmentsUpdate entry g := by
  cases entry <;> rfl

theorem thresholdItemsFrom_hidden (rest : List (Option BoundParameter)) :
    thresholdItemsFrom false rest = [] := by
  induction rest with
  | nil => rfl
  | cons e rest ih => cases e <;> simp [thresholdItemsFrom, thresholdItemsOf, ih]

theorem thresholdItemsFrom_length (rest : List (Option BoundParameter)) :
    (thresholdItemsFrom true rest).length = visibleThresholdsCount rest := by
  induction rest with
  | nil => rfl
  | cons e rest ih =>
      cases e with
      | none => simp [thresholdItemsFrom, thresholdItemsOf, visibleThresholdsCount, ih]
      | some bp =>
          cases h : bp.configuration.itemsThresholdsVisible
          · simp [thresholdItemsFrom, thresholdItemsOf, visibleThresholdsCount, ih, h]
          · simp [thresholdItemsFrom, thresholdItemsOf, visibleThresholdsCount, ih, h]
            omega

/-- C21: `updateThresholdsItems` rebuilds the threshold markers from scratch.  After the call the
items of the axis rectangle are the lines of `thresholdItemsFrom`: when `thresholdsVisible()` is
true, one straight line per low or high threshold of each parameter whose configuration has
`itemsThresholdsVisible` (so their number is `visibleThresholdsCount`), and none when
`thresholdsVisible()` is false, as after `setThresholdsVisible(false)` on a plot that showed
them.  The items present before the call do not matter, and a second call in a row leaves the
plot, with its items and the coloured segments of its graphs, as the first call left it. -/
theorem updateThresholdsItems_rebuilds (p : QTBPlotTime) :
    p.updateThresholdsItems.mAxisRect.items =
        thresholdItemsFrom p.mThresholdsVisible p.mDashParameters ∧
      (p.mThresholdsVisible = true →
        p.updateThresholdsItems.mAxisRect.items.length =
          visibleThresholdsCount p.mDashParameters) ∧
      (p.mThresholdsVisible = false → p.updateThresholdsItems.mAxisRect.items = []) ∧
      (p.mThresholdsVisible = true → (p.setThresholdsVisible false).mAxisRect.items = []) ∧
      (∀ items : List QCPItemStraightLine,
        QTBPlotTime.updateThresholdsItems
            { p with mAxisRect := { p.mAxisRect with items := items } } =
          p.updateThresholdsItems) ∧
      p.updateThresholdsItems.updateThresholdsItems = p.updateThresholdsItems := by
  have hitems : ∀ q : QTBPlotTime, q.updateThresholdsItems.mAxisRect.items =
      thresholdItemsFrom q.mThresholdsVisible q.mDashParameters := by
    intro q
    simp [QTBPlotTime.updateThresholdsItems, updateThresholdsItemsFrom_eq]
  refine ⟨hitems p, ?_, ?_, ?_, ?_, ?_⟩
  · intro h
    rw [hitems, h, thresholdItemsFrom_length]
  · intro h
    rw [hitems, h, thresholdItemsFrom_hidden]
  · intro h
    simp only [QTBPlotTime.setThresholdsVisible, h, ne_eq, Bool.false_eq_true,
      not_false_eq_true, if_true]
    rw [hitems, thresholdItemsFrom_hidden]
  · intro items
    rfl
  · simp only [QTBPlotTime.updateThresholdsItems, updateThresholdsItemsFrom_eq,
      List.nil_append,
      modifyEach_idempotent thresholdSegmentsUpdate thresholdSegmentsUpdate_idempotent]

/-- C21 at a concrete input: the plot `markedPlot` shows its thresholds and holds a stale item;
its first parameter has `itemsThresholdsVisible` and four thresholds, its second parameter has
not.  After the call the axis rectangle holds four lines, at 1, 2, 9 and 8, and after
`setThresholdsVisible(false)` it holds none. -/
theorem updateThresholdsItems_rebuilds_witness :
    markedPlot.mThresholdsVisible = true ∧
      markedPlot.updateThresholdsItems.mAxisRect.items.length = 4 ∧
      markedPlot.updateThresholdsItems.mAxisRect.items.map (fun l => l.y) = [1, 2, 9, 8] ∧
      (markedPlot.setThresholdsVisible false).mAxisRect.items = [] :=
  ⟨rfl,
   ((updateThresholdsItems_rebuilds markedPlot).2.1 rfl).trans (by decide),
   by rw [(updateThresholdsItems_rebuilds markedPlot).1]
      simp [markedPlot, thresholdsConfiguration, thresholdItemsFrom, thresholdItemsOf,
        QTBPlotTime.thresholdLine],
   (updateThresholdsItems_rebuilds markedPlot).2.2.2.1 rfl⟩

/-! ## The main layout after `updateLayout` -/

theorem filter_isSome_eq {α : Type} (l : List (Option α)) :
    l.filter Option.isSome = (l.filterMap id).map some := by
  induction l with
  | nil => rfl
  | cons c cs ih => cases c <;> simp [List.filter_cons, ih]

theorem takeCell_filterMap {α : Type} [DecidableEq α] (x : α) (l : List (Option α)) :
    (takeCell (fun e => decide (e = x)) l).filterMap id = (l.filterMap id).erase x := by
  induction l with
  | nil => rfl
  | cons c cs ih =>
      cases c with
      | none => simpa [takeCell] using ih
      | some e =>
          by_cases h : e = x
          · subst h
            simp [takeCell]
          · have hne : (e == x) = false := by simpa using h
            simp [takeCell, h, ih, List.erase_cons, hne]

theorem mainElements_cleared (l : List MainElement) (h : l.Nodup) :
    (l.erase MainElement.axisRect).erase MainElement.legendLayout = [] := by
  rw [h.erase_eq_filter, (h.filter _).erase_eq_filter, List.filter_filter,
    List.filter_eq_nil_iff]
  intro e _
  cases e <;> simp

theorem updateLayout_cleared (p : QTBPlotTime) (h : (p.mLayout.cells.filterMap id).Nodup) :
    (((p.mLayout.take (fun element => decide (element = MainElement.axisRect))).take
      (fun element => decide (element = MainElement.legendLayout))).simplify).cells = [] := by
  simp only [QCPLayoutGrid.simplify, QCPLayoutGrid.take, filter_isSome_eq, takeCell_filterMap,
    mainElements_cleared _ h, List.map_nil]

theorem legendPosition_distinct :
    lpLeft ≠ lpRight ∧ lpBottom ≠ lpRight ∧ lpTop ≠ lpRight ∧ lpBottom ≠ lpLeft ∧
      lpTop ≠ lpLeft ∧ lpTop ≠ lpBottom ∧ lpRight ≠ lpLeft ∧ lpRight ≠ lpBottom ∧
      lpRight ≠ lpTop ∧ lpLeft ≠ lpBottom ∧ lpLeft ≠ lpTop ∧ lpBottom ≠ lpTop := by
  decide

theorem updateLayout_mLayout (p : QTBPlotTime) (h : (p.mLayout.cells.filterMap id).Nodup) :
    p.updateLayout.mLayout.cells =
      if p.mLegendPosition = lpRight ∨ p.mLegendPosition = lpBottom then
        if p.legendShown then [some MainElement.axisRect, some MainElement.legendLayout]
        else [some MainElement.axisRect]
      else if p.mLegendPosition = lpLeft ∨ p.mLegendPosition = lpTop then
        if p.legendShown then [some MainElement.legendLayout, some MainElement.axisRect]
        else [some MainElement.axisRect]
      else [] := by
  have hc := updateLayout_cleared p h
  obtain ⟨d1, d2, d3, d4, d5, d6, d7, d8, d9, d10, d11, d12⟩ := legendPosition_distinct
  simp only [QTBPlotTime.updateLayout, QTBPlotTime.composeLayout]
  by_cases h1 : p.mLegendPosition = lpRight
  · cases hs : p.legendShown <;>
      simp [h1, hs, hc, QCPLayoutGrid.setFillOrder, QCPLayoutGrid.addElement, addCell]
  · by_cases h2 : p.mLegendPosition = lpLeft
    · cases hs : p.legendShown <;>
        simp [h2, hs, hc, d1, d10, QCPLayoutGrid.setFillOrder, QCPLayoutGrid.addElement,
          addCell]
    · by_cases h3 : p.mLegendPosition = lpBottom
      · cases hs : p.legendShown <;>
          simp [h3, hs, hc, d2, d4, QCPLayoutGrid.setFillOrder, QCPLayoutGrid.addElement,
            addCell]
      · by_cases h4 : p.mLegendPosition = lpTop
        · cases hs : p.legendShown <;>
            simp [h4, hs, hc, d3, d5, d6, QCPLayoutGrid.setFillOrder,
              QCPLayoutGrid.addElement, addCell]
        · simp [h1, h2, h3, h4, hc]

theorem updateLayout_legend_visible (p : QTBPlotTime)
    (hposition : p.mLegendPosition = lpRight ∨ p.mLegendPosition = lpLeft ∨
      p.mLegendPosition = lpBottom ∨ p.mLegendPosition = lpTop) :
    p.updateLayout.mLegendLayout.visible = p.legendShown := by
  simp only [QTBPlotTime.updateLayout, QTBPlotTime.composeLegend]
  obtain ⟨d1, d2, d3, d4, d5, d6, d7, d8, d9, d10, d11, d12⟩ := legendPosition_distinct
  rcases hposition with h | h | h | h <;>
    cases hs : p.legendShown <;>
    simp [h, hs, d1, d2, d3, d4, d5, d6, QCPLayoutGrid.setFillOrder, QCPLayoutGrid.setVisible]

theorem legendShown_iff (p : QTBPlotTime) :
    p.legendShown = true ↔ (p.mLegendVisible = true ∧ 2 < p.mLegendLayout.elementCount) := by
  simp [QTBPlotTime.legendShown, and_comm]

/-- C22: plot/legend composition.  For a plot whose main layout holds each element in at most
one cell (an element has one parent layout) and whose legend position is one of the four
enumerators, after `updateLayout` the main layout contains the axis rectangle exactly once; it
contains the legend layout, which is then visible, if and only if `legendVisible()` is true and
the legend layout has more than two elements; when both are present the legend layout comes
before the axis rectangle for `lpLeft` and `lpTop` and after it for `lpRight` and `lpBottom`;
and when the legend layout is absent it is invisible and the axis rectangle is alone. -/
theorem updateLayout_composition (p : QTBPlotTime)
    (hposition : p.mLegendPosition = lpRight ∨ p.mLegendPosition = lpLeft ∨
      p.mLegendPosition = lpBottom ∨ p.mLegendPosition = lpTop)
    (hlayout : (p.mLayout.cells.filterMap id).Nodup) :
    p.updateLayout.mLayout.cells.count (some MainElement.axisRect) = 1 ∧
      (some MainElement.legendLayout ∈ p.updateLayout.mLayout.cells ↔
        (p.mLegendVisible = true ∧ 2 < p.mLegendLayout.elementCount)) ∧
      (p.updateLayout.mLegendLayout.visible = true ↔
        (p.mLegendVisible = true ∧ 2 < p.mLegendLayout.elementCount)) ∧
      ((p.mLegendVisible = true ∧ 2 < p.mLegendLayout.elementCount) →
        ((p.mLegendPosition = lpLeft ∨ p.mLegendPosition = lpTop) →
          p.updateLayout.mLayout.cells =
            [some MainElement.legendLayout, some MainElement.axisRect]) ∧
        ((p.mLegendPosition = lpRight ∨ p.mLegendPosition = lpBottom) →
          p.updateLayout.mLayout.cells =
            [some MainElement.axisRect, some MainElement.legendLayout])) ∧
      (¬ (p.mLegendVisible = true ∧ 2 < p.mLegendLayout.elementCount) →
        p.updateLayout.mLayout.cells = [some MainElement.axisRect] ∧
          p.updateLayout.mLegendLayout.visible = false) := by
  obtain ⟨d1, d2, d3, d4, d5, d6, d7, d8, d9, d10, d11, d12⟩ := legendPosition_distinct
  rw [← legendShown_iff, updateLayout_mLayout p hlayout, updateLayout_legend_visible p hposition]
  cases hs : p.legendShown <;>
    rcases hposition with h | h | h | h <;>
    simp [h, d1, d2, d3, d4, d5, d6, d7, d8, d9, d10, d11, d12]

/-- C22 at a concrete input: `legendLeftPlot` has one legend entry and its legend at the left;
after `updateLayout` the main layout is the legend layout followed by the axis rectangle, and the
legend layout is visible. -/
theorem updateLayout_composition_witness :
    legendLeftPlot.updateLayout.mLayout.cells =
        [some MainElement.legendLayout, some MainElement.axisRect] ∧
      legendLeftPlot.updateLayout.mLegendLayout.visible = true :=
  have h := updateLayout_composition legendLeftPlot (Or.inr (Or.inl rfl)) (by decide)
  ⟨(h.2.2.2.1 ⟨rfl, by decide⟩).1 (Or.inl rfl), h.2.2.1.2 ⟨rfl, by decide⟩⟩

/-! ## The legend layout and the graphs -/

theorem legendCells_length (ds : List QTBValueDisplay) :
    (legendCells ds).length = ds.length + 2 := by
  simp [legendCells]

theorem legendCells_isSome (ds : List QTBValueDisplay) :
    ∀ c ∈ legendCells ds, c.isSome = true := by
  intro c hc
  simp only [legendCells, List.mem_cons, List.mem_append, List.mem_map, List.mem_singleton,
    List.not_mem_nil, or_false] at hc
  rcases hc with hc | ⟨d, _, hc⟩ | hc <;> subst hc <;> rfl

theorem legendCells_filter (ds : List QTBValueDisplay) :
    (legendCells ds).filter Option.isSome = legendCells ds :=
  List.filter_eq_self.2 (legendCells_isSome ds)

theorem legendCells_map (f : QTBValueDisplay → QTBValueDisplay) (ds : List QTBValueDisplay) :
    (legendCells ds).map (Option.map (LegendElement.onValueDisplay f)) =
      legendCells (ds.map f) := by
  simp [legendCells, LegendElement.onValueDisplay]

theorem legendCells_getD (ds : List QTBValueDisplay) (k : Nat) (hk : k < ds.length + 2) :
    ((legendCells ds).getD k none).isSome = true := by
  have hlen : k < (legendCells ds).length := by rw [legendCells_length]; exact hk
  rw [List.getD_eq_getElem _ _ hlen]
  exact legendCells_isSome ds _ (List.getElem_mem _)

theorem addCell_full {α : Type} (e : α) (l : List (Option α))
    (h : ∀ c ∈ l, c.isSome = true) : addCell e l = l ++ [some e] := by
  induction l with
  | nil => rfl
  | cons c cs ih =>
      cases c with
      | none => simpa using h none (List.mem_cons_self _ _)
      | some x =>
          simp only [addCell, List.cons_append]
          rw [ih (fun c hc => h c (List.mem_cons_of_mem _ hc))]

theorem displayCells_filter (ds : List QTBValueDisplay) :
    (ds.map (fun legend => some (LegendElement.valueDisplay legend))).filter Option.isSome =
      ds.map (fun legend => some (LegendElement.valueDisplay legend)) := by
  apply List.filter_eq_self.2
  intro c hc
  simp only [List.mem_map] at hc
  obtain ⟨d, _, hc⟩ := hc
  subst hc
  rfl

theorem takeCell_last (ds : List QTBValueDisplay) :
    takeCell LegendElement.isEmptyElementLast
        (ds.map (fun legend => some (LegendElement.valueDisplay legend)) ++
          [some LegendElement.emptyElementLast]) =
      ds.map (fun legend => some (LegendElement.valueDisplay legend)) ++ [none] := by
  induction ds with
  | nil => rfl
  | cons d ds ih => simp [takeCell, LegendElement.isEmptyElementLast, ih]

theorem legendCells_insert (ds : List QTBValueDisplay) (legend : QTBValueDisplay) :
    addCell LegendElement.emptyElementLast
        (addCell (LegendElement.valueDisplay legend)
          ((takeCell LegendElement.isEmptyElementLast (legendCells ds)).filter Option.isSome)) =
      legendCells (ds ++ [legend]) := by
  have h1 : takeCell LegendElement.isEmptyElementLast (legendCells ds) =
      some LegendElement.emptyElementFirst ::
        (ds.map (fun legend => some (LegendElement.valueDisplay legend)) ++ [none]) := by
    simp only [legendCells, takeCell, LegendElement.isEmptyElementLast, takeCell_last]
    simp
  have h2 : (takeCell LegendElement.isEmptyElementLast (legendCells ds)).filter Option.isSome =
      some LegendElement.emptyElementFirst ::
        ds.map (fun legend => some (LegendElement.valueDisplay legend)) := by
    rw [h1, List.filter_cons_of_pos (by simp), List.filter_append, displayCells_filter]
    simp
  have hall : ∀ c ∈ some LegendElement.emptyElementFirst ::
      ds.map (fun legend => some (LegendElement.valueDisplay legend)), c.isSome = true := by
    intro c hc
    simp only [List.mem_cons, List.mem_map] at hc
    rcases hc with hc | ⟨d, _, hc⟩ <;> subst hc <;> rfl
  rw [h2, addCell_full _ _ hall, addCell_full]
  · simp [legendCells]
  · intro c hc
    simp only [List.mem_append, List.mem_singleton] at hc
    rcases hc with hc | hc
    · exact hall c hc
    · subst hc; rfl

theorem map_set_none_filter (ds : List QTBValueDisplay) :
    ∀ i : Nat, i < ds.length →
      ((ds.map (fun legend => some (LegendElement.valueDisplay legend))).set i none).filter
          Option.isSome =
        (ds.eraseIdx i).map (fun legend => some (LegendElement.valueDisplay legend)) := by
  induction ds with
  | nil => intro i hi; simp at hi
  | cons d ds ih =>
      intro i hi
      cases i with
      | zero =>
          simp only [List.map_cons, List.set_cons_zero, List.eraseIdx_cons_zero]
          rw [List.filter_cons_of_neg (by simp), displayCells_filter]
      | succ k =>
          have hk : k < ds.length := by simpa using hi
          simp only [List.map_cons, List.set_cons_succ, List.eraseIdx_cons_succ]
          rw [List.filter_cons_of_pos (by simp), ih k hk]

theorem legendCells_remove (ds : List QTBValueDisplay) (i : Nat) (hi : i < ds.length) :
    ((legendCells ds).set (i + 1) none).filter Option.isSome = legendCells (ds.eraseIdx i) := by
  have hlen : i < (ds.map (fun legend => some (LegendElement.valueDisplay legend))).length := by
    simpa using hi
  simp only [legendCells, List.set_cons_succ]
  rw [List.set_append_left _ _ hlen, List.filter_cons_of_pos (by simp), List.filter_append,
    map_set_none_filter ds i hi]
  simp

theorem legendCells_at (ds : List QTBValueDisplay) (i : Nat) (hi : i < ds.length) :
    (legendCells ds).getD (i + 1) none = some (LegendElement.valueDisplay (ds.getD i default)) := by
  simp only [legendCells, List.getD_cons_succ]
  rw [List.getD_append _ _ _ _ (by simpa using hi)]
  simp [List.getD_eq_getElem?_getD, hi]

theorem legendCells_display_index (ds : List QTBValueDisplay) (n : Nat) (legend : QTBValueDisplay)
    (h : (legendCells ds).getD n none = some (LegendElement.valueDisplay legend)) :
    ∃ k, n = k + 1 ∧ k < ds.length := by
  cases n with
  | zero => simp [legendCells] at h
  | succ k =>
      refine ⟨k, rfl, ?_⟩
      by_contra hk
      simp only [not_lt] at hk
      simp only [legendCells, List.getD_cons_succ] at h
      rw [List.getD_append_right _ _ _ _ (by simpa using hk)] at h
      simp only [List.length_map] at h
      cases hd : k - ds.length with
      | zero => simp [hd] at h
      | succ j => simp [hd] at h

theorem legendCells_set (ds : List QTBValueDisplay) (k : Nat) (legend : QTBValueDisplay)
    (hk : k < ds.length) :
    (legendCells ds).set (k + 1) (some (LegendElement.valueDisplay legend)) =
      legendCells (ds.set k legend) := by
  simp only [legendCells, List.set_cons_succ]
  rw [List.set_append_left _ _ (by simpa using hk)]
  simp [List.map_set]

theorem updateLegendSize_legendCells (p : QTBPlotTime) (ds : List QTBValueDisplay)
    (h : p.mLegendLayout.cells = legendCells ds) : p.updateLegendSize = some p := by
  unfold QTBPlotTime.updateLegendSize
  split
  · rw [if_pos]
    rw [List.all_eq_true]
    intro k hk
    simp only [List.mem_range, QCPLayoutGrid.elementCount, h, legendCells_length] at hk
    simp only [QCPLayoutGrid.elementAt, h]
    exact legendCells_getD ds (k + 1) (by omega)
  · rfl

theorem updateLayout_legendCells (p : QTBPlotTime) (ds : List QTBValueDisplay)
    (h : p.mLegendLayout.cells = legendCells ds) :
    ∃ ds', ds'.length = ds.length ∧ p.updateLayout.mLegendLayout.cells = legendCells ds' := by
  simp only [QTBPlotTime.updateLayout, QTBPlotTime.composeLegend]
  split
  · refine ⟨ds.map (fun legend =>
      legend.setOrientation DisplayOrientation.doVerticalAlignLeftRight),
      List.length_map _ _, ?_⟩
    cases p.legendShown <;>
      simp only [QCPLayoutGrid.setFillOrder, QCPLayoutGrid.setVisible, h, legendCells_filter,
        legendCells_map, if_true, Bool.false_eq_true, if_false]
  · split
    · refine ⟨ds.map (fun legend =>
        legend.setOrientation DisplayOrientation.doVerticalAlignCenter),
        List.length_map _ _, ?_⟩
      cases p.legendShown <;>
        simp only [QCPLayoutGrid.setFillOrder, QCPLayoutGrid.setVisible, h, legendCells_filter,
          legendCells_map, if_true, Bool.false_eq_true, if_false]
    · exact ⟨ds, rfl, h⟩

theorem updateThresholdsItems_graphs_length (p : QTBPlotTime) :
    p.updateThresholdsItems.mAxisRect.graphs.length = p.mAxisRect.graphs.length := by
  simp only [QTBPlotTime.updateThresholdsItems, updateThresholdsItemsFrom_graphs,
    modifyEach_length]

theorem updateElement_legendCells (m : ElementMethods) (p : QTBPlotTime)
    (ds : List QTBValueDisplay) (h : p.mLegendLayout.cells = legendCells ds) :
    ∃ q ds', p.updateElement m = some q ∧ q.mLegendLayout.cells = legendCells ds' ∧
      ds'.length = ds.length ∧ q.mAxisRect.graphs.length = p.mAxisRect.graphs.length ∧
      q.mParametersMaxCount = p.mParametersMaxCount := by
  obtain ⟨ds1, hlen1, hcells1⟩ := updateLayout_legendCells p ds h
  have heq : p.updateElement m = some (QTBPlotTime.updateThresholdsItems
      { p.updateLayout with mLegendLayout := { p.updateLayout.mLegendLayout with
          cells := p.updateLayout.mLegendLayout.cells.map
            (Option.map (LegendElement.onValueDisplay m.displayUpdateElement)) } }) := by
    simp only [QTBPlotTime.updateElement, updateLegendSize_legendCells p ds h, Option.some_bind]
  refine ⟨_, ds1.map m.displayUpdateElement, heq, ?_, ?_, ?_, ?_⟩
  · show (p.updateLayout.mLegendLayout.cells.map _) = _
    rw [hcells1, legendCells_map]
  · rw [List.length_map, hlen1]
  · rw [updateThresholdsItems_graphs_length]
    rfl
  · rfl

theorem fillLastGraph_length (board : QTBoard) (dashParameter : Option BoundParameter)
    (rect rect1 : QTBAxisRect) (h : QTBPlotTime.fillLastGraph board dashParameter rect = some rect1) :
    rect1.graphs.length = rect.graphs.length := by
  unfold QTBPlotTime.fillLastGraph at h
  split at h
  · cases h; rfl
  · split at h
    · cases h
    · cases h
      simp

theorem fillLastGraph_returns (board : QTBoard) (dashParameter : Option BoundParameter)
    (rect : QTBAxisRect) (h : board.dataManager = none ∨ dashParameter ≠ none) :
    ∃ rect1, QTBPlotTime.fillLastGraph board dashParameter rect = some rect1 := by
  unfold QTBPlotTime.fillLastGraph
  split
  · exact ⟨_, rfl⟩
  · rename_i dm hdm
    split
    · rcases h with h | h
      · rw [h] at hdm; cases hdm
      · exact absurd rfl h
    · exact ⟨_, rfl⟩

theorem map_fillLastGraph_returns {β : Type} (f : QTBAxisRect → β) (board : QTBoard)
    (dashParameter : Option BoundParameter) (rect : QTBAxisRect)
    (h : board.dataManager = none ∨ dashParameter ≠ none) :
    ∃ q, (QTBPlotTime.fillLastGraph board dashParameter rect).map f = some q := by
  obtain ⟨rect1, hfill⟩ := fillLastGraph_returns board dashParameter rect h
  exact ⟨f rect1, by rw [hfill]; rfl⟩

theorem addLegendAndGraph_step (m : ElementMethods) (board : QTBoard)
    (dashParameter : Option BoundParameter) (p : QTBPlotTime) (ds : List QTBValueDisplay)
    (hcells : p.mLegendLayout.cells = legendCells ds)
    (hlen : ds.length = p.mAxisRect.graphs.length)
    (hle : p.mAxisRect.graphs.length ≤ p.mParametersMaxCount) :
    (∀ q, p.addLegendAndGraph m board dashParameter = some q →
      (∃ ds', q.mLegendLayout.cells = legendCells ds' ∧
        ds'.length = q.mAxisRect.graphs.length) ∧
      q.mAxisRect.graphs.length ≤ q.mParametersMaxCount ∧
      q.mParametersMaxCount = p.mParametersMaxCount) ∧
    ((board.dataManager = none ∨ dashParameter ≠ none) →
      ∃ q, p.addLegendAndGraph m board dashParameter = some q) := by
  unfold QTBPlotTime.addLegendAndGraph
  simp only [QCPLayoutGrid.elementCount, hcells, legendCells_length, QCPLayoutGrid.elementAt]
  split
  · rename_i hfull
    have hds : ds.length = p.mParametersMaxCount := by omega
    split
    · rename_i legend hat
      obtain ⟨k, hk, hklen⟩ := legendCells_display_index ds _ legend hat
      have hne : p.mAxisRect.graphs ≠ [] := by
        intro he
        have h0 : ds.length = 0 := by rw [hlen, he]; rfl
        omega
      simp only [hne, if_false]
      constructor
      · intro q hq
        simp only [Option.map_eq_some'] at hq
        obtain ⟨rect1, hfill, hq⟩ := hq
        have hl := fillLastGraph_length _ _ _ _ hfill
        simp only [List.length_modify] at hl
        subst hq
        refine ⟨⟨ds.set k (m.displayAddParameter legend dashParameter), ?_, ?_⟩, ?_, rfl⟩
        · show (legendCells ds).set p.parametersCount _ = _
          rw [hk, legendCells_set ds k _ hklen]
        · simp only [List.length_set]
          show ds.length = rect1.graphs.length
          omega
        · show rect1.graphs.length ≤ p.mParametersMaxCount
          omega
      · intro hprog
        exact map_fillLastGraph_returns _ board dashParameter _ hprog
    · constructor
      · intro q hq
        cases hq
        exact ⟨⟨ds, hcells, hlen⟩, hle, rfl⟩
      · intro _
        exact ⟨_, rfl⟩
  · rename_i hfull
    constructor
    · intro q hq
      simp only [Option.map_eq_some'] at hq
      obtain ⟨rect1, hfill, hq⟩ := hq
      have hl := fillLastGraph_length _ _ _ _ hfill
      simp only [List.length_append, List.length_singleton] at hl
      subst hq
      refine ⟨⟨ds ++ [if p.mLegendPosition = lpLeft ∨ p.mLegendPosition = lpRight then
          ((m.displayAddParameter (m.newValueDisplay board) dashParameter).setTransparentBackground
            true).setOrientation DisplayOrientation.doVerticalAlignLeftRight
        else
          ((m.displayAddParameter (m.newValueDisplay board) dashParameter).setTransparentBackground
            true).setOrientation DisplayOrientation.doVerticalAlignCenter], ?_, ?_⟩, ?_, rfl⟩
      · simp only [QCPLayoutGrid.addElement, QCPLayoutGrid.simplify, QCPLayoutGrid.take, hcells]
        exact legendCells_insert ds _
      · simp only [List.length_append, List.length_singleton]
        show ds.length + 1 = rect1.graphs.length
        omega
      · show rect1.graphs.length ≤ p.mParametersMaxCount
        omega
    · intro hprog
      exact map_fillLastGraph_returns _ board dashParameter _ hprog

theorem addParameter_step (m : ElementMethods) (board : QTBoard)
    (dashParameter : Option BoundParameter) (p : QTBPlotTime) (ds : List QTBValueDisplay)
    (hcells : p.mLegendLayout.cells = legendCells ds)
    (hlen : ds.length = p.mAxisRect.graphs.length)
    (hle : p.mAxisRect.graphs.length ≤ p.mParametersMaxCount) :
    (∀ q, p.addParameter m board dashParameter = some q →
      (∃ ds', q.mLegendLayout.cells = legendCells ds' ∧
        ds'.length = q.mAxisRect.graphs.length) ∧
      q.mAxisRect.graphs.length ≤ q.mParametersMaxCount ∧
      q.mParametersMaxCount = p.mParametersMaxCount) ∧
    ((board.dataManager = none ∨ dashParameter ≠ none) →
      ∃ q, p.addParameter m board dashParameter = some q) := by
  obtain ⟨hstep, hreturns⟩ := addLegendAndGraph_step m board dashParameter
    { p with mDashParameters :=
        m.elementAddParameter p.mParametersMaxCount p.mDashParameters dashParameter }
    ds hcells hlen hle
  unfold QTBPlotTime.addParameter
  constructor
  · intro q hq
    simp only [Option.bind_eq_some] at hq
    obtain ⟨p2, hp2, hq⟩ := hq
    obtain ⟨⟨ds2, hcells2, hlen2⟩, hle2, hmax2⟩ := hstep p2 hp2
    obtain ⟨q1, ds3, hq1, hcells3, hlen3, hgraphs3, hmax3⟩ :=
      updateElement_legendCells m p2 ds2 hcells2
    rw [hq1] at hq
    cases hq
    refine ⟨⟨ds3, hcells3, ?_⟩, ?_, ?_⟩
    · omega
    · omega
    · rw [hmax3, hmax2]
  · intro hprog
    obtain ⟨p2, hp2⟩ := hreturns hprog
    obtain ⟨⟨ds2, hcells2, _⟩, _, _⟩ := hstep p2 hp2
    obtain ⟨q1, _, hq1, _⟩ := updateElement_legendCells m p2 ds2 hcells2
    exact ⟨q1, by simp only [hp2, Option.some_bind, hq1]⟩

theorem removeDashParameter_step (m : ElementMethods) (index : Nat) (p : QTBPlotTime)
    (ds : List QTBValueDisplay) (hcells : p.mLegendLayout.cells = legendCells ds)
    (hlen : ds.length = p.mAxisRect.graphs.length)
    (hle : p.mAxisRect.graphs.length ≤ p.mParametersMaxCount) :
    (∀ q, p.removeDashParameter m index = some q →
      (∃ ds', q.mLegendLayout.cells = legendCells ds' ∧
        ds'.length = q.mAxisRect.graphs.length) ∧
      q.mAxisRect.graphs.length ≤ q.mParametersMaxCount ∧
      q.mParametersMaxCount = p.mParametersMaxCount) ∧
    (index < p.mAxisRect.graphs.length → ∃ q, p.removeDashParameter m index = some q) := by
  unfold QTBPlotTime.removeDashParameter
  by_cases hi : index < p.mAxisRect.graphs.length
  · have hids : index < ds.length := by omega
    have htake : p.mLegendLayout.takeAt (index + 1) =
        (some (LegendElement.valueDisplay (ds.getD index default)),
          { p.mLegendLayout with cells := (legendCells ds).set (index + 1) none }) := by
      simp only [QCPLayoutGrid.takeAt, QCPLayoutGrid.elementAt, hcells,
        legendCells_at ds index hids]
    simp only [hi, if_true, htake]
    obtain ⟨q1, ds3, hq1, hcells3, hlen3, hgraphs3, hmax3⟩ :=
      updateElement_legendCells m
        { p with
          mAxisRect := { p.mAxisRect with graphs := p.mAxisRect.graphs.eraseIdx index }
          mLegendLayout :=
            QCPLayoutGrid.simplify
              { p.mLegendLayout with cells := (legendCells ds).set (index + 1) none }
          mDashParameters := m.elementRemoveDashParameter p.mDashParameters index }
        (ds.eraseIdx index) (legendCells_remove ds index hids)
    have hg : (p.mAxisRect.graphs.eraseIdx index).length = p.mAxisRect.graphs.length - 1 := by
      rw [List.length_eraseIdx, if_pos hi]
    have hd : (ds.eraseIdx index).length = ds.length - 1 := by
      rw [List.length_eraseIdx, if_pos hids]
    have hgraphs4 : q1.mAxisRect.graphs.length = p.mAxisRect.graphs.length - 1 := by
      rw [hgraphs3]; exact hg
    constructor
    · intro q hq
      rw [hq1] at hq
      cases hq
      refine ⟨⟨ds3, hcells3, ?_⟩, ?_, ?_⟩
      · omega
      · have hmax4 : q1.mParametersMaxCount = p.mParametersMaxCount := hmax3
        omega
      · exact hmax3
    · intro _
      exact ⟨q1, hq1⟩
  · rw [if_neg hi]
    exact ⟨fun q hq => Option.noConfusion hq, fun h => absurd h hi⟩

/-- C23: the legend/graph correspondence of `QTBPlotTime`.  In every state that
`initializeElement` with a board, followed by any sequence of `addParameter(dashParameter)` and
`removeDashParameter(index)` calls that return, produces from a new plot, the legend layout is the
first empty element, then one value display per graph, then the last empty element; the number
of graphs is the element count of the legend minus 2 and does not exceed `parametersMaxCount()`,
which is 8.  In such a state `addParameter` returns for every board without data manager and for
every non-null parameter, and `removeDashParameter` returns for every index of a graph. -/
theorem legend_matches_graphs (m : ElementMethods) (p : QTBPlotTime) (h : PlotReachable m p) :
    LegendMatchesGraphs p ∧
      p.mAxisRect.graphs.length = p.mLegendLayout.elementCount - 2 ∧
      p.mAxisRect.graphs.length ≤ p.mParametersMaxCount ∧
      p.mParametersMaxCount = 8 ∧
      (∀ (board : QTBoard) (dashParameter : Option BoundParameter),
        (board.dataManager = none ∨ dashParameter ≠ none) →
          ∃ q, p.addParameter m board dashParameter = some q) ∧
      (∀ index : Nat, index < p.mAxisRect.graphs.length →
        ∃ q, p.removeDashParameter m index = some q) := by
  have hinv : LegendMatchesGraphs p ∧ p.mAxisRect.graphs.length ≤ p.mParametersMaxCount ∧
      p.mParametersMaxCount = 8 := by
    induction h with
    | initialized board a b =>
        exact ⟨⟨[], rfl, rfl⟩, Nat.zero_le _, rfl⟩
    | added board dashParameter p q _ hq ih =>
        obtain ⟨⟨ds, hcells, hlen⟩, hle, hmax⟩ := ih
        obtain ⟨hm, hle2, hmax2⟩ :=
          (addParameter_step m board dashParameter p ds hcells hlen hle).1 q hq
        exact ⟨hm, hle2, hmax2.trans hmax⟩
    | removed index p q _ hq ih =>
        obtain ⟨⟨ds, hcells, hlen⟩, hle, hmax⟩ := ih
        obtain ⟨hm, hle2, hmax2⟩ :=
          (removeDashParameter_step m index p ds hcells hlen hle).1 q hq
        exact ⟨hm, hle2, hmax2.trans hmax⟩
  obtain ⟨⟨ds, hcells, hlen⟩, hle, hmax⟩ := hinv
  refine ⟨⟨ds, hcells, hlen⟩, ?_, hle, hmax, ?_, ?_⟩
  · simp only [QCPLayoutGrid.elementCount, hcells, legendCells_length]
    omega
  · intro board dashParameter hprog
    exact (addParameter_step m board dashParameter p ds hcells hlen hle).2 hprog
  · intro index hi
    exact (removeDashParameter_step m index p ds hcells hlen hle).2 hi

/-- C23 at a concrete input: `composedPlot` is the result of `addParameter` on a new, initialised
plot; it holds one graph and three legend elements. -/
theorem legend_matches_graphs_witness :
    PlotReachable listMethods composedPlot ∧
      composedPlot.mAxisRect.graphs.length = 1 ∧
      composedPlot.mLegendLayout.elementCount = 3 ∧
      composedPlot.mAxisRect.graphs.length = composedPlot.mLegendLayout.elementCount - 2 ∧
      composedPlot.mAxisRect.graphs.length ≤ 8 :=
  have hreach : PlotReachable listMethods composedPlot :=
    PlotReachable.added (boardWithValue 0) (some {}) _ _
      (PlotReachable.initialized (boardWithValue 0) 0 0) rfl
  have h := legend_matches_graphs listMethods composedPlot hreach
  ⟨hreach, rfl, rfl, h.2.1, h.2.2.2.1 ▸ h.2.2.1⟩

/-! ## The main layout in the reachable states -/

theorem updateLayout_nodup (p : QTBPlotTime) (h : (p.mLayout.cells.filterMap id).Nodup) :
    (p.updateLayout.mLayout.cells.filterMap id).Nodup := by
  rw [updateLayout_mLayout p h]
  split
  · split <;> decide
  · split
    · split <;> decide
    · decide

theorem updateElement_mLayout (m : ElementMethods) (p q : QTBPlotTime)
    (h : p.updateElement m = some q) : q.mLayout = p.updateLayout.mLayout := by
  unfold QTBPlotTime.updateElement at h
  simp only [Option.bind_eq_some] at h
  obtain ⟨p1, hp1, hq⟩ := h
  have hp : p1 = p := by
    unfold QTBPlotTime.updateLegendSize at hp1
    split at hp1
    · split at hp1
      · cases hp1; rfl
      · cases hp1
    · cases hp1; rfl
  subst hp
  cases hq
  rfl

theorem addLegendAndGraph_mLayout (m : ElementMethods) (board : QTBoard)
    (dashParameter : Option BoundParameter) (p q : QTBPlotTime)
    (h : p.addLegendAndGraph m board dashParameter = some q) : q.mLayout = p.mLayout := by
  unfold QTBPlotTime.addLegendAndGraph at h
  split at h
  · split at h
    · split at h
      · cases h
      · simp only [Option.map_eq_some'] at h
        obtain ⟨rect1, _, hq⟩ := h
        subst hq
        rfl
    · cases h
      rfl
  · simp only [Option.map_eq_some'] at h
    obtain ⟨rect1, _, hq⟩ := h
    subst hq
    rfl

theorem plotReachable_layout_nodup (m : ElementMethods) (p : QTBPlotTime)
    (h : PlotReachable m p) : (p.mLayout.cells.filterMap id).Nodup := by
  induction h with
  | initialized board a b =>
      show ([MainElement.axisRect] : List MainElement).Nodup
      exact List.nodup_singleton _
  | added board dashParameter p q _ hq ih =>
      unfold QTBPlotTime.addParameter at hq
      simp only [Option.bind_eq_some] at hq
      obtain ⟨p2, hp2, hq⟩ := hq
      have h2 := addLegendAndGraph_mLayout m board dashParameter _ p2 hp2
      rw [updateElement_mLayout m p2 q hq]
      apply updateLayout_nodup
      rw [h2]
      exact ih
  | removed index p q _ hq ih =>
      unfold QTBPlotTime.removeDashParameter at hq
      split at hq
      · split at hq
        · cases hq
        · rw [updateElement_mLayout m _ q hq]
          apply updateLayout_nodup
          exact ih
      · cases hq

/-! ## The exclusive configuration under `update` and `setParameterId` -/

theorem setColors_exclusive (p : QTBDashboardParameter) (cs : QTBColorSettings) :
    (p.setColors cs).mExclusiveParameterConfiguration = p.mExclusiveParameterConfiguration := rfl

theorem update_exclusive (board : QTBoard) (mode : UpdateMode) (h : Heap)
    (p p1 : QTBDashboardParameter) (hu : p.update board mode h = some p1) :
    p1.mExclusiveParameterConfiguration = p.mExclusiveParameterConfiguration := by
  unfold QTBDashboardParameter.update at hu
  split at hu
  · simp only [Option.bind_eq_some] at hu
    obtain ⟨dm, _, hu⟩ := hu
    split at hu
    · simp only [Option.bind_eq_some] at hu
      obtain ⟨c, _, hu⟩ := hu
      split at hu
      · split at hu
        · cases hu; rfl
        · split at hu
          · split at hu <;> (cases hu; rfl)
          · cases hu; rfl
      · split at hu
        · split at hu <;> (cases hu; rfl)
        · cases hu; rfl
    · cases hu; rfl
  · cases hu; rfl

theorem setParameterId_exclusive (p : QTBDashboardParameter) (parameterId : Nat) :
    (p.setParameterId parameterId).mExclusiveParameterConfiguration =
      p.mExclusiveParameterConfiguration := rfl

end CuteBoard
